import Mathlib

/-!
Verification development for the Epoch/Fugue toolchain (semantic builder,
IR, and bytecode loader).  Each C++ routine under scrutiny is embedded as a
Lean function; machine integers are modelled as Int, the mutable parser and
loader state as explicit records, and failure (C++ exceptions) as Except.
Helper entities whose C++ definitions live outside the analysed sources
(e.g. ScopeDescription internals) are modelled from the specification and
marked as such in their doc comments.
-/

/-- The closed set of primitive type tags of the Epoch VM
(`VM::EpochVariableTypeID`). -/
inductive EpochType where
  | nullT
  | integer
  | integer16
  | real
  | boolean
  | stringT
  | tuple
  | structureT
  | functionT
  | address
  | array
  | taskHandle
  | buffer
  | errorT
deriving DecidableEq, Repr

namespace Strings

/-- The whitespace set of `StripWhitespace` (`Strings.cpp`): space, tab,
carriage return, line feed. -/
def isWhitespaceChar (c : Char) : Bool :=
  c == ' ' || c == '\t' || c == '\r' || c == '\n'

/-- `std::wstring::find_first_not_of` over the whitespace set: index of the
first character outside the set, `none` for `npos`. -/
def findFirstNotOf (cs : List Char) : Option Nat :=
  cs.findIdx? (fun c => ! isWhitespaceChar c)

/-- `std::wstring::find_last_not_of` over the whitespace set: index of the
last character outside the set, `none` for `npos`. -/
def findLastNotOf (cs : List Char) : Option Nat :=
  (cs.reverse.findIdx? (fun c => ! isWhitespaceChar c)).map
    (fun i => cs.length - 1 - i)

/-- Embedding of `StripWhitespace` (`Strings.cpp`, lines 77-88).  The final
`substr(pos, endpos - pos + 1)` call throws `std::out_of_range` when
`pos == npos` (i.e. `pos > size()`), which happens exactly when the string is
non-empty and entirely whitespace; that failure is modelled as `none`.
When `pos` is a valid index the `substr` call cannot throw (a count running
past the end is clamped by `substr`), which the unreachable mixed branch
reflects. -/
def stripWhitespace (cs : List Char) : Option (List Char) :=
  if cs.isEmpty then some cs
  else
    match findFirstNotOf cs, findLastNotOf cs with
    | some pos, some endpos => some ((cs.drop pos).take (endpos - pos + 1))
    | some pos, none => some (cs.drop pos)
    | none, _ => none

/-- Specification-side trim: drop leading and trailing whitespace, i.e. the
substring from the first to the last non-whitespace character. -/
def trimSpec (cs : List Char) : List Char :=
  ((cs.dropWhile isWhitespaceChar).reverse.dropWhile isWhitespaceChar).reverse

theorem strings_findFirstNotOf_of_exists (cs : List Char)
    (h : ∃ c ∈ cs, isWhitespaceChar c = false) :
    findFirstNotOf cs = some (cs.takeWhile isWhitespaceChar).length := by
  induction cs with
  | nil => simp at h
  | cons c t ih =>
      by_cases hc : isWhitespaceChar c
      · have hex : ∃ x ∈ t, isWhitespaceChar x = false := by
          rcases h with ⟨x, hx, hxw⟩
          rcases List.mem_cons.mp hx with rfl | hxt
          · simp [hc] at hxw
          · exact ⟨x, hxt, hxw⟩
        have hrec := ih hex
        simp only [findFirstNotOf] at hrec ⊢
        simp [List.findIdx?_cons, hc, hrec, List.takeWhile_cons,
          List.findIdx?_succ]
      · simp only [findFirstNotOf]
        simp [List.findIdx?_cons, hc, List.takeWhile_cons]

theorem strings_findFirstNotOf_of_all (cs : List Char)
    (h : ∀ c ∈ cs, isWhitespaceChar c = true) :
    findFirstNotOf cs = none := by
  induction cs with
  | nil => simp [findFirstNotOf]
  | cons c t ih =>
      have hc := h c (by simp)
      have ht : ∀ x ∈ t, isWhitespaceChar x = true := fun x hx => h x (by simp [hx])
      simp only [findFirstNotOf] at ih ⊢
      simp [List.findIdx?_cons, hc, ih ht, List.findIdx?_succ]

theorem strings_drop_takeWhile_length (p : Char → Bool) (cs : List Char) :
    cs.drop (cs.takeWhile p).length = cs.dropWhile p := by
  induction cs with
  | nil => simp
  | cons c t ih =>
      by_cases h : p c
      · simpa [List.takeWhile_cons, List.dropWhile_cons, h] using ih
      · simp [List.takeWhile_cons, List.dropWhile_cons, h]

theorem strings_takeWhile_append_left (p : Char → Bool) (l r : List Char)
    (h : (l.takeWhile p).length < l.length) :
    (l ++ r).takeWhile p = l.takeWhile p := by
  induction l with
  | nil => simp at h
  | cons c t ih =>
      by_cases hc : p c
      · simp only [List.takeWhile_cons, hc, if_true, List.length_cons,
          Nat.succ_lt_succ_iff] at h ⊢
        simp [List.cons_append, List.takeWhile_cons, hc, ih h]
      · simp [List.cons_append, List.takeWhile_cons, hc]

theorem strings_takeWhile_length_lt (p : Char → Bool) (l : List Char)
    (x : Char) (hx : x ∈ l) (hpx : p x = false) :
    (l.takeWhile p).length < l.length := by
  rcases Nat.lt_or_ge (l.takeWhile p).length l.length with h | h
  · exact h
  · exfalso
    have hle := (List.takeWhile_prefix (l := l) p).length_le
    have heq : (l.takeWhile p).length = l.length := le_antisymm hle h
    have : l.takeWhile p = l :=
      (List.takeWhile_prefix p).eq_of_length heq
    have hall := List.takeWhile_eq_self_iff.mp this
    rw [hall x hx] at hpx
    simp at hpx

/-- C10.  `StripWhitespace` returns the substring extending from the first to
the last non-whitespace character whenever the input contains one, returns the
empty string unchanged, and fails (the `substr` call throws, because
`find_first_not_of` yields `npos`) on every non-empty all-whitespace input. -/
theorem c10_stripWhitespace_partial_totality :
    (∀ cs : List Char, (∃ c ∈ cs, isWhitespaceChar c = false) →
        stripWhitespace cs = some (trimSpec cs))
    ∧ stripWhitespace [] = some []
    ∧ (∀ cs : List Char, cs ≠ [] → (∀ c ∈ cs, isWhitespaceChar c = true) →
        stripWhitespace cs = none) := by
  refine ⟨?_, by simp [stripWhitespace], ?_⟩
  · intro cs h
    have hne : cs ≠ [] := by
      rcases h with ⟨c, hc, _⟩
      exact List.ne_nil_of_mem hc
    set d := cs.dropWhile isWhitespaceChar with hd
    have hdne : d ≠ [] := by
      intro hnil
      rcases h with ⟨c, hc, hw⟩
      have := List.dropWhile_eq_nil_iff.mp (hd ▸ hnil)
      rw [this c hc] at hw
      simp at hw
    have hrev : ∃ c ∈ cs.reverse, isWhitespaceChar c = false := by
      rcases h with ⟨c, hc, hw⟩
      exact ⟨c, List.mem_reverse.mpr hc, hw⟩
    set a := (cs.takeWhile isWhitespaceChar).length with ha
    set b := (cs.reverse.takeWhile isWhitespaceChar).length with hb
    have hfirst : findFirstNotOf cs = some a := strings_findFirstNotOf_of_exists cs h
    have hlast : findLastNotOf cs = some (cs.length - 1 - b) := by
      simp only [findLastNotOf]
      rw [show cs.reverse.findIdx? (fun c => ! isWhitespaceChar c)
            = findFirstNotOf cs.reverse from rfl,
        strings_findFirstNotOf_of_exists cs.reverse hrev]
      rfl
    -- the reversed string is the reversed dropWhile-part followed by
    -- reversed leading whitespace; its whitespace prefix lives in d.reverse
    have hsplit : cs.reverse = d.reverse ++ (cs.takeWhile isWhitespaceChar).reverse := by
      conv_lhs => rw [← List.takeWhile_append_dropWhile
        (p := isWhitespaceChar) (l := cs)]
      rw [List.reverse_append, hd]
    have hheadd : isWhitespaceChar (d.head hdne) = false := by
      have := List.head_dropWhile_not isWhitespaceChar cs (w := hd ▸ hdne)
      simpa [← hd] using this
    have hmemhead : d.head hdne ∈ d.reverse :=
      List.mem_reverse.mpr (List.head_mem hdne)
    have hdlt : (d.reverse.takeWhile isWhitespaceChar).length < d.reverse.length :=
      strings_takeWhile_length_lt _ _ _ hmemhead hheadd
    have hbeq : b = (d.reverse.takeWhile isWhitespaceChar).length := by
      rw [hb, hsplit, strings_takeWhile_append_left _ _ _ hdlt]
    have hblt : b < d.length := by
      rw [hbeq]
      simpa using hdlt
    have halen : a + d.length = cs.length := by
      rw [ha, hd, ← List.length_append, List.takeWhile_append_dropWhile]
    have hdrop : cs.drop a = d := strings_drop_takeWhile_length _ cs
    have harith : cs.length - 1 - b - a + 1 = d.length - b := by omega
    have htrim : trimSpec cs = d.take (d.length - b) := by
      have h1 : d.reverse.dropWhile isWhitespaceChar = d.reverse.drop b := by
        rw [hbeq, strings_drop_takeWhile_length]
      have h2 : d.reverse.drop b = (d.take (d.length - b)).reverse :=
        List.drop_reverse
      simp [trimSpec, ← hd, h1, h2]
    have hnotempty : cs.isEmpty = false := by
      cases cs
      · exact absurd rfl hne
      · rfl
    rw [stripWhitespace, hnotempty]
    simp only [Bool.false_eq_true, if_false, hfirst, hlast, hdrop, harith, htrim]
  · intro cs hne hall
    have hfo := strings_findFirstNotOf_of_all cs hall
    have hnotempty : cs.isEmpty = false := by
      cases cs
      · exact absurd rfl hne
      · rfl
    rw [stripWhitespace, hnotempty]
    simp only [Bool.false_eq_true, if_false, hfo]

/-- Witness for C10 at concrete inputs: a string with interior content and a
blank-only string. -/
theorem c10_witness :
    stripWhitespace [' ', 'a', 'b', '\t'] = some (trimSpec [' ', 'a', 'b', '\t'])
    ∧ stripWhitespace [' ', '\t'] = none := by
  constructor
  · exact c10_stripWhitespace_partial_totality.1 [' ', 'a', 'b', '\t']
      ⟨'a', by decide, by decide⟩
  · exact c10_stripWhitespace_partial_totality.2.2 [' ', '\t'] (by decide) (by decide)

end Strings

namespace Arith

/-- The four arithmetic builder families of `Op Generation/Arithmetic.cpp`
(`CreateOperation_Add` / `_Subtract` / `_Multiply` / `_Divide`). -/
inductive ArithFam where
  | add
  | subtract
  | multiply
  | divide
deriving DecidableEq, Repr

/-- Shape of an arithmetic/concatenation operation: the single-operand
fold-over-array form (`numparams = 1`, produced by the default constructor,
cf. `Concatenate()` in `StringOps.h`), or the binary form carrying the two
per-operand is-array flags (`numparams = 2`). -/
inductive ArithForm where
  | fold
  | binary (firstIsArray secondIsArray : Bool)
deriving DecidableEq, Repr

/-- Operations relevant to the arithmetic builders.  `otherOp ty` stands for
any operation outside this set; the builders consult only its `GetType`. -/
inductive AOp where
  | noOp
  | arith (fam : ArithFam) (ety : EpochType) (form : ArithForm)
  | consArray (elem : EpochType)
  | otherOp (ty : EpochType)
deriving DecidableEq, Repr

/-- `Operation::GetType` for the operations above.  `SumIntegers` and friends
report their element type; `ConsArray` reports `Array` (its `GetElementType`
is the payload); `NoOp` has no value type. -/
def AOp.getType : AOp → EpochType
  | .noOp => .nullT
  | .arith _ ety _ => ety
  | .consArray _ => .array
  | .otherOp ty => ty

/-- A lexical scope as consulted by the builders: variable types plus array
element-type hints.  Modelled from the spec: `ScopeDescription` name-keyed
lookups (spec ss. 3, 4.3); only the queries used here are represented. -/
structure BScope where
  vars : List (String × EpochType)
  arrayTypes : List (String × EpochType)
deriving Repr

def BScope.getVariableType (sc : BScope) (name : String) : EpochType :=
  ((sc.vars.find? (fun e => e.1 == name)).map Prod.snd).getD .errorT

def BScope.getArrayType (sc : BScope) (name : String) : EpochType :=
  ((sc.arrayTypes.find? (fun e => e.1 == name)).map Prod.snd).getD .errorT

/-- Entries of the builder operand stack (`ParserState::StackEntry`). -/
inductive StackEntry where
  | identifier (name : String)
  | intLiteral (v : Int)
  | int16Literal (v : Int)
  | realLiteral (bits : Int)
  | boolLiteral (b : Bool)
  | stringLiteral (s : String)
  | operation (op : AOp)
  | scopeEntry
deriving DecidableEq, Repr

/-- `StackEntry::DetermineEffectiveType`.  Modelled from the spec (the
`ParserState` header is outside the analysed sources): identifiers resolve
through the scope, with array variables reporting their element-type hint;
literals report their literal type; operation entries report the operation
type, with array constructors reporting their element type (spec s. 4.4:
"Arrays are accepted if they construct the expression's element type"). -/
def StackEntry.determineEffectiveType (sc : BScope) : StackEntry → EpochType
  | .identifier n =>
      match sc.getVariableType n with
      | .array => sc.getArrayType n
      | t => t
  | .intLiteral _ => .integer
  | .int16Literal _ => .integer16
  | .realLiteral _ => .real
  | .boolLiteral _ => .boolean
  | .stringLiteral _ => .stringT
  | .operation op =>
      match op with
      | .consArray e => e
      | op => op.getType
  | .scopeEntry => .errorT

/-- `StackEntry::IsArray`.  Modelled from the spec: true for operands that
denote an array value (array-typed variables and array constructors); these
feed the per-operand is-array flags of the binary operations. -/
def StackEntry.isArray (sc : BScope) : StackEntry → Bool
  | .identifier n => sc.getVariableType n == .array
  | .operation (.consArray _) => true
  | .operation op => op.getType == .array
  | _ => false

/-- Builder state visible to the arithmetic op builders. -/
structure ArithState where
  passedParameterCount : List Nat
  theStack : List StackEntry
  scope : BScope
  fatalError : Bool

/-- Out-of-model behaviour: C++ would read past the end of an internal
deque/stack (undefined behaviour). -/
inductive CppFault where
  | stackUnderflow
deriving DecidableEq, Repr

/-- Embedding of `ParserState::CreateOperation_Add` (and its three textually
identical siblings, which differ only in the operation family they
construct); `Arithmetic.cpp` lines 24-96 / 102-174 / 180-252 / 258-330.
Returns the updated state paired with the produced operation.  The back of
`TheStack` is the head of the list. -/
def createArithOp (fam : ArithFam) (s : ArithState) :
    Except CppFault (ArithState × AOp) :=
  match s.passedParameterCount.headD 0 with
  | 1 =>
    match s.theStack with
    | [] => .error .stackUnderflow
    | entry :: rest =>
      match entry with
      | .operation op =>
        if op.getType ≠ .array then
          .ok ({ s with theStack := rest, fatalError := true }, .noOp)
        else
          match op with
          | .consArray elem =>
            if elem = .integer then
              .ok ({ s with theStack := rest }, .arith fam .integer .fold)
            else if elem = .integer16 then
              .ok ({ s with theStack := rest }, .arith fam .integer16 .fold)
            else if elem = .real then
              .ok ({ s with theStack := rest }, .arith fam .real .fold)
            else
              .ok ({ s with theStack := rest, fatalError := true }, .noOp)
          | _ =>
            -- dynamic_cast to ConsArray failed: "Expected an array here"
            .ok ({ s with theStack := rest, fatalError := true }, .noOp)
      | _ =>
        .ok ({ s with theStack := rest, fatalError := true }, .noOp)
  | n =>
    if n = 2 then
      match s.theStack with
      | second :: first :: rest =>
        let firsttype := first.determineEffectiveType s.scope
        let secondtype := second.determineEffectiveType s.scope
        if firsttype ≠ secondtype then
          .ok ({ s with theStack := rest, fatalError := true }, .noOp)
        else if firsttype = .integer then
          .ok ({ s with theStack := rest },
            .arith fam .integer (.binary (first.isArray s.scope) (second.isArray s.scope)))
        else if firsttype = .integer16 then
          .ok ({ s with theStack := rest },
            .arith fam .integer16 (.binary (first.isArray s.scope) (second.isArray s.scope)))
        else if firsttype = .real then
          .ok ({ s with theStack := rest },
            .arith fam .real (.binary (first.isArray s.scope) (second.isArray s.scope)))
        else
          .ok ({ s with theStack := rest, fatalError := true }, .noOp)
      | _ => .error .stackUnderflow
    else
      if n ≤ s.theStack.length then
        .ok ({ s with theStack := s.theStack.drop n, fatalError := true }, .noOp)
      else
        .error .stackUnderflow

/-- `ParserState::CreateOperation_Add` (`Arithmetic.cpp` 24-96). -/
def CreateOperation_Add : ArithState → Except CppFault (ArithState × AOp) :=
  createArithOp .add

/-- `ParserState::CreateOperation_Subtract` (`Arithmetic.cpp` 102-174). -/
def CreateOperation_Subtract : ArithState → Except CppFault (ArithState × AOp) :=
  createArithOp .subtract

/-- `ParserState::CreateOperation_Multiply` (`Arithmetic.cpp` 180-252). -/
def CreateOperation_Multiply : ArithState → Except CppFault (ArithState × AOp) :=
  createArithOp .multiply

/-- `ParserState::CreateOperation_Divide` (`Arithmetic.cpp` 258-330). -/
def CreateOperation_Divide : ArithState → Except CppFault (ArithState × AOp) :=
  createArithOp .divide

end Arith

namespace Arith

/-- Complete case analysis of `createArithOp`: every successful run is a
binary success, a fold success, or a fatal-error NoOp with the operands
popped. -/
theorem createArithOp_characterization (fam : ArithFam) (s : ArithState)
    (r : ArithState × AOp) (hok : createArithOp fam s = .ok r) :
    (∃ (second first : StackEntry) (rest : List StackEntry),
        s.passedParameterCount.headD 0 = 2 ∧
        s.theStack = second :: first :: rest ∧
        second.determineEffectiveType s.scope = first.determineEffectiveType s.scope ∧
        (first.determineEffectiveType s.scope = .integer ∨
          first.determineEffectiveType s.scope = .integer16 ∨
          first.determineEffectiveType s.scope = .real) ∧
        r = ({ s with theStack := rest },
          .arith fam (first.determineEffectiveType s.scope)
            (.binary (first.isArray s.scope) (second.isArray s.scope))))
    ∨ (∃ (elem : EpochType) (rest : List StackEntry),
        s.passedParameterCount.headD 0 = 1 ∧
        s.theStack = .operation (.consArray elem) :: rest ∧
        (elem = .integer ∨ elem = .integer16 ∨ elem = .real) ∧
        r = ({ s with theStack := rest }, .arith fam elem .fold))
    ∨ (r.2 = .noOp ∧ r.1.fatalError = true ∧
        r.1.theStack = s.theStack.drop (s.passedParameterCount.headD 0) ∧
        r.1.scope = s.scope ∧
        r.1.passedParameterCount = s.passedParameterCount) := by
  rcases hcnt : s.passedParameterCount.headD 0 with _ | n
  · -- count = 0: arity error, zero pops
    simp only [createArithOp, hcnt] at hok
    simp at hok
    rcases hok with rfl
    exact Or.inr (Or.inr (by simp [hcnt]))
  · rcases n with _ | m
    · -- count = 1
      simp only [createArithOp, hcnt] at hok
      rcases hs : s.theStack with _ | ⟨entry, rest⟩
      · rw [hs] at hok
        simp at hok
      · rw [hs] at hok
        cases entry with
        | operation op =>
            cases op with
            | consArray e =>
                cases e with
                | integer =>
                    simp [AOp.getType] at hok
                    rcases hok with rfl
                    exact Or.inr (Or.inl ⟨.integer, rest, by simp, rfl, by simp, by simp⟩)
                | integer16 =>
                    simp [AOp.getType] at hok
                    rcases hok with rfl
                    exact Or.inr (Or.inl ⟨.integer16, rest, by simp, rfl, by simp, by simp⟩)
                | real =>
                    simp [AOp.getType] at hok
                    rcases hok with rfl
                    exact Or.inr (Or.inl ⟨.real, rest, by simp, rfl, by simp, by simp⟩)
                | nullT | boolean | stringT | tuple | structureT | functionT
                | address | array | taskHandle | buffer | errorT =>
                    simp [AOp.getType] at hok
                    rcases hok with rfl
                    exact Or.inr (Or.inr (by simp [hcnt, hs]))
            | arith f e fo =>
                cases e <;>
                  (simp [AOp.getType] at hok
                   rcases hok with rfl
                   exact Or.inr (Or.inr (by simp [hcnt, hs])))
            | otherOp ty =>
                cases ty <;>
                  (simp [AOp.getType] at hok
                   rcases hok with rfl
                   exact Or.inr (Or.inr (by simp [hcnt, hs])))
            | noOp =>
                simp [AOp.getType] at hok
                rcases hok with rfl
                exact Or.inr (Or.inr (by simp [hcnt, hs]))
        | identifier n' =>
            simp at hok
            rcases hok with rfl
            exact Or.inr (Or.inr (by simp [hcnt, hs]))
        | intLiteral v =>
            simp at hok
            rcases hok with rfl
            exact Or.inr (Or.inr (by simp [hcnt, hs]))
        | int16Literal v =>
            simp at hok
            rcases hok with rfl
            exact Or.inr (Or.inr (by simp [hcnt, hs]))
        | realLiteral v =>
            simp at hok
            rcases hok with rfl
            exact Or.inr (Or.inr (by simp [hcnt, hs]))
        | boolLiteral v =>
            simp at hok
            rcases hok with rfl
            exact Or.inr (Or.inr (by simp [hcnt, hs]))
        | stringLiteral v =>
            simp at hok
            rcases hok with rfl
            exact Or.inr (Or.inr (by simp [hcnt, hs]))
        | scopeEntry =>
            simp at hok
            rcases hok with rfl
            exact Or.inr (Or.inr (by simp [hcnt, hs]))
    · -- count = m + 2
      simp only [createArithOp, hcnt] at hok
      by_cases hm : m = 0
      · subst hm
        simp only [if_pos rfl] at hok
        rcases hs : s.theStack with _ | ⟨second, rest2⟩
        · rw [hs] at hok
          simp at hok
        · rcases rest2 with _ | ⟨first, rest⟩
          · rw [hs] at hok
            simp at hok
          · rw [hs] at hok
            by_cases heq : second.determineEffectiveType s.scope
                = first.determineEffectiveType s.scope
            · cases hft : first.determineEffectiveType s.scope with
              | integer =>
                  rw [hft] at heq
                  simp [heq, hft] at hok
                  rcases hok with rfl
                  exact Or.inl ⟨second, first, rest, by simp, rfl,
                    by rw [heq, hft], by simp [hft], by simp [hft]⟩
              | integer16 =>
                  rw [hft] at heq
                  simp [heq, hft] at hok
                  rcases hok with rfl
                  exact Or.inl ⟨second, first, rest, by simp, rfl,
                    by rw [heq, hft], by simp [hft], by simp [hft]⟩
              | real =>
                  rw [hft] at heq
                  simp [heq, hft] at hok
                  rcases hok with rfl
                  exact Or.inl ⟨second, first, rest, by simp, rfl,
                    by rw [heq, hft], by simp [hft], by simp [hft]⟩
              | nullT | boolean | stringT | tuple | structureT | functionT
              | address | array | taskHandle | buffer | errorT =>
                  rw [hft] at heq
                  simp [heq, hft] at hok
                  rcases hok with rfl
                  exact Or.inr (Or.inr (by simp [hcnt, hs]))
            · have hne : first.determineEffectiveType s.scope
                  ≠ second.determineEffectiveType s.scope :=
                fun hx => heq hx.symm
              simp [hne] at hok
              rcases hok with rfl
              exact Or.inr (Or.inr (by simp [hcnt, hs]))
      · have hne2 : ¬ (m + 1 + 1 = 2) := by omega
        rw [if_neg hne2] at hok
        split at hok
        · simp at hok
          rcases hok with rfl
          exact Or.inr (Or.inr (by simp [hcnt]))
        · simp at hok

end Arith

namespace Arith

/-- C5.  Contract of the `add`/`subtract`/`multiply`/`divide` builders
(`createArithOp`, instantiated by `CreateOperation_Add` and its siblings):
two operands of the same effective type among Integer, Integer16, Real yield
the typed binary operation carrying the two per-operand is-array flags; a
single array-constructor operand of numeric element type yields the
fold-over-array form; in every other case the builder reports a fatal error
and returns a NoOp; and in every successful call the operand pops happen
regardless (the surviving stack is the input stack with
`PassedParameterCount.top()` entries dropped). -/
theorem c5_arith_builder_contract :
    (∀ (fam : ArithFam) (s : ArithState) (second first : StackEntry)
        (rest : List StackEntry) (t : EpochType),
        s.passedParameterCount.headD 0 = 2 →
        s.theStack = second :: first :: rest →
        first.determineEffectiveType s.scope = t →
        second.determineEffectiveType s.scope = t →
        (t = .integer ∨ t = .integer16 ∨ t = .real) →
        createArithOp fam s =
          .ok ({ s with theStack := rest },
            .arith fam t (.binary (first.isArray s.scope) (second.isArray s.scope))))
    ∧
    (∀ (fam : ArithFam) (s : ArithState) (elem : EpochType)
        (rest : List StackEntry),
        s.passedParameterCount.headD 0 = 1 →
        s.theStack = .operation (.consArray elem) :: rest →
        (elem = .integer ∨ elem = .integer16 ∨ elem = .real) →
        createArithOp fam s =
          .ok ({ s with theStack := rest }, .arith fam elem .fold))
    ∧
    (∀ (fam : ArithFam) (s : ArithState) (r : ArithState × AOp),
        createArithOp fam s = .ok r →
        r.1.theStack = s.theStack.drop (s.passedParameterCount.headD 0) ∧
        (r.2 = .noOp → r.1.fatalError = true) ∧
        (r.2 ≠ .noOp → r.1.fatalError = s.fatalError))
    ∧
    (∀ (fam : ArithFam) (s : ArithState) (r : ArithState × AOp),
        createArithOp fam s = .ok r → r.2 ≠ .noOp →
        (∃ (second first : StackEntry) (rest : List StackEntry),
            s.passedParameterCount.headD 0 = 2 ∧
            s.theStack = second :: first :: rest ∧
            second.determineEffectiveType s.scope
              = first.determineEffectiveType s.scope ∧
            (first.determineEffectiveType s.scope = .integer ∨
              first.determineEffectiveType s.scope = .integer16 ∨
              first.determineEffectiveType s.scope = .real) ∧
            r.2 = .arith fam (first.determineEffectiveType s.scope)
              (.binary (first.isArray s.scope) (second.isArray s.scope)))
        ∨ (∃ (elem : EpochType) (rest : List StackEntry),
            s.passedParameterCount.headD 0 = 1 ∧
            s.theStack = .operation (.consArray elem) :: rest ∧
            (elem = .integer ∨ elem = .integer16 ∨ elem = .real) ∧
            r.2 = .arith fam elem .fold)) := by
  refine ⟨?_, ?_, ?_, ?_⟩
  · intro fam s second first rest t hcount hstack hft hst ht
    simp only [createArithOp, hcount, hstack]
    rcases ht with rfl | rfl | rfl <;> simp [hft, hst]
  · intro fam s elem rest hcount hstack helem
    simp only [createArithOp, hcount, hstack]
    rcases helem with rfl | rfl | rfl <;> simp [AOp.getType]
  · intro fam s r hok
    rcases createArithOp_characterization fam s r hok with
      ⟨second, first, rest, hcnt, hs, _, _, rfl⟩ |
      ⟨elem, rest, hcnt, hs, _, rfl⟩ |
      ⟨hop, hfat, hdrop, _, _⟩
    · refine ⟨by rw [hcnt, hs]; rfl, by simp, fun _ => rfl⟩
    · refine ⟨by rw [hcnt, hs]; rfl, by simp, fun _ => rfl⟩
    · exact ⟨hdrop, fun _ => hfat, fun hne => absurd hop hne⟩
  · intro fam s r hok hne
    rcases createArithOp_characterization fam s r hok with
      ⟨second, first, rest, hcnt, hs, heq2, ht, rfl⟩ |
      ⟨elem, rest, hcnt, hs, helem, rfl⟩ |
      ⟨hop, _, _, _, _⟩
    · exact Or.inl ⟨second, first, rest, hcnt, hs, heq2, ht, rfl⟩
    · exact Or.inr ⟨elem, rest, hcnt, hs, helem, rfl⟩
    · exact absurd hop hne

/-- Witness for C5 at concrete inputs: a binary integer addition, a
fold-over-real-array division, and a fatal arity error for `multiply` with
three parameters. -/
theorem c5_witness :
    (createArithOp .add ⟨[2], [.intLiteral 3, .intLiteral 4], ⟨[], []⟩, false⟩
      = .ok (⟨[2], [], ⟨[], []⟩, false⟩,
          .arith .add .integer (.binary false false)))
    ∧ (createArithOp .divide ⟨[1], [.operation (.consArray .real)], ⟨[], []⟩, false⟩
      = .ok (⟨[1], [], ⟨[], []⟩, false⟩, .arith .divide .real .fold))
    ∧ (((⟨[3], [], ⟨[], []⟩, true⟩ : ArithState), AOp.noOp).1.theStack
      = ([.intLiteral 1, .intLiteral 2, .intLiteral 3] : List StackEntry).drop 3) := by
  refine ⟨?_, ?_, ?_⟩
  · exact c5_arith_builder_contract.1 .add _ (.intLiteral 3) (.intLiteral 4) []
      .integer rfl rfl rfl rfl (Or.inl rfl)
  · exact c5_arith_builder_contract.2.1 .divide _ .real [] rfl rfl
      (Or.inr (Or.inr rfl))
  · exact (c5_arith_builder_contract.2.2.1 .multiply
      ⟨[3], [.intLiteral 1, .intLiteral 2, .intLiteral 3], ⟨[], []⟩, false⟩
      (⟨[3], [], ⟨[], []⟩, true⟩, AOp.noOp) rfl).1

end Arith

namespace Structs

/-- Errors thrown by the structure-definition routines in `Structures.cpp`:
`SyntaxException` for a nested definition, `ParserFailureException` for
grammar-impossible states; `cppFault` marks accesses C++ leaves undefined
(popping or reading an empty internal stack, dereferencing the absent
`CreatedStructureType`). -/
inductive StructErr where
  | syntaxException
  | parserFailure
  | cppFault
deriving DecidableEq, Repr

/-- The structure descriptor being accumulated (`VM::StructureType`).
Modelled from the spec (s. 3): ordered `MemberOrder` plus per-member
`{Type, optional TypeHint}`; function-typed members carry a signature name.
`AddMember`/`AddFunctionMember` append to both. -/
structure StructTypeData where
  memberOrder : List String
  members : List (String × EpochType × Option Nat)
  funcMembers : List (String × String)
deriving DecidableEq, Repr

def StructTypeData.addMember (st : StructTypeData) (name : String)
    (ty : EpochType) (hint : Option Nat) : StructTypeData :=
  { st with memberOrder := st.memberOrder ++ [name],
            members := st.members ++ [(name, ty, hint)] }

def StructTypeData.addFunctionMember (st : StructTypeData) (name sig : String) :
    StructTypeData :=
  { st with memberOrder := st.memberOrder ++ [name],
            funcMembers := st.funcMembers ++ [(name, sig)] }

/-- Scope queries used while resolving a member type name.  Modelled from the
spec: name-keyed tuple/structure type bindings and function-signature slots
(spec s. 3, Scope Descriptor). -/
structure SScope where
  tupleTypes : List (String × Nat)
  structureTypes : List (String × Nat)
  functionSignatures : List String
deriving Repr

def SScope.hasTupleType (sc : SScope) (n : String) : Bool :=
  (sc.tupleTypes.find? (fun e => e.1 == n)).isSome

def SScope.getTupleTypeID (sc : SScope) (n : String) : Nat :=
  ((sc.tupleTypes.find? (fun e => e.1 == n)).map Prod.snd).getD 0

def SScope.hasStructureType (sc : SScope) (n : String) : Bool :=
  (sc.structureTypes.find? (fun e => e.1 == n)).isSome

def SScope.getStructureTypeID (sc : SScope) (n : String) : Nat :=
  ((sc.structureTypes.find? (fun e => e.1 == n)).map Prod.snd).getD 0

def SScope.isFunctionSignature (sc : SScope) (n : String) : Bool :=
  sc.functionSignatures.contains n

/-- Observable actions on the descriptor and the enclosing scope, recorded in
order so that the once-and-ordering discipline of `ComputeOffsets` and
registration is visible. -/
inductive SAction where
  | addMember (name : String) (ty : EpochType) (hint : Option Nat)
  | addFunctionMember (name sig : String)
  | computeOffsets
  | registerType (name : String)
deriving DecidableEq, Repr

/-- Parser state touched by the structure-definition routines. -/
structure SState where
  createdStructureType : Option StructTypeData
  variableNameStack : List String
  upcomingNestedMemberType : String
  fatalError : Bool
  errors : List String
  trace : List SAction
deriving Repr

/-- `ParserState::RegisterStructureType` (`Structures.cpp` 32-39). -/
def registerStructureType (identifier : String) (s : SState) :
    Except StructErr SState :=
  if s.createdStructureType ≠ none then
    .error .syntaxException
  else
    .ok { s with createdStructureType := some ⟨[], [], []⟩,
                 variableNameStack := identifier :: s.variableNameStack }

/-- `ParserState::RegisterStructureMember` (`Structures.cpp` 44-53). -/
def registerStructureMember (identifier : String) (ty : EpochType)
    (s : SState) : Except StructErr SState :=
  match s.createdStructureType with
  | none => .error .parserFailure
  | some st =>
      if ty = .tuple ∨ ty = .structureT then
        .error .parserFailure
      else
        .ok { s with createdStructureType := some (st.addMember identifier ty none),
                     trace := s.trace ++ [.addMember identifier ty none] }

/-- `ParserState::RegisterStructureUnknownTypeName` (`Structures.cpp` 58-61). -/
def registerStructureUnknownTypeName (ty : String) (s : SState) : SState :=
  { s with upcomingNestedMemberType := ty }

/-- `ParserState::RegisterStructureMemberUnknown` (`Structures.cpp` 66-89). -/
def registerStructureMemberUnknown (identifier : String) (sc : SScope)
    (s : SState) : Except StructErr SState :=
  match s.createdStructureType with
  | none => .error .cppFault
  | some st =>
      if sc.hasTupleType s.upcomingNestedMemberType then
        let hint := sc.getTupleTypeID s.upcomingNestedMemberType
        .ok { s with
          createdStructureType := some (st.addMember identifier .tuple (some hint)),
          trace := s.trace ++ [.addMember identifier .tuple (some hint)] }
      else if sc.hasStructureType s.upcomingNestedMemberType then
        let hint := sc.getStructureTypeID s.upcomingNestedMemberType
        .ok { s with
          createdStructureType := some (st.addMember identifier .structureT (some hint)),
          trace := s.trace ++ [.addMember identifier .structureT (some hint)] }
      else if sc.isFunctionSignature s.upcomingNestedMemberType then
        .ok { s with
          createdStructureType :=
            some (st.addFunctionMember identifier s.upcomingNestedMemberType),
          trace := s.trace ++
            [.addFunctionMember identifier s.upcomingNestedMemberType] }
      else
        match s.variableNameStack with
        | [] => .error .cppFault
        | top :: _ =>
            let msg :=
              if s.upcomingNestedMemberType = top then
                "A structure cannot contain an instance of itself"
              else
                "Unrecognized type; cannot add member to structure"
            .ok { s with
              fatalError := true,
              errors := s.errors ++ [msg],
              createdStructureType := some (st.addMember identifier .errorT none),
              trace := s.trace ++ [.addMember identifier .errorT none] }

/-- `ParserState::FinishStructureType` (`Structures.cpp` 96-110). -/
def finishStructureType (s : SState) : Except StructErr SState :=
  match s.createdStructureType with
  | none => .error .cppFault
  | some st =>
      match s.variableNameStack with
      | [] => .error .cppFault
      | top :: restnames =>
          if st.memberOrder.isEmpty then
            .ok { s with
              fatalError := true,
              errors := s.errors ++ ["Structures must contain at least one member"],
              variableNameStack := restnames,
              createdStructureType := none }
          else
            .ok { s with
              trace := s.trace ++ [.computeOffsets, .registerType top],
              variableNameStack := restnames,
              createdStructureType := none }

/-- One member-declaration event of a structure definition. -/
inductive SEvent where
  | member (identifier : String) (ty : EpochType)
  | memberUnknown (tyname identifier : String)
deriving DecidableEq, Repr

def processSEvent (sc : SScope) (s : SState) : SEvent → Except StructErr SState
  | .member identifier ty => registerStructureMember identifier ty s
  | .memberUnknown tyname identifier =>
      registerStructureMemberUnknown identifier sc
        (registerStructureUnknownTypeName tyname s)

def processSEvents (sc : SScope) (s : SState) :
    List SEvent → Except StructErr SState
  | [] => .ok s
  | ev :: rest => do
      let s1 ← processSEvent sc s ev
      processSEvents sc s1 rest

/-- A whole structure type definition: open, declare members, close. -/
def runStructureDefinition (identifier : String) (events : List SEvent)
    (sc : SScope) (s : SState) : Except StructErr SState := do
  let s1 ← registerStructureType identifier s
  let s2 ← processSEvents sc s1 events
  finishStructureType s2

end Structs

namespace Structs

/-- The actions a successful member-declaration event appends, as a function
of the scope and the event alone. -/
def eventActions (sc : SScope) : SEvent → List SAction
  | .member identifier ty => [.addMember identifier ty none]
  | .memberUnknown tyname identifier =>
      if sc.hasTupleType tyname then
        [.addMember identifier .tuple (some (sc.getTupleTypeID tyname))]
      else if sc.hasStructureType tyname then
        [.addMember identifier .structureT (some (sc.getStructureTypeID tyname))]
      else if sc.isFunctionSignature tyname then
        [.addFunctionMember identifier tyname]
      else
        [.addMember identifier .errorT none]

theorem eventActions_no_close (sc : SScope) (ev : SEvent) :
    SAction.computeOffsets ∉ eventActions sc ev ∧
    ∀ n, SAction.registerType n ∉ eventActions sc ev := by
  cases ev with
  | member identifier ty => simp [eventActions]
  | memberUnknown tyname identifier =>
      simp only [eventActions]
      split
      · simp
      · split
        · simp
        · split
          · simp
          · simp

theorem processSEvents_ok_spec (sc : SScope) (name : String) :
    ∀ (evs : List SEvent) (s : SState) (st : StructTypeData) (rest : List String)
      (s' : SState),
    s.createdStructureType = some st →
    s.variableNameStack = name :: rest →
    processSEvents sc s evs = .ok s' →
    ∃ st', s'.createdStructureType = some st' ∧
      st'.memberOrder.length = st.memberOrder.length + evs.length ∧
      s'.variableNameStack = name :: rest ∧
      s'.trace = s.trace ++ evs.flatMap (eventActions sc) := by
  intro evs
  induction evs with
  | nil =>
      intro s st rest s' hcr hvar hok
      simp [processSEvents] at hok
      subst hok
      exact ⟨st, hcr, by simp, hvar, by simp⟩
  | cons ev evtail ih =>
      intro s st rest s' hcr hvar hok
      simp only [processSEvents, bind, Except.bind] at hok
      cases ev with
      | member identifier ty =>
          rw [show processSEvent sc s (.member identifier ty)
              = registerStructureMember identifier ty s from rfl] at hok
          unfold registerStructureMember at hok
          rw [hcr] at hok
          by_cases hty : ty = .tuple ∨ ty = .structureT
          · simp [hty] at hok
          · simp only [hty, if_false] at hok
            rcases ih _ _ rest _ (by rfl) (by simp [hvar]) hok with
              ⟨st', h1, h2, h3, h4⟩
            refine ⟨st', h1, ?_, h3, ?_⟩
            · simp [StructTypeData.addMember] at h2
              simp [h2]
              omega
            · simp only [h4]
              simp [eventActions]
      | memberUnknown tyname identifier =>
          rw [show processSEvent sc s (.memberUnknown tyname identifier)
              = registerStructureMemberUnknown identifier sc
                  (registerStructureUnknownTypeName tyname s) from rfl] at hok
          unfold registerStructureMemberUnknown registerStructureUnknownTypeName at hok
          simp only [hcr] at hok
          by_cases h1 : sc.hasTupleType tyname
          · simp only [h1, if_true] at hok
            rcases ih _ _ rest _ (by rfl) (by simp [hvar]) hok with
              ⟨st', k1, k2, k3, k4⟩
            refine ⟨st', k1, ?_, k3, ?_⟩
            · simp [StructTypeData.addMember] at k2
              simp [k2]
              omega
            · simp only [k4]
              simp [eventActions, h1]
          · simp only [h1, if_false] at hok
            by_cases h2 : sc.hasStructureType tyname
            · simp only [h2, if_true] at hok
              rcases ih _ _ rest _ (by rfl) (by simp [hvar]) hok with
                ⟨st', k1, k2, k3, k4⟩
              refine ⟨st', k1, ?_, k3, ?_⟩
              · simp [StructTypeData.addMember] at k2
                simp [k2]
                omega
              · simp only [k4]
                simp [eventActions, h1, h2]
            · simp only [h2, if_false] at hok
              by_cases h3 : sc.isFunctionSignature tyname
              · simp only [h3, if_true] at hok
                rcases ih _ _ rest _ (by rfl) (by simp [hvar]) hok with
                  ⟨st', k1, k2, k3, k4⟩
                refine ⟨st', k1, ?_, k3, ?_⟩
                · simp [StructTypeData.addFunctionMember] at k2
                  simp [k2]
                  omega
                · simp only [k4]
                  simp [eventActions, h1, h2, h3]
              · simp only [h3, if_false] at hok
                simp only [hvar] at hok
                rcases ih _ _ rest _ (by rfl) (by simp [hvar]) hok with
                  ⟨st', k1, k2, k3, k4⟩
                refine ⟨st', k1, ?_, k3, ?_⟩
                · simp [StructTypeData.addMember] at k2
                  simp [k2]
                  omega
                · simp only [k4]
                  simp [eventActions, h1, h2, h3]

end Structs

namespace Structs

/-- C7.  Structure definition invariants: (i) a definition with no members is
reported as a fatal error and nothing is registered (the trace stays empty:
no offsets computation, no registration); (ii) a member whose declared type
name equals the structure name (and resolves to no known tuple, structure or
function signature) reports the self-containment fatal error and records the
member with the Error type; (iii) for every definition with at least one
member, the trace is exactly the member-addition actions followed by one
`ComputeOffsets` and then the registration, so offsets are computed exactly
once, after all members, and registration follows. -/
theorem c7_structure_definition_invariants :
    (∀ (name : String) (sc : SScope) (s0 s' : SState),
        s0.createdStructureType = none → s0.trace = [] →
        runStructureDefinition name [] sc s0 = .ok s' →
        s'.fatalError = true ∧ s'.trace = [] ∧
        "Structures must contain at least one member" ∈ s'.errors)
    ∧
    (∀ (name identifier : String) (sc : SScope) (s : SState)
        (st : StructTypeData) (rest : List String),
        s.createdStructureType = some st →
        s.variableNameStack = name :: rest →
        sc.hasTupleType name = false →
        sc.hasStructureType name = false →
        sc.isFunctionSignature name = false →
        processSEvent sc s (.memberUnknown name identifier) =
          .ok { s with
            upcomingNestedMemberType := name,
            fatalError := true,
            errors := s.errors ++ ["A structure cannot contain an instance of itself"],
            createdStructureType := some (st.addMember identifier .errorT none),
            trace := s.trace ++ [.addMember identifier .errorT none] })
    ∧
    (∀ (name : String) (evs : List SEvent) (sc : SScope) (s0 s' : SState),
        s0.createdStructureType = none → s0.trace = [] →
        evs ≠ [] →
        runStructureDefinition name evs sc s0 = .ok s' →
        s'.trace = evs.flatMap (eventActions sc) ++
          [.computeOffsets, .registerType name] ∧
        SAction.computeOffsets ∉ evs.flatMap (eventActions sc) ∧
        ∀ n, SAction.registerType n ∉ evs.flatMap (eventActions sc)) := by
  refine ⟨?_, ?_, ?_⟩
  · intro name sc s0 s' hcr htr hok
    simp only [runStructureDefinition, registerStructureType, hcr, bind,
      Except.bind, processSEvents, finishStructureType] at hok
    simp at hok
    subst hok
    simp [htr]
  · intro name identifier sc s st rest hcr hvar h1 h2 h3
    simp only [processSEvent, registerStructureMemberUnknown,
      registerStructureUnknownTypeName, hcr, h1, h2, h3, hvar]
    simp
  · intro name evs sc s0 s' hcr htr hne hok
    have hreg : registerStructureType name s0 = .ok
        { s0 with createdStructureType := some ⟨[], [], []⟩,
                  variableNameStack := name :: s0.variableNameStack } := by
      simp [registerStructureType, hcr]
    simp only [runStructureDefinition, bind, Except.bind, hreg] at hok
    rcases hmid : processSEvents sc
        { s0 with createdStructureType := some ⟨[], [], []⟩,
                  variableNameStack := name :: s0.variableNameStack } evs with
      e | smid
    · rw [hmid] at hok
      simp at hok
    · rw [hmid] at hok
      rcases processSEvents_ok_spec sc name evs _ ⟨[], [], []⟩
          s0.variableNameStack smid (by rfl) (by rfl) hmid with
        ⟨st', k1, k2, k3, k4⟩
      simp only [finishStructureType, k1, k3] at hok
      have hlen : st'.memberOrder.length = evs.length := by
        simpa using k2
      have hnonempty : st'.memberOrder.isEmpty = false := by
        rcases evs with _ | ⟨e, t⟩
        · exact absurd rfl hne
        · rcases hmo : st'.memberOrder with _ | _
          · rw [hmo] at hlen
            simp at hlen
          · simp [hmo]
      rw [hnonempty] at hok
      simp at hok
      subst hok
      constructor
      · simp [k4, htr]
      · constructor
        · intro hmem
          rcases List.mem_flatMap.mp hmem with ⟨ev, _, hin⟩
          exact (eventActions_no_close sc ev).1 hin
        · intro n hmem
          rcases List.mem_flatMap.mp hmem with ⟨ev, _, hin⟩
          exact (eventActions_no_close sc ev).2 n hin

/-- Witness for C7 at concrete inputs: an empty definition, a self-containing
member, and a two-member definition. -/
theorem c7_witness :
    (∃ s', runStructureDefinition "S" [] ⟨[], [], []⟩
        ⟨none, [], "", false, [], []⟩ = .ok s' ∧
      s'.fatalError = true ∧ s'.trace = [] ∧
      "Structures must contain at least one member" ∈ s'.errors)
    ∧ (processSEvent ⟨[], [], []⟩
        ⟨some ⟨[], [], []⟩, ["S"], "", false, [], []⟩
        (.memberUnknown "S" "m") =
        .ok ⟨some ⟨["m"], [("m", .errorT, none)], []⟩, ["S"], "S", true,
          ["A structure cannot contain an instance of itself"],
          [.addMember "m" .errorT none]⟩)
    ∧ (∃ s', runStructureDefinition "S"
        [.member "a" .integer, .member "b" .real] ⟨[], [], []⟩
        ⟨none, [], "", false, [], []⟩ = .ok s' ∧
      s'.trace = [.addMember "a" .integer none, .addMember "b" .real none,
        .computeOffsets, .registerType "S"]) := by
  refine ⟨?_, ?_, ?_⟩
  · refine ⟨_, rfl, ?_⟩
    exact c7_structure_definition_invariants.1 "S" ⟨[], [], []⟩
      ⟨none, [], "", false, [], []⟩ _ rfl rfl rfl
  · have h := c7_structure_definition_invariants.2.1 "S" "m" ⟨[], [], []⟩
      ⟨some ⟨[], [], []⟩, ["S"], "", false, [], []⟩ ⟨[], [], []⟩ []
      rfl rfl rfl rfl rfl
    exact h
  · refine ⟨_, rfl, ?_⟩
    have h := c7_structure_definition_invariants.2.2 "S"
      [.member "a" .integer, .member "b" .real] ⟨[], [], []⟩
      ⟨none, [], "", false, [], []⟩ _ rfl rfl (by simp) rfl
    simp at h
    exact h.1

end Structs

namespace Push

/-- Runtime values as consumed by `PushOperation::DoPush` (`StackOps.cpp`).
Composite values carry their type ID and their member values by name, as
`TupleRValue`/`StructureRValue` do; `Real` payloads are kept as opaque bit
patterns since `DoPush` only moves them. -/
inductive RValue where
  | intV (v : Int)
  | int16V (v : Int)
  | realV (bits : Int)
  | boolV (b : Bool)
  | stringV (s : String)
  | tupleV (id : Nat) (vals : List (String × RValue))
  | structV (id : Nat) (vals : List (String × RValue))
  | nullV
  | functionV (f : Nat)
  | addressV (a : Int)
  | arrayV (handle : Nat)
  | taskHandleV (h : Nat)
  | bufferV (h : Nat)
deriving Repr

/-- `TupleRValue::GetValue` / `StructureRValue::GetValue`: name-keyed member
lookup.  Modelled from the spec (member values are name-keyed). -/
def getValueRV (vals : List (String × RValue)) (n : String) : Option RValue :=
  (vals.find? (fun e => e.1 == n)).map Prod.snd

/-- Cells of the execution stack (`StackSpace`), one per pushed scalar: the
typed writes performed by `PushValueOntoStack` and the raw handle writes. -/
inductive Cell where
  | intC (v : Int)
  | int16C (v : Int)
  | realC (bits : Int)
  | boolC (b : Bool)
  | stringC (s : String)
  | tupleIdC (id : Nat)
  | structIdC (id : Nat)
  | functionC (f : Nat)
  | addressC (a : Int)
  | handleC (h : Nat)
  | taskHandleC (h : Nat)
deriving DecidableEq, Repr

/-- A composite type descriptor as consulted by `DoPush`: ordered members
plus name-keyed member types (spec s. 3, composite type descriptor). -/
structure CompType where
  memberOrder : List String
  memberTypes : List (String × EpochType)
deriving Repr

def CompType.getMemberType (tt : CompType) (n : String) :
    Except String EpochType :=
  match (tt.memberTypes.find? (fun e => e.1 == n)).map Prod.snd with
  | some ty => .ok ty
  | none => .error "unknown composite member"

/-- Scope queries used by `DoPush`: `GetTupleType` / `GetStructureType` by
composite type ID.  Modelled from the spec (ID-keyed descriptor lookup,
failing on an unknown ID). -/
structure PScope where
  tupleTypes : List (Nat × CompType)
  structureTypes : List (Nat × CompType)

def PScope.getTupleType (sc : PScope) (id : Nat) : Except String CompType :=
  match (sc.tupleTypes.find? (fun e => e.1 == id)).map Prod.snd with
  | some tt => .ok tt
  | none => .error "unknown tuple type"

def PScope.getStructureType (sc : PScope) (id : Nat) : Except String CompType :=
  match (sc.structureTypes.find? (fun e => e.1 == id)).map Prod.snd with
  | some tt => .ok tt
  | none => .error "unknown structure type"

mutual

/-- Embedding of `PushOperation::DoPush` (`StackOps.cpp` 188-268).  The
recursion through composite members is fuelled; `fuel = 0` reports
exhaustion, which never occurs above the value height.  Mismatched value
variants model the `CastTo` failures; the `Null` case and the unreachable
tag raise the execution errors of the source. -/
def doPush (fuel : Nat) (ty : EpochType) (v : RValue) (scope : PScope)
    (stack : List Cell) (_isconsarray _isconsfromfunction : Bool) :
    Except String (List Cell) :=
  match fuel with
  | 0 => .error "fuel exhausted"
  | fuel + 1 =>
    match ty with
    | .nullT => .error "Cannot pass a null value on the stack"
    | .integer =>
        match v with
        | .intV x => .ok (.intC x :: stack)
        | _ => .error "cast failure"
    | .integer16 =>
        match v with
        | .int16V x => .ok (.int16C x :: stack)
        | _ => .error "cast failure"
    | .real =>
        match v with
        | .realV x => .ok (.realC x :: stack)
        | _ => .error "cast failure"
    | .boolean =>
        match v with
        | .boolV x => .ok (.boolC x :: stack)
        | _ => .error "cast failure"
    | .stringT =>
        match v with
        | .stringV x => .ok (.stringC x :: stack)
        | _ => .error "cast failure"
    | .tuple =>
        match v with
        | .tupleV id vals => do
            let tupletype ← scope.getTupleType id
            let stack1 ← doPushMembers fuel tupletype vals scope
              tupletype.memberOrder.reverse stack
            .ok (.tupleIdC id :: stack1)
        | _ => .error "cast failure"
    | .structureT =>
        match v with
        | .structV id vals => do
            let structuretype ← scope.getStructureType id
            let stack1 ← doPushMembers fuel structuretype vals scope
              structuretype.memberOrder.reverse stack
            .ok (.structIdC id :: stack1)
        | _ => .error "cast failure"
    | .functionT =>
        match v with
        | .functionV f => .ok (.functionC f :: stack)
        | _ => .error "cast failure"
    | .address =>
        match v with
        | .addressV a => .ok (.addressC a :: stack)
        | _ => .error "cast failure"
    | .array =>
        match v with
        | .arrayV h => .ok (.handleC h :: stack)
        | _ => .error "cast failure"
    | .taskHandle =>
        match v with
        | .taskHandleV h => .ok (.taskHandleC h :: stack)
        | _ => .error "cast failure"
    | .buffer =>
        match v with
        | .bufferV h => .ok (.handleC h :: stack)
        | _ => .error "cast failure"
    | .errorT => .error "Cannot pass value of this type on the stack"

/-- The member loop of the Tuple/Structure cases: iterate the given
(reversed) member-name list, pushing each member value with cleared
flags, exactly as the `rbegin`..`rend` loops do. -/
def doPushMembers (fuel : Nat) (tt : CompType)
    (vals : List (String × RValue)) (scope : PScope) (names : List String)
    (stack : List Cell) : Except String (List Cell) :=
  match names with
  | [] => .ok stack
  | n :: rest => do
      let mty ← tt.getMemberType n
      match getValueRV vals n with
      | none => .error "missing member value"
      | some mv => do
          let stack1 ← doPush fuel mty mv scope stack false false
          doPushMembers fuel tt vals scope rest stack1

end

mutual

/-- The flattened cell image of a value: scalars one cell; composites place
the type ID on top, then the members in `MemberOrder` order, the first
member nearest the top and the last member deepest. -/
def cellsOf : RValue → List Cell
  | .intV x => [.intC x]
  | .int16V x => [.int16C x]
  | .realV x => [.realC x]
  | .boolV x => [.boolC x]
  | .stringV x => [.stringC x]
  | .tupleV id vals => .tupleIdC id :: cellsOfVals vals
  | .structV id vals => .structIdC id :: cellsOfVals vals
  | .nullV => []
  | .functionV f => [.functionC f]
  | .addressV a => [.addressC a]
  | .arrayV h => [.handleC h]
  | .taskHandleV h => [.taskHandleC h]
  | .bufferV h => [.handleC h]

def cellsOfVals : List (String × RValue) → List Cell
  | [] => []
  | (_, v) :: rest => cellsOf v ++ cellsOfVals rest

end

mutual

/-- Recursion height of a value (composites one above their members). -/
def heightRV : RValue → Nat
  | .tupleV _ vals => heightRVList vals + 1
  | .structV _ vals => heightRVList vals + 1
  | _ => 1

def heightRVList : List (String × RValue) → Nat
  | [] => 0
  | (_, v) :: rest => max (heightRV v) (heightRVList rest)

end

/-- Well-formedness of a value against a declared type in a scope: scalar
variants match their tags; a composite value resolves its descriptor, its
member names are exactly `MemberOrder` (which has no duplicates), and every
member value is well-formed at the declared member type. -/
inductive ValueWF (scope : PScope) : EpochType → RValue → Prop where
  | intWF (x : Int) : ValueWF scope .integer (.intV x)
  | int16WF (x : Int) : ValueWF scope .integer16 (.int16V x)
  | realWF (x : Int) : ValueWF scope .real (.realV x)
  | boolWF (b : Bool) : ValueWF scope .boolean (.boolV b)
  | stringWF (s : String) : ValueWF scope .stringT (.stringV s)
  | functionWF (f : Nat) : ValueWF scope .functionT (.functionV f)
  | addressWF (a : Int) : ValueWF scope .address (.addressV a)
  | arrayWF (h : Nat) : ValueWF scope .array (.arrayV h)
  | taskHandleWF (h : Nat) : ValueWF scope .taskHandle (.taskHandleV h)
  | bufferWF (h : Nat) : ValueWF scope .buffer (.bufferV h)
  | tupleWF (id : Nat) (vals : List (String × RValue)) (tt : CompType) :
      scope.getTupleType id = .ok tt →
      vals.map Prod.fst = tt.memberOrder →
      tt.memberOrder.Nodup →
      (∀ p ∈ vals, (tt.getMemberType p.1).isOk) →
      (∀ p ∈ vals, ∀ mty, tt.getMemberType p.1 = .ok mty →
        ValueWF scope mty p.2) →
      ValueWF scope .tuple (.tupleV id vals)
  | structWF (id : Nat) (vals : List (String × RValue)) (tt : CompType) :
      scope.getStructureType id = .ok tt →
      vals.map Prod.fst = tt.memberOrder →
      tt.memberOrder.Nodup →
      (∀ p ∈ vals, (tt.getMemberType p.1).isOk) →
      (∀ p ∈ vals, ∀ mty, tt.getMemberType p.1 = .ok mty →
        ValueWF scope mty p.2) →
      ValueWF scope .structureT (.structV id vals)

end Push

namespace Push

theorem cellsOfVals_append (l1 l2 : List (String × RValue)) :
    cellsOfVals (l1 ++ l2) = cellsOfVals l1 ++ cellsOfVals l2 := by
  induction l1 with
  | nil => simp [cellsOfVals]
  | cons p rest ih =>
      rcases p with ⟨n, v⟩
      simp [cellsOfVals, ih]

theorem find_of_nodup_names (vals : List (String × RValue))
    (hnodup : (vals.map Prod.fst).Nodup) :
    ∀ (n : String) (v : RValue), (n, v) ∈ vals →
      vals.find? (fun e => e.1 == n) = some (n, v) := by
  induction vals with
  | nil => intro n v h; simp at h
  | cons p rest ih =>
      rcases p with ⟨m, w⟩
      intro n v hmem
      simp only [List.map_cons, List.nodup_cons] at hnodup
      by_cases hm : m = n
      · subst hm
        rcases List.mem_cons.mp hmem with heq | htail
        · rw [List.find?_cons_of_pos _ (by simp)]
          exact congrArg some heq.symm
        · exfalso
          exact hnodup.1 (List.mem_map.mpr ⟨(m, v), htail, rfl⟩)
      · rcases List.mem_cons.mp hmem with heq | htail
        · exact absurd (congrArg Prod.fst heq).symm hm
        · rw [List.find?_cons_of_neg _ (by simp [hm])]
          exact ih hnodup.2 n v htail

theorem heightRV_le_of_mem (vals : List (String × RValue)) :
    ∀ p ∈ vals, heightRV p.2 ≤ heightRVList vals := by
  induction vals with
  | nil => intro p h; simp at h
  | cons q rest ih =>
      rcases q with ⟨m, w⟩
      intro p hp
      rcases List.mem_cons.mp hp with rfl | htail
      · simp [heightRVList]
      · calc heightRV p.2 ≤ heightRVList rest := ih p htail
          _ ≤ heightRVList ((m, w) :: rest) := by simp [heightRVList]

theorem doPushMembers_spec (fuel : Nat) (tt : CompType)
    (vals : List (String × RValue)) (scope : PScope)
    (hnames : vals.map Prod.fst = tt.memberOrder)
    (hnodup : tt.memberOrder.Nodup)
    (hpush : ∀ p ∈ vals, ∀ mty, tt.getMemberType p.1 = .ok mty →
        ∀ stack, doPush fuel mty p.2 scope stack false false
          = .ok (cellsOf p.2 ++ stack))
    (hty : ∀ p ∈ vals, (tt.getMemberType p.1).isOk) :
    ∀ (pre : List (String × RValue)), pre <+: vals →
      ∀ stack, doPushMembers fuel tt vals scope ((pre.map Prod.fst).reverse) stack
        = .ok (cellsOfVals pre ++ stack) := by
  intro pre
  induction pre using List.reverseRecOn with
  | nil => intro _ stack; simp [doPushMembers, cellsOfVals]
  | append_singleton ps p ihps =>
      rcases p with ⟨n, v⟩
      intro hpre stack
      have hps : ps <+: vals :=
        List.IsPrefix.trans ⟨[(n, v)], rfl⟩ hpre
      have hmem : (n, v) ∈ vals := hpre.subset (by simp)
      have hnamesnodup : (vals.map Prod.fst).Nodup := by
        rw [hnames]; exact hnodup
      have hfind : vals.find? (fun e => e.1 == n) = some (n, v) :=
        find_of_nodup_names vals hnamesnodup n v hmem
      rcases hmt : tt.getMemberType n with e | mty
      · have := hty (n, v) hmem
        rw [hmt] at this
        simp [Except.isOk, Except.toBool] at this
      · have hstep : doPush fuel mty v scope stack false false
            = .ok (cellsOf v ++ stack) := hpush (n, v) hmem mty hmt stack
        simp only [List.map_append, List.map_cons, List.map_nil,
          List.reverse_append, List.reverse_cons, List.reverse_nil,
          List.nil_append, List.singleton_append]
        simp only [doPushMembers, bind, Except.bind, hmt, getValueRV, hfind,
          Option.map_some', hstep]
        rw [ihps hps (cellsOf v ++ stack)]
        rw [cellsOfVals_append]
        simp [cellsOfVals]

theorem doPush_wf_spec (scope : PScope) (ty : EpochType) (v : RValue)
    (hwf : ValueWF scope ty v) :
    ∀ (fuel : Nat), heightRV v ≤ fuel → ∀ (stack : List Cell) (b1 b2 : Bool),
      doPush fuel ty v scope stack b1 b2 = .ok (cellsOf v ++ stack) := by
  induction hwf with
  | intWF x =>
      intro fuel hfu stack b1 b2
      rcases fuel with _ | f
      · simp [heightRV] at hfu
      · simp [doPush, cellsOf]
  | int16WF x =>
      intro fuel hfu stack b1 b2
      rcases fuel with _ | f
      · simp [heightRV] at hfu
      · simp [doPush, cellsOf]
  | realWF x =>
      intro fuel hfu stack b1 b2
      rcases fuel with _ | f
      · simp [heightRV] at hfu
      · simp [doPush, cellsOf]
  | boolWF b =>
      intro fuel hfu stack b1 b2
      rcases fuel with _ | f
      · simp [heightRV] at hfu
      · simp [doPush, cellsOf]
  | stringWF s =>
      intro fuel hfu stack b1 b2
      rcases fuel with _ | f
      · simp [heightRV] at hfu
      · simp [doPush, cellsOf]
  | functionWF f =>
      intro fuel hfu stack b1 b2
      rcases fuel with _ | f
      · simp [heightRV] at hfu
      · simp [doPush, cellsOf]
  | addressWF a =>
      intro fuel hfu stack b1 b2
      rcases fuel with _ | f
      · simp [heightRV] at hfu
      · simp [doPush, cellsOf]
  | arrayWF h =>
      intro fuel hfu stack b1 b2
      rcases fuel with _ | f
      · simp [heightRV] at hfu
      · simp [doPush, cellsOf]
  | taskHandleWF h =>
      intro fuel hfu stack b1 b2
      rcases fuel with _ | f
      · simp [heightRV] at hfu
      · simp [doPush, cellsOf]
  | bufferWF h =>
      intro fuel hfu stack b1 b2
      rcases fuel with _ | f
      · simp [heightRV] at hfu
      · simp [doPush, cellsOf]
  | tupleWF id vals tt htt hnames hnodup hty hmembers ih =>
      intro fuel hfu stack b1 b2
      rcases fuel with _ | f
      · simp [heightRV] at hfu
      · have hlist : heightRVList vals ≤ f := by
          simp only [heightRV] at hfu
          omega
        have hpush : ∀ p ∈ vals, ∀ mty, tt.getMemberType p.1 = .ok mty →
            ∀ stack0, doPush f mty p.2 scope stack0 false false
              = .ok (cellsOf p.2 ++ stack0) := by
          intro p hp mty hmt stack0
          exact ih p hp mty hmt f
            (le_trans (heightRV_le_of_mem vals p hp) hlist) stack0 false false
        have hmembersrun := doPushMembers_spec f tt vals scope hnames hnodup
          hpush hty vals (List.prefix_refl vals) stack
        simp only [doPush, bind, Except.bind, htt]
        rw [← hnames, hmembersrun]
        simp [cellsOf]
  | structWF id vals tt htt hnames hnodup hty hmembers ih =>
      intro fuel hfu stack b1 b2
      rcases fuel with _ | f
      · simp [heightRV] at hfu
      · have hlist : heightRVList vals ≤ f := by
          simp only [heightRV] at hfu
          omega
        have hpush : ∀ p ∈ vals, ∀ mty, tt.getMemberType p.1 = .ok mty →
            ∀ stack0, doPush f mty p.2 scope stack0 false false
              = .ok (cellsOf p.2 ++ stack0) := by
          intro p hp mty hmt stack0
          exact ih p hp mty hmt f
            (le_trans (heightRV_le_of_mem vals p hp) hlist) stack0 false false
        have hmembersrun := doPushMembers_spec f tt vals scope hnames hnodup
          hpush hty vals (List.prefix_refl vals) stack
        simp only [doPush, bind, Except.bind, htt]
        rw [← hnames, hmembersrun]
        simp [cellsOf]

end Push

namespace Push

/-- C9.  `PushOperation::DoPush`: pushing a Null-typed value raises an
execution error and pushes nothing, and pushing a well-formed value of any
other supported type yields `cellsOf v` on top of the old stack.  For a
Tuple or Structure value, `cellsOf` is by definition the composite type ID
on top, then the first member of `MemberOrder` nearest the top and the last
member deepest: exactly the effect of iterating `MemberOrder` in reverse
(last member pushed first) and pushing the type ID last. -/
theorem c9_doPush_composite_order :
    (∀ (fuel : Nat) (v : RValue) (scope : PScope) (stack : List Cell)
        (b1 b2 : Bool),
        doPush (fuel + 1) .nullT v scope stack b1 b2 =
          .error "Cannot pass a null value on the stack")
    ∧ (∀ (scope : PScope) (ty : EpochType) (v : RValue),
        ValueWF scope ty v →
        ∀ (fuel : Nat), heightRV v ≤ fuel →
        ∀ (stack : List Cell) (b1 b2 : Bool),
        doPush fuel ty v scope stack b1 b2 = .ok (cellsOf v ++ stack)) := by
  constructor
  · intro fuel v scope stack b1 b2
    simp [doPush]
  · intro scope ty v hwf fuel hfu stack b1 b2
    exact doPush_wf_spec scope ty v hwf fuel hfu stack b1 b2

/-- Witness scope for C9: one structure type with members `a` (Integer) and
`b` (Boolean). -/
def c9Scope : PScope :=
  ⟨[], [(1, ⟨["a", "b"], [("a", .integer), ("b", .boolean)]⟩)]⟩

/-- Witness for C9: a two-member structure value is flattened with the type
ID on top, the first member `a` directly beneath it and the second member
`b` deepest; a Null push errors. -/
theorem c9_witness :
    doPush 2 .structureT (.structV 1 [("a", .intV 5), ("b", .boolV true)])
        c9Scope [] false false
      = .ok [.structIdC 1, .intC 5, .boolC true]
    ∧ doPush 1 .nullT .nullV c9Scope [] false false
      = .error "Cannot pass a null value on the stack" := by
  constructor
  · have hwf : ValueWF c9Scope .structureT
        (.structV 1 [("a", .intV 5), ("b", .boolV true)]) := by
      refine ValueWF.structWF 1 _ ⟨["a", "b"], [("a", .integer), ("b", .boolean)]⟩
        rfl rfl (by decide) (by decide) ?_
      intro p hp mty hmt
      simp only [List.mem_cons, List.not_mem_nil, or_false] at hp
      rcases hp with rfl | rfl
      · simp [CompType.getMemberType] at hmt
        subst hmt
        exact ValueWF.intWF 5
      · simp [CompType.getMemberType] at hmt
        subst hmt
        exact ValueWF.boolWF true
    have h := c9_doPush_composite_order.2 c9Scope .structureT
      (.structV 1 [("a", .intV 5), ("b", .boolV true)]) hwf 2
      (by simp [heightRV, heightRVList]) [] false false
    rw [h]
    simp [cellsOf, cellsOfVals]
  · exact c9_doPush_composite_order.1 0 .nullV c9Scope [] false false

end Push

namespace Builder

/-- Scope identifiers (arena indices, cf. spec s. 9). -/
abbrev ScopeId := Nat

/-- Block identifiers (arena indices). -/
abbrev BlockId := Nat

/-- Errors of the parser state machine: `ParserFailureException` carries its
diagnostic; `cppFault` marks accesses the C++ leaves undefined (popping or
indexing an empty internal deque/stack, dereferencing null). -/
inductive BuildErr where
  | parserFailure (msg : String)
  | cppFault
deriving DecidableEq, Repr

/-- `BlockEntry::BlockType` (the `BLOCKENTRYTYPE_*` enum). -/
inductive BlockType where
  | function
  | functionNoCreate
  | doLoop
  | ifT
  | elseifWrapperT
  | elseifT
  | elseT
  | whileLoopT
  | free
  | task
  | thread
  | msgDispatch
  | responseMap
  | parallelFor
  | extensionControl
  | globalT
deriving DecidableEq, Repr

/-- Builder-side operations, carrying exactly the payload the routines
under scrutiny consult.  Child blocks are referenced by arena index, as the
spec (s. 9) advises for the cyclic If/ElseIfWrapper links.  `genericOp`
stands for any other operation; only its value type and parameter count are
consulted. -/
inductive BOp where
  | ifOp (trueBlock : Option BlockId) (falseBlock : Option BlockId)
      (elseifWrapper : Option BlockId)
  | elseIfOp (body : Option BlockId)
  | elseifWrapperOp (body : BlockId)
  | exitIfChain
  | doWhileLoop (body : Option BlockId)
  | whileLoop (body : Option BlockId)
  | whileLoopConditional
  | executeBlock (body : Option BlockId)
  | forkTask (body : Option BlockId)
  | forkThread (body : Option BlockId)
  | parallelForOp (body : Option BlockId) (counterName : String)
      (useThreads : Bool) (handle : Nat)
  | handoffControlOp (keyword : String) (body : Option BlockId)
      (counterVar : String) (scope : ScopeId)
  | initializeValue (name : String)
  | assignValue (name : String)
  | genericOp (ty : EpochType) (numParams : Nat)
deriving DecidableEq, Repr

/-- `Operation::GetType` for builder-side operations.  Modelled from the
spec: flow-control operations carry no value; the condition checks only
ever consult it on expression operations, which `genericOp` carries. -/
def BOp.getType : BOp → EpochType
  | .genericOp ty _ => ty
  | _ => .nullT

/-- Entries of the builder operand stack (`ParserState::StackEntry`),
with operation entries abstracted to their result type. -/
inductive BStackEntry where
  | identifier (name : String)
  | operation (ty : EpochType)
  | intLit (v : Int)
  | stringLit (s : String)
  | scopeE (id : ScopeId)
deriving DecidableEq, Repr

/-- `StackEntry::StringValue` as read by the extension-control epilogue. -/
def BStackEntry.stringValue : BStackEntry → String
  | .identifier n => n
  | .stringLit s => s
  | _ => ""

/-- A lexical scope node: parent link by ID plus the content the analysed
routines touch.  Modelled from the spec (s. 3): variables, ghost sets,
functions. -/
structure ScopeData where
  parent : Option ScopeId
  vars : List (String × EpochType)
  ghosts : List (List (String × ScopeId))
  functions : List (String × (ScopeId × ScopeId × Option BlockId))
deriving Repr

/-- An empty scope with the given parent. -/
def ScopeData.fresh (parent : Option ScopeId) : ScopeData :=
  ⟨parent, [], [], []⟩

/-- A code block: optional bound scope plus its operation sequence. -/
structure BBlockData where
  boundScope : Option ScopeId
  ops : List BOp
deriving Repr

/-- One entry of the `Blocks` deque. -/
structure BlockEntry where
  theBlock : Option BlockId
  btype : BlockType
deriving DecidableEq, Repr

/-- Parameter descriptors of a registered extension control keyword
(`Extensions::ExtensionControlParamInfo`).  Modelled from the spec. -/
structure ExtParamInfo where
  createsLocalVariable : Bool
  localVariableType : EpochType
deriving DecidableEq, Repr

/-- The parser state machine state (`ParserState`), restricted to the
fields the flow-control routines touch.  All deques/stacks keep their C++
back/top at the list head. -/
structure BuildState where
  scopes : List (ScopeId × ScopeData)
  nextScopeId : ScopeId
  blocks : List (BlockId × BBlockData)
  nextBlockId : BlockId
  globalScopeId : ScopeId
  currentScope : ScopeId
  blockStack : List BlockEntry
  expectedBlockTypes : List BlockType
  theStack : List BStackEntry
  displacedScopes : List ScopeId
  savedTaskNames : List String
  passedParameterCount : List Nat
  extensionControlKeywords : List String
  messageDispatchScope : Option ScopeId
  controlVarName : String
  controlVarType : EpochType
  fatalError : Bool
  errors : List String
  taskNameTrack : List String
  functionReturnValueTracker : List (String × List BOp)
  functionReturnInitBlocks : List (String × Option (List BOp))
  knownExtensions : List (String × List ExtParamInfo)
deriving Repr

def lookupArena {α : Type} (l : List (Nat × α)) (id : Nat) : Option α :=
  (l.find? (fun p => p.1 == id)).map Prod.snd

def updateArena {α : Type} (l : List (Nat × α)) (id : Nat) (f : α → α) :
    List (Nat × α) :=
  l.map (fun p => if p.1 == id then (p.1, f p.2) else p)

def BuildState.getScope (s : BuildState) (id : ScopeId) : Option ScopeData :=
  lookupArena s.scopes id

def BuildState.getBlock (s : BuildState) (id : BlockId) : Option BBlockData :=
  lookupArena s.blocks id

def BuildState.setScope (s : BuildState) (id : ScopeId)
    (f : ScopeData → ScopeData) : BuildState :=
  { s with scopes := updateArena s.scopes id f }

def BuildState.setBlock (s : BuildState) (id : BlockId)
    (f : BBlockData → BBlockData) : BuildState :=
  { s with blocks := updateArena s.blocks id f }

/-- Allocate a fresh scope node. -/
def BuildState.allocScope (s : BuildState) (d : ScopeData) :
    BuildState × ScopeId :=
  ({ s with scopes := s.scopes ++ [(s.nextScopeId, d)],
            nextScopeId := s.nextScopeId + 1 }, s.nextScopeId)

/-- Allocate a fresh block. -/
def BuildState.allocBlock (s : BuildState) (d : BBlockData) :
    BuildState × BlockId :=
  ({ s with blocks := s.blocks ++ [(s.nextBlockId, d)],
            nextBlockId := s.nextBlockId + 1 }, s.nextBlockId)

/-- `ScopeDescription::GetVariableType`: name lookup walking the parent
chain.  Modelled from the spec (s. 4.3); fuelled by the store size. -/
def BuildState.getVariableTypeWalk (s : BuildState) :
    Nat → ScopeId → String → Option EpochType
  | 0, _, _ => none
  | fuel + 1, sid, name =>
      match s.getScope sid with
      | none => none
      | some sd =>
          match (sd.vars.find? (fun p => p.1 == name)).map Prod.snd with
          | some ty => some ty
          | none =>
              match sd.parent with
              | some p => s.getVariableTypeWalk fuel p name
              | none => none

def BuildState.getVariableType (s : BuildState) (sid : ScopeId)
    (name : String) : Option EpochType :=
  s.getVariableTypeWalk (s.scopes.length + 1) sid name

/-- `StackEntry::DetermineEffectiveType` for the builder stack.  Modelled
from the spec; an unresolvable identifier corresponds to the lookup
exception escaping. -/
def BuildState.effType (s : BuildState) : BStackEntry → Except BuildErr EpochType
  | .identifier n =>
      match s.getVariableType s.currentScope n with
      | some ty => .ok ty
      | none => .error .cppFault
  | .operation ty => .ok ty
  | .intLit _ => .ok .integer
  | .stringLit _ => .ok .stringT
  | .scopeE _ => .ok .errorT

/-- `ReportFatalError`: set the program fatal flag, record the message, and
continue (spec s. 7). -/
def BuildState.reportFatalError (s : BuildState) (msg : String) : BuildState :=
  { s with fatalError := true, errors := s.errors ++ [msg] }

/-- `ParserState::AddOperationToCurrentBlock`: append to the block of the
back `Blocks` entry.  Modelled from the spec (emission goes to the current
block); a missing block is a null dereference. -/
def BuildState.addOperationToCurrentBlock (s : BuildState) (op : BOp) :
    Except BuildErr BuildState :=
  match s.blockStack with
  | [] => .error .cppFault
  | entry :: _ =>
      match entry.theBlock with
      | none => .error .cppFault
      | some bid => .ok (s.setBlock bid (fun b => { b with ops := b.ops ++ [op] }))

end Builder

namespace Builder

/-- `Block::GetOperationFromEnd`: peek the operation at the given distance
from the block tail.  Modelled from the spec (s. 4.2); the scope-aware
grouping is the identity along these walks because every operation they
cross is a zero-parameter flow-control operation. -/
def getOperationFromEnd (ops : List BOp) (offset : Nat) : Option BOp :=
  ops.reverse.get? offset

/-- Replace the operation at the given distance from the block tail. -/
def setOperationFromEnd (ops : List BOp) (offset : Nat) (op : BOp) : List BOp :=
  ops.set (ops.length - 1 - offset) op

/-- One probe step of the backward walk shared by `RegisterControl` (elseif)
and `ExitBlock` (else).  The fuel is only a structural-termination device:
the C++ loop probes at most once per operation plus one final null probe
before it stops, which the fuel chosen in `findIfLoop` covers exactly. -/
def findIfAux (revops : List BOp) : Nat → Nat → Option Nat
  | 0, _ => none
  | fuel + 1, offset =>
      match revops.get? offset with
      | none => none
      | some (.ifOp _ _ _) => some offset
      | some (.elseifWrapperOp _) => findIfAux revops fuel (offset + 1)
      | some _ => none

/-- The backward walk shared by `RegisterControl` (elseif) and `ExitBlock`
(else): starting at the block tail, skip `ElseIfWrapper` operations until an
`If` is found; anything else (or running past the front) fails the walk. -/
def findIfLoop (revops : List BOp) (offset : Nat) : Option Nat :=
  findIfAux revops (revops.length + 1 - offset) offset

/-- `ScopeDescription::GetFunction`: walk the parent chain for a function
entry, returning the owning scope id with the function data (params scope,
returns scope, code block).  Modelled from the spec (s. 3); fuelled by the
store size. -/
def BuildState.getFunctionWalk (s : BuildState) :
    Nat → ScopeId → String →
      Option (ScopeId × (ScopeId × ScopeId × Option BlockId))
  | 0, _, _ => none
  | fuel + 1, sid, name =>
      match s.getScope sid with
      | none => none
      | some sd =>
          match (sd.functions.find? (fun p => p.1 == name)).map Prod.snd with
          | some f => some (sid, f)
          | none =>
              match sd.parent with
              | some p => s.getFunctionWalk fuel p name
              | none => none

def BuildState.getFunction (s : BuildState) (sid : ScopeId) (name : String) :
    Option (ScopeId × (ScopeId × ScopeId × Option BlockId)) :=
  s.getFunctionWalk (s.scopes.length + 1) sid name

/-- The trailing `CurrentScope = CurrentScope->ParentScope` of `ExitBlock`.
A missing scope node, or a null parent pointer, leaves later scope accesses
dereferencing garbage, so both are modelled as a fault. -/
def BuildState.toParentScope (s : BuildState) : Except BuildErr BuildState :=
  match s.getScope s.currentScope with
  | none => .error .cppFault
  | some sd =>
      match sd.parent with
      | none => .error .cppFault
      | some p => .ok { s with currentScope := p }

/-- `ParserState::RegisterControl` (`FlowControl.cpp` 41-123). -/
def registerControl (controlname : String) (preprocess : Bool)
    (s : BuildState) : Except BuildErr BuildState :=
  if controlname = "do" then
    .ok { s with expectedBlockTypes := .doLoop :: s.expectedBlockTypes }
  else if controlname = "if" then
    .ok { s with expectedBlockTypes := .ifT :: s.expectedBlockTypes }
  else if controlname = "elseif" then do
    let s1 ←
      (if preprocess then .ok s
      else
        match s.blockStack with
        | [] => .error .cppFault
        | entry :: _ =>
          match entry.theBlock with
          | none => .error .cppFault
          | some bid =>
            match s.getBlock bid with
            | none => .error .cppFault
            | some bd =>
              match findIfLoop bd.ops.reverse 0 with
              | none => .error (.parserFailure "elseif() without matching if()")
              | some off =>
                match getOperationFromEnd bd.ops off with
                | some (.ifOp tb fb wrap) =>
                  match wrap with
                  | some wid =>
                      .ok { s with blockStack :=
                        ⟨some wid, .elseifWrapperT⟩ :: s.blockStack }
                  | none =>
                      let p1 := s.allocBlock ⟨none, []⟩
                      let p2 := p1.1.allocScope
                        (ScopeData.fresh (some s.currentScope))
                      let newOp := BOp.ifOp tb fb (some p1.2)
                      let s3 := p2.1.setBlock p1.2
                        (fun b => { b with boundScope := some p2.2 })
                      let s4 := s3.setBlock bid (fun b =>
                        { b with ops := setOperationFromEnd b.ops off newOp })
                      .ok { s4 with blockStack :=
                        ⟨some p1.2, .elseifWrapperT⟩ :: s4.blockStack }
                | _ => .error .cppFault)
    .ok { s1 with expectedBlockTypes := .elseifT :: s1.expectedBlockTypes }
  else if controlname = "else" then
    .ok { s with expectedBlockTypes := .elseT :: s.expectedBlockTypes }
  else if controlname = "while" then
    if preprocess then
      .ok { s with expectedBlockTypes := .whileLoopT :: s.expectedBlockTypes }
    else
      let p1 := s.allocBlock ⟨none, []⟩
      let p2 := p1.1.allocScope (ScopeData.fresh (some s.currentScope))
      let s3 := p2.1.setBlock p1.2 (fun b => { b with boundScope := some p2.2 })
      .ok { s3 with
        currentScope := p2.2,
        blockStack := ⟨some p1.2, .whileLoopT⟩ :: s3.blockStack,
        expectedBlockTypes := .whileLoopT :: s3.expectedBlockTypes }
  else if controlname = "parallelfor" then
    .ok { s with expectedBlockTypes := .parallelFor :: s.expectedBlockTypes }
  else
    match lookupExtension s controlname with
    | none => .error (.parserFailure "unknown extension control keyword")
    | some _ =>
        .ok { s with
          theStack := .identifier controlname :: s.theStack,
          extensionControlKeywords := controlname :: s.extensionControlKeywords,
          expectedBlockTypes := .extensionControl :: s.expectedBlockTypes }
where
  lookupExtension (s : BuildState) (n : String) : Option (List ExtParamInfo) :=
    (s.knownExtensions.find? (fun p => p.1 == n)).map Prod.snd

/-- `ScopeDescription::GhostIntoScope`: alias every variable of the source
scope into the top ghost set of the target.  Modelled from the spec
(s. 4.3). -/
def ghostInto (s : BuildState) (src dst : ScopeId) : Except BuildErr BuildState :=
  match s.getScope src with
  | none => .error .cppFault
  | some sd =>
      let names := sd.vars.map (fun p => (p.1, src))
      .ok (s.setScope dst (fun d =>
        { d with ghosts :=
            match d.ghosts with
            | [] => [names]
            | g :: rest => (g ++ names) :: rest }))

/-- `ParserState::EnterBlock` (`FlowControl.cpp` 177-301). -/
def enterBlock (s : BuildState) : Except BuildErr BuildState := do
  match s.expectedBlockTypes with
  | .whileLoopT :: restExp =>
      .ok { s with expectedBlockTypes := restExp }
  | .responseMap :: restExp =>
      .ok { s with expectedBlockTypes := restExp }
  | _ => do
    let s ←
      (match s.expectedBlockTypes with
      | .msgDispatch :: _ =>
          match s.messageDispatchScope with
          | none => .error .cppFault
          | some mid =>
              let s1 := s.setScope mid
                (fun d => { d with parent := some s.currentScope })
              .ok { s1 with
                currentScope := mid,
                theStack := .scopeE mid :: s1.theStack,
                messageDispatchScope := none }
      | _ => .ok s)
    let pb := s.allocBlock ⟨none, []⟩
    let s := pb.1
    let bid := pb.2
    let btype := s.expectedBlockTypes.headD .free
    let ps ←
      (if btype = .task ∨ btype = .thread then
        let p := s.allocScope (ScopeData.fresh (some s.globalScopeId))
        .ok ({ p.1 with displacedScopes := s.currentScope :: p.1.displacedScopes },
          p.2)
      else if btype = .parallelFor ∨ btype = .extensionControl then
        let p := s.allocScope
          ⟨some s.currentScope, [(s.controlVarName, s.controlVarType)], [], []⟩
        .ok (p.1, p.2)
      else
        let p := s.allocScope (ScopeData.fresh (some s.currentScope))
        .ok (p.1, p.2) : Except BuildErr (BuildState × ScopeId))
    let s := { ps.1 with currentScope := ps.2 }
    let s ←
      (if btype = .functionNoCreate then
        match s.theStack with
        | [] => .error .cppFault
        | entry :: _ =>
          match entry with
          | .identifier fname =>
            match s.getScope s.currentScope with
            | none => .error .cppFault
            | some cur =>
              match cur.parent with
              | none => .error .cppFault
              | some parentId =>
                match s.getFunction parentId fname with
                | none => .error (.parserFailure
                    "Function not found or not a user-defined function; probably the internal parse stacks are corrupted")
                | some fentry => do
                      let fdata := fentry.2
                      let s := s.setScope s.currentScope
                        (fun d => { d with ghosts := [] :: d.ghosts })
                      let s ← ghostInto s fdata.1 s.currentScope
                      let s := s.setScope fdata.2.1
                        (fun d => { d with parent := none })
                      let s ← ghostInto s fdata.2.1 s.currentScope
                      let s ←
                        (match (s.functionReturnValueTracker.find?
                            (fun p => p.1 == fname)).map Prod.snd with
                        | none => .ok s
                        | some tracked =>
                            let remaining := s.functionReturnValueTracker.filter
                              (fun p => p.1 != fname)
                            let s2 := s.setBlock bid
                              (fun b => { b with ops := b.ops ++ tracked })
                            .ok { s2 with functionReturnValueTracker := remaining } :
                          Except BuildErr BuildState)
                      let s ←
                        (match (s.functionReturnInitBlocks.find?
                            (fun p => p.1 == fname)).map Prod.snd with
                        | none => .ok s
                        | some none =>
                            let remaining := s.functionReturnInitBlocks.filter
                              (fun p => p.1 != fname)
                            .ok { s with functionReturnInitBlocks := remaining }
                        | some (some initops) =>
                            let converted := initops.map (fun op =>
                              match op with
                              | .assignValue n => BOp.initializeValue n
                              | other => other)
                            let remaining := s.functionReturnInitBlocks.filter
                              (fun p => p.1 != fname)
                            let s2 := s.setBlock bid (fun b =>
                              { b with ops := b.ops ++ converted })
                            .ok { s2 with functionReturnInitBlocks := remaining } :
                          Except BuildErr BuildState)
                      .ok s
          | _ => .error (.parserFailure
              "Entering function block but the function identifier is not on the parse stack!")
      else if btype = .ifT then
        match s.blockStack with
        | [] => .error .cppFault
        | entry :: _ =>
          match entry.theBlock with
          | none => .error .cppFault
          | some obid =>
            match s.getBlock obid with
            | none => .error .cppFault
            | some obd =>
              match obd.ops.getLast? with
              | none => .error .cppFault
              | some tailop =>
                  if tailop.getType ≠ .boolean then
                    .ok (s.reportFatalError
                      "Condition in if() statement must be a boolean expression")
                  else .ok s
      else if btype = .elseifT then
        match s.blockStack with
        | [] => .error .cppFault
        | entry :: _ =>
          match entry.theBlock with
          | none => .error .cppFault
          | some obid =>
            match s.getBlock obid with
            | none => .error .cppFault
            | some obd =>
              match obd.ops.getLast? with
              | none => .error .cppFault
              | some tailop =>
                  if tailop.getType ≠ .boolean then
                    .ok (s.reportFatalError
                      "Condition in elseif() statement must be a boolean expression")
                  else .ok s
      else .ok s)
    let s := { s with blockStack := ⟨some bid, btype⟩ :: s.blockStack }
    let s := s.setBlock bid (fun b => { b with boundScope := some s.currentScope })
    .ok { s with expectedBlockTypes := s.expectedBlockTypes.tail }

end Builder

namespace Builder

/-- Pop the back of the `Blocks` deque; popping an empty deque is a fault. -/
def popBlocks (s : BuildState) : Except BuildErr BuildState :=
  match s.blockStack with
  | [] => .error .cppFault
  | _ :: t => .ok { s with blockStack := t }

/-- Pop the back of `TheStack`; popping an empty deque is a fault. -/
def popTheStack (s : BuildState) : Except BuildErr BuildState :=
  match s.theStack with
  | [] => .error .cppFault
  | _ :: t => .ok { s with theStack := t }

/-- The shared epilogue of the `BLOCKENTRYTYPE_ELSEIF` case of `ExitBlock`
(`FlowControl.cpp` 434-436 plus the trailing scope restore): attach the
`ElseIf` operation to the now-current block, pop `Blocks` and `TheStack`,
and climb to the parent scope. -/
def exitElseifEpilogue (s : BuildState) (savedblock : Option BlockId) :
    Except BuildErr BuildState := do
  let s ← s.addOperationToCurrentBlock (.elseIfOp savedblock)
  let s ← popBlocks s
  let s ← popTheStack s
  s.toParentScope

/-- `ParserState::ExitBlock` (`FlowControl.cpp` 327-627). -/
def exitBlock (s : BuildState) : Except BuildErr BuildState :=
  match s.blockStack with
  | [] => .error .cppFault
  | back :: rest =>
    match back.btype with
    | .function =>
        .error (.parserFailure "The grammar tried to do something unspeakable.")
    | .functionNoCreate =>
        match s.theStack with
        | [] => .error .cppFault
        | entry :: restStack =>
          match entry with
          | .identifier fname =>
              match s.getFunction s.currentScope fname with
              | none => .error (.parserFailure
                  "Function not found or not a user-defined function; probably the internal parse stacks are corrupted")
              | some fentry =>
                  match back.theBlock with
                  | none => .error (.parserFailure
                      "Expected to find a function code block, but found a null pointer instead!")
                  | some bid => do
                      let setBody := fun
                        (p : String × (ScopeId × ScopeId × Option BlockId)) =>
                        if p.1 == fname then (p.1, (p.2.1, p.2.2.1, some bid))
                        else p
                      let s := s.setScope fentry.1 (fun d =>
                        { d with functions := d.functions.map setBody })
                      let s := { s with theStack := restStack, blockStack := rest }
                      s.toParentScope
          | _ => .error (.parserFailure
              "Expected a valid function identifier but parse stack contains something else")
    | .doLoop => s.toParentScope
    | .ifT =>
        match s.theStack with
        | [] => .error .cppFault
        | entry :: restStack =>
          let ifblock := back.theBlock
          let s := { s with blockStack := rest }
          match entry with
          | .identifier n =>
              (match s.getVariableType s.currentScope n with
              | none => .error .cppFault
              | some ty =>
                  if ty ≠ EpochType.boolean then do
                    let s := s.reportFatalError
                      "Conditional variables must be of the boolean type"
                    let s := { s with theStack := restStack }
                    s.toParentScope
                  else do
                    let s ← s.addOperationToCurrentBlock (.ifOp ifblock none none)
                    let s := { s with theStack := restStack }
                    s.toParentScope)
          | .operation ty =>
              if ty ≠ EpochType.boolean then do
                let s := s.reportFatalError
                  "Conditional expression must be of the boolean type"
                let s := { s with theStack := restStack }
                s.toParentScope
              else do
                let s ← s.addOperationToCurrentBlock (.ifOp ifblock none none)
                let s := { s with theStack := restStack }
                s.toParentScope
          | _ => do
              let s := s.reportFatalError "Expected a conditional expression here"
              let s := { s with theStack := restStack }
              s.toParentScope
    | .elseifT =>
        match s.theStack with
        | [] => .error .cppFault
        | entry :: restStack => do
          let savedblock := back.theBlock
          let s := { s with blockStack := rest }
          let s ←
            (match savedblock with
            | none => .error .cppFault
            | some sbid => .ok (s.setBlock sbid (fun b =>
                { b with ops := b.ops ++ [BOp.exitIfChain] })) :
              Except BuildErr BuildState)
          match entry with
          | .identifier n =>
              (match s.getVariableType s.currentScope n with
              | none => .error .cppFault
              | some ty =>
                  if ty ≠ EpochType.boolean then do
                    let s := s.reportFatalError
                      "Conditional variables must be of the boolean type"
                    let s ← popBlocks s
                    let s := { s with theStack := restStack }
                    s.toParentScope
                  else
                    exitElseifEpilogue s savedblock)
          | .operation ty =>
              if ty ≠ EpochType.boolean then do
                let s := s.reportFatalError
                  "Expected a conditional expression here"
                let s ← popBlocks s
                let s := { s with theStack := restStack }
                let s ← s.toParentScope
                exitElseifEpilogue s savedblock
              else
                exitElseifEpilogue s savedblock
          | _ => do
              let s := s.reportFatalError
                "Conditional variables must be of the boolean type"
              let s ← popBlocks s
              let s := { s with theStack := restStack }
              s.toParentScope
    | .elseT =>
        let elseblock := back.theBlock
        let s := { s with blockStack := rest }
        (match rest with
        | [] => .error .cppFault
        | enc :: _ =>
          match enc.theBlock with
          | none => .error .cppFault
          | some ebid =>
            match s.getBlock ebid with
            | none => .error .cppFault
            | some ebd =>
              match findIfLoop ebd.ops.reverse 0 with
              | none =>
                  (s.reportFatalError
                    "Unexpected else block with no matching if block").toParentScope
              | some off =>
                  match getOperationFromEnd ebd.ops off with
                  | some (.ifOp tb _ w) =>
                      let newOp := BOp.ifOp tb elseblock w
                      let s := s.setBlock ebid (fun b =>
                        { b with ops := setOperationFromEnd b.ops off newOp })
                      s.toParentScope
                  | _ => .error .cppFault)
    | .whileLoopT =>
        let body := back.theBlock
        let s := { s with blockStack := rest }
        (match s.theStack with
        | [] => .error .cppFault
        | _ :: restStack => do
            let s := { s with theStack := restStack }
            let s ← s.addOperationToCurrentBlock (.whileLoop body)
            s.toParentScope)
    | .free => do
        let s := { s with blockStack := rest }
        let s ← s.addOperationToCurrentBlock (.executeBlock back.theBlock)
        s.toParentScope
    | .task =>
        let body := back.theBlock
        let s := { s with blockStack := rest }
        (match s.displacedScopes with
        | [] => .error .cppFault
        | d :: restDisp =>
          let s := { s with currentScope := d }
          match s.theStack with
          | [] => .error (.parserFailure "Task identifiers must be string values")
          | entry :: restStack => do
              let ty ← s.effType entry
              if ty ≠ EpochType.stringT then
                .error (.parserFailure "Task identifiers must be string values")
              else
                match s.savedTaskNames with
                | [] => .error .cppFault
                | tname :: restNames => do
                    let s ← s.addOperationToCurrentBlock (.forkTask body)
                    .ok { s with
                      taskNameTrack := s.taskNameTrack ++ [tname],
                      theStack := restStack,
                      displacedScopes := restDisp,
                      savedTaskNames := restNames })
    | .thread =>
        let body := back.theBlock
        let s := { s with blockStack := rest }
        (match s.displacedScopes with
        | [] => .error .cppFault
        | d :: restDisp =>
          let s := { s with currentScope := d }
          match s.theStack with
          | [] => .error (.parserFailure "Thread pool identifiers must be string values")
          | e1 :: rest1 => do
              let ty1 ← s.effType e1
              if ty1 ≠ EpochType.stringT then
                .error (.parserFailure "Thread pool identifiers must be string values")
              else
                let s := { s with theStack := rest1 }
                match s.theStack with
                | [] => .error (.parserFailure "Thread identifiers must be string values")
                | e2 :: rest2 => do
                    let ty2 ← s.effType e2
                    if ty2 ≠ EpochType.stringT then
                      .error (.parserFailure "Thread identifiers must be string values")
                    else
                      match s.savedTaskNames with
                      | [] => .error .cppFault
                      | tname :: restNames => do
                          let s ← s.addOperationToCurrentBlock (.forkThread body)
                          .ok { s with
                            taskNameTrack := s.taskNameTrack ++ [tname],
                            theStack := rest2,
                            displacedScopes := restDisp,
                            savedTaskNames := restNames })
    | .msgDispatch => .ok s
    | .responseMap => .ok s
    | .parallelFor =>
        let body := back.theBlock
        let s := { s with blockStack := rest }
        (match s.theStack with
        | [] => .error (.parserFailure
            "Last parameter to parallelfor() should be a thread count")
        | e1 :: r1 => do
          let ty1 ← s.effType e1
          if ty1 ≠ EpochType.integer then
            .error (.parserFailure
              "Last parameter to parallelfor() should be a thread count")
          else
            let s := { s with theStack := r1 }
            match s.theStack with
            | [] => .error (.parserFailure
                "Third parameter to parallelfor() should be an upper boundary value")
            | e2 :: r2 => do
              let ty2 ← s.effType e2
              if ty2 ≠ EpochType.integer then
                .error (.parserFailure
                  "Third parameter to parallelfor() should be an upper boundary value")
              else
                let s := { s with theStack := r2 }
                match s.theStack with
                | [] => .error (.parserFailure
                    "Second parameter to parallelfor() should be a lower boundary value")
                | e3 :: r3 => do
                  let ty3 ← s.effType e3
                  if ty3 ≠ EpochType.integer then
                    .error (.parserFailure
                      "Second parameter to parallelfor() should be a lower boundary value")
                  else
                    let s := { s with theStack := r3 }
                    match s.theStack with
                    | [] => .error .cppFault
                    | e4 :: r4 =>
                        match e4 with
                        | .identifier n => do
                            let s ← s.addOperationToCurrentBlock
                              (.parallelForOp body n true 0)
                            let s := { s with theStack := r4 }
                            s.toParentScope
                        | _ => do
                            let s := s.reportFatalError
                              "First parameter to parallelfor() should be a loop counter variable name"
                            let s := { s with theStack := r4 }
                            s.toParentScope)
    | .extensionControl =>
        let body := back.theBlock
        let s := { s with blockStack := rest }
        (match s.extensionControlKeywords with
        | [] => .error .cppFault
        | controlname :: restKw =>
          let s := { s with extensionControlKeywords := restKw }
          match (s.knownExtensions.find? (fun p => p.1 == controlname)).map
              Prod.snd with
          | none => .error .cppFault
          | some paraminfo => do
              let step := fun (acc : Except BuildErr (BuildState × String))
                  (p : ExtParamInfo) => do
                let sc ← acc
                match sc.1.theStack with
                | [] => .error .cppFault
                | entry :: restStack =>
                    let s1 : BuildState :=
                      { sc.1 with theStack := restStack }
                    if p.createsLocalVariable then
                      match entry with
                      | .identifier n => .ok (s1, n)
                      | _ =>
                          .ok (s1.reportFatalError "Expected a variable identifier",
                            sc.2)
                    else do
                      let ty ← sc.1.effType entry
                      if ty ≠ p.localVariableType then
                        .ok (s1.reportFatalError "Parameter type is incorrect",
                          sc.2)
                      else
                        .ok (s1, sc.2)
              let sc ← paraminfo.reverse.foldl step (.ok (s, ""))
              let s := sc.1
              match s.theStack with
              | [] => .error .cppFault
              | kentry :: restStack =>
                  let keyword := kentry.stringValue
                  let s := { s with theStack := restStack }
                  if keyword ≠ controlname then
                    .error (.parserFailure
                      "Mismatched control flow keywords, something has gone horribly wrong in the parser")
                  else do
                    let s ← s.addOperationToCurrentBlock
                      (.handoffControlOp keyword body sc.2 s.currentScope)
                    s.toParentScope)
    | .elseifWrapperT => .error (.parserFailure
        "Invalid block type; this probably reflects corruption in the parser")
    | .globalT => .error (.parserFailure
        "Invalid block type; this probably reflects corruption in the parser")

/-- `ParserState::PopParameterCount`.  Modelled from the spec: discard the
top of the passed-parameter-count stack. -/
def popParameterCount (s : BuildState) : Except BuildErr BuildState :=
  match s.passedParameterCount with
  | [] => .error .cppFault
  | _ :: t => .ok { s with passedParameterCount := t }

/-- `ParserState::RegisterEndOfParallelFor` (`FlowControl.cpp` 776-785). -/
def registerEndOfParallelFor (s : BuildState) : Except BuildErr BuildState := do
  match s.passedParameterCount with
  | [] => .error .cppFault
  | count :: _ =>
    let s :=
      if count ≠ 4 then
        s.reportFatalError "parallelfor() expects 4 parameters"
      else s
    match s.theStack.get? 3 with
    | none => .error .cppFault
    | some e4 =>
        let s := { s with
          controlVarName := e4.stringValue,
          controlVarType := EpochType.integer }
        popParameterCount s

end Builder

namespace Builder

theorem find?_map_fst_eq {α : Type} (l : List (Nat × α))
    (g : Nat × α → Nat × α) (hg : ∀ p, (g p).1 = p.1) (id2 : Nat) :
    (l.map g).find? (fun p => p.1 == id2)
      = (l.find? (fun p => p.1 == id2)).map g := by
  induction l with
  | nil => rfl
  | cons hd tl ih =>
      by_cases h : hd.1 = id2
      · have h1 : ((g hd).1 == id2) = true := by
          rw [hg]
          simpa using h
        have h2 : (hd.1 == id2) = true := by simpa using h
        rw [List.map_cons,
          @List.find?_cons_of_pos _ (fun q => q.1 == id2) (g hd) _ h1,
          @List.find?_cons_of_pos _ (fun q => q.1 == id2) hd _ h2]
        rfl
      · have h1 : ¬ ((g hd).1 == id2) = true := by
          rw [hg]
          simpa using h
        have h2 : ¬ (hd.1 == id2) = true := by simpa using h
        rw [List.map_cons,
          @List.find?_cons_of_neg _ (fun q => q.1 == id2) (g hd) _ h1,
          @List.find?_cons_of_neg _ (fun q => q.1 == id2) hd _ h2]
        exact ih

theorem lookupArena_update {α : Type} (l : List (Nat × α)) (id id2 : Nat)
    (f : α → α) :
    lookupArena (updateArena l id f) id2 =
      if id2 = id then (lookupArena l id).map f else lookupArena l id2 := by
  have hg : ∀ p : Nat × α,
      ((if p.1 == id then (p.1, f p.2) else p) : Nat × α).1 = p.1 := by
    intro p
    by_cases h : p.1 == id <;> simp [h]
  unfold lookupArena updateArena
  rw [find?_map_fst_eq _ _ hg]
  rcases hfind : l.find? (fun p => p.1 == id2) with _ | q
  · by_cases h : id2 = id
    · subst h
      simp [hfind]
    · simp [h, hfind]
  · have hq : (q.1 == id2) = true :=
      @List.find?_some _ (fun p => p.1 == id2) q l hfind
    have h1 : q.1 = id2 := by simpa using hq
    by_cases h : id2 = id
    · subst h
      simp [hfind, h1]
    · have hne : ¬ q.1 = id := by
        rw [h1]
        exact h
      simp [h, hfind, hne]

theorem lookupArena_append {α : Type} (l : List (Nat × α)) (id id2 : Nat)
    (d : α) :
    lookupArena (l ++ [(id, d)]) id2 =
      match lookupArena l id2 with
      | some x => some x
      | none => if id = id2 then some d else none := by
  induction l with
  | nil =>
      by_cases h : id = id2
      · simp [lookupArena, List.find?, h]
      · have hb : (id == id2) = false := by simpa using h
        simp [lookupArena, List.find?, h, hb]
  | cons hd tl ih =>
      by_cases hk : hd.1 = id2
      · simp only [lookupArena, List.cons_append] at *
        rw [List.find?_cons_of_pos, List.find?_cons_of_pos] <;> simp [hk]
      · simp only [lookupArena, List.cons_append] at *
        rw [List.find?_cons_of_neg, List.find?_cons_of_neg]
        · exact ih
        · simpa using hk
        · simpa using hk

end Builder

namespace Builder

theorem getOperationFromEnd_set_self (ops : List BOp) (off : Nat)
    (op old : BOp) (h : getOperationFromEnd ops off = some old) :
    getOperationFromEnd (setOperationFromEnd ops off op) off = some op := by
  unfold getOperationFromEnd at h ⊢
  unfold setOperationFromEnd
  have hoff : off < ops.length := by
    rcases List.get?_eq_some.mp h with ⟨hlt, _⟩
    simpa using hlt
  have hlen : (ops.set (ops.length - 1 - off) op).length = ops.length :=
    List.length_set ops _ op
  rw [List.get?_reverse (by rw [hlen]; exact hoff), hlen, List.get?_set_eq]
  have hold : ops.get? (ops.length - 1 - off) = some old := by
    rw [← List.get?_reverse hoff]
    exact h
  rw [hold]
  rfl

end Builder

namespace Builder

theorem registerControl_first_elseif (s : BuildState) (entry : BlockEntry)
    (stk : List BlockEntry) (bid : BlockId) (bd : BBlockData) (off : Nat)
    (tb fb : Option BlockId)
    (hstack : s.blockStack = entry :: stk)
    (hentry : entry.theBlock = some bid)
    (hblk : s.getBlock bid = some bd)
    (hwalk : findIfLoop bd.ops.reverse 0 = some off)
    (hop : getOperationFromEnd bd.ops off = some (.ifOp tb fb none))
    (hfreshB : s.getBlock s.nextBlockId = none)
    (hfreshS : s.getScope s.nextScopeId = none) :
    ∃ s2, registerControl "elseif" false s = .ok s2 ∧
      s2.blockStack =
        ⟨some s.nextBlockId, .elseifWrapperT⟩ :: s.blockStack ∧
      (∃ bd2, s2.getBlock bid = some bd2 ∧
        getOperationFromEnd bd2.ops off =
          some (.ifOp tb fb (some s.nextBlockId))) ∧
      s2.getBlock s.nextBlockId = some ⟨some s.nextScopeId, []⟩ ∧
      s2.getScope s.nextScopeId =
        some (ScopeData.fresh (some s.currentScope)) ∧
      s2.expectedBlockTypes = .elseifT :: s.expectedBlockTypes := by
  have hne : bid ≠ s.nextBlockId := by
    intro he
    rw [he, hfreshB] at hblk
    cases hblk
  unfold registerControl
  rw [if_neg (by decide), if_neg (by decide), if_pos rfl]
  simp only [Bool.false_eq_true, if_false, hstack, hentry, hblk, hwalk, hop,
    bind, Except.bind, BuildState.allocBlock, BuildState.allocScope,
    BuildState.setBlock, BuildState.setScope]
  refine ⟨_, rfl, ?_, ?_, ?_, ?_, ?_⟩
  · simp [hstack]
  · refine ⟨{ bd with ops :=
        setOperationFromEnd bd.ops off (BOp.ifOp tb fb (some s.nextBlockId)) },
      ?_, ?_⟩
    · show lookupArena _ bid = _
      rw [lookupArena_update]
      rw [if_pos rfl]
      rw [lookupArena_update]
      rw [if_neg hne]
      rw [lookupArena_append]
      unfold BuildState.getBlock at hblk
      rw [hblk]
      rfl
    · exact getOperationFromEnd_set_self bd.ops off _ _ hop
  · show lookupArena _ s.nextBlockId = _
    rw [lookupArena_update]
    rw [if_neg (fun h => hne h.symm)]
    rw [lookupArena_update]
    rw [if_pos rfl]
    rw [lookupArena_append]
    unfold BuildState.getBlock at hfreshB
    rw [hfreshB]
    rw [if_pos rfl]
    rfl
  · show lookupArena _ s.nextScopeId = _
    rw [lookupArena_append]
    unfold BuildState.getScope at hfreshS
    rw [hfreshS]
    rw [if_pos rfl]
  · rfl

end Builder

namespace Builder

theorem registerControl_subsequent_elseif (s : BuildState)
    (entry : BlockEntry) (stk : List BlockEntry) (bid : BlockId)
    (bd : BBlockData) (off : Nat) (tb fb : Option BlockId) (w : BlockId)
    (hstack : s.blockStack = entry :: stk)
    (hentry : entry.theBlock = some bid)
    (hblk : s.getBlock bid = some bd)
    (hwalk : findIfLoop bd.ops.reverse 0 = some off)
    (hop : getOperationFromEnd bd.ops off = some (.ifOp tb fb (some w))) :
    registerControl "elseif" false s =
      .ok { s with
        blockStack := ⟨some w, .elseifWrapperT⟩ :: s.blockStack,
        expectedBlockTypes := .elseifT :: s.expectedBlockTypes } := by
  unfold registerControl
  rw [if_neg (by decide), if_neg (by decide), if_pos rfl]
  simp only [Bool.false_eq_true, if_false, hstack, hentry, hblk, hwalk, hop,
    bind, Except.bind]

theorem exitBlock_elseif_body (s : BuildState) (sbid : BlockId)
    (sbd : BBlockData) (wentry : BlockEntry) (ebid : BlockId)
    (ebd : BBlockData) (rest2 : List BlockEntry)
    (restStack : List BStackEntry) (cur : ScopeData) (par : ScopeId)
    (hstack : s.blockStack = ⟨some sbid, .elseifT⟩ :: wentry :: rest2)
    (hwent : wentry.theBlock = some ebid)
    (hthe : s.theStack = .operation .boolean :: restStack)
    (hsb : s.getBlock sbid = some sbd)
    (heb : s.getBlock ebid = some ebd)
    (hne : sbid ≠ ebid)
    (hcur : s.getScope s.currentScope = some cur)
    (hpar : cur.parent = some par) :
    ∃ s2, exitBlock s = .ok s2 ∧
      s2.getBlock sbid = some { sbd with ops := sbd.ops ++ [.exitIfChain] } ∧
      s2.getBlock ebid =
        some { ebd with ops := ebd.ops ++ [.elseIfOp (some sbid)] } ∧
      s2.blockStack = rest2 ∧
      s2.theStack = restStack ∧
      s2.currentScope = par := by
  unfold exitBlock exitElseifEpilogue BuildState.addOperationToCurrentBlock
  unfold popBlocks popTheStack BuildState.toParentScope
  simp only [hstack, hthe, hwent, bind, Except.bind, BuildState.setBlock]
  rw [if_neg (fun h : EpochType.boolean ≠ EpochType.boolean => h rfl)]
  have hcur2 : lookupArena s.scopes s.currentScope = some cur := hcur
  simp only [hwent, BuildState.getScope, hcur2, hpar]
  refine ⟨_, rfl, ?_, ?_, rfl, rfl, rfl⟩
  · show lookupArena _ sbid = _
    rw [lookupArena_update]
    rw [if_neg hne]
    rw [lookupArena_update]
    rw [if_pos rfl]
    have hsb2 : lookupArena s.blocks sbid = some sbd := hsb
    rw [hsb2]
    rfl
  · show lookupArena _ ebid = _
    rw [lookupArena_update]
    rw [if_pos rfl]
    rw [lookupArena_update]
    rw [if_neg (fun h => hne h.symm)]
    have heb2 : lookupArena s.blocks ebid = some ebd := heb
    rw [heb2]
    rfl

theorem exitBlock_else_installs_falseBlock (s : BuildState)
    (elsebid : BlockId) (enc : BlockEntry) (ebid : BlockId)
    (ebd : BBlockData) (rest2 : List BlockEntry) (off : Nat)
    (tb fb w : Option BlockId) (cur : ScopeData) (par : ScopeId)
    (hstack : s.blockStack = ⟨some elsebid, .elseT⟩ :: enc :: rest2)
    (henc : enc.theBlock = some ebid)
    (heb : s.getBlock ebid = some ebd)
    (hwalk : findIfLoop ebd.ops.reverse 0 = some off)
    (hop : getOperationFromEnd ebd.ops off = some (.ifOp tb fb w))
    (hcur : s.getScope s.currentScope = some cur)
    (hpar : cur.parent = some par) :
    ∃ s2, exitBlock s = .ok s2 ∧
      (∃ ebd2, s2.getBlock ebid = some ebd2 ∧
        getOperationFromEnd ebd2.ops off =
          some (.ifOp tb (some elsebid) w)) ∧
      s2.blockStack = enc :: rest2 ∧
      s2.currentScope = par := by
  unfold exitBlock BuildState.toParentScope
  have heb2 : lookupArena s.blocks ebid = some ebd := heb
  have hcur2 : lookupArena s.scopes s.currentScope = some cur := hcur
  simp only [hstack, henc, BuildState.getBlock, BuildState.getScope, heb2,
    hwalk, hop, bind, Except.bind, BuildState.setBlock, hcur2, hpar]
  refine ⟨_, rfl, ?_, rfl, rfl⟩
  refine ⟨{ ebd with ops :=
      setOperationFromEnd ebd.ops off (BOp.ifOp tb (some elsebid) w) },
    ?_, ?_⟩
  · show lookupArena _ ebid = _
    rw [lookupArena_update]
    rw [if_pos rfl]
    have heb2 : lookupArena s.blocks ebid = some ebd := heb
    rw [heb2]
    rfl
  · exact getOperationFromEnd_set_self ebd.ops off _ _ hop

end Builder

namespace Builder

/-- C2: if/elseif/else chain discipline.  (a) The first `elseif` allocates a
fresh ElseIfWrapper block (with a fresh scope parented to the current scope)
and installs it on the nearest `If` found by walking back from the block
tail skipping ElseIfWrapper operations; (b) subsequent elseifs reuse that
same wrapper block, pushing it without any allocation; (c) every elseif body
gets an `ExitIfChain` appended at block exit, and its `ElseIf` operation is
appended into the wrapper block; (d) a final `else` installs its block as
the `falseBlock` of the nearest `If` found by the same backward walk. -/
theorem c2_if_elseif_else_chain :
    (∀ (s : BuildState) (entry : BlockEntry) (stk : List BlockEntry)
        (bid : BlockId) (bd : BBlockData) (off : Nat) (tb fb : Option BlockId),
      s.blockStack = entry :: stk →
      entry.theBlock = some bid →
      s.getBlock bid = some bd →
      findIfLoop bd.ops.reverse 0 = some off →
      getOperationFromEnd bd.ops off = some (.ifOp tb fb none) →
      s.getBlock s.nextBlockId = none →
      s.getScope s.nextScopeId = none →
      ∃ s2, registerControl "elseif" false s = .ok s2 ∧
        s2.blockStack =
          ⟨some s.nextBlockId, .elseifWrapperT⟩ :: s.blockStack ∧
        (∃ bd2, s2.getBlock bid = some bd2 ∧
          getOperationFromEnd bd2.ops off =
            some (.ifOp tb fb (some s.nextBlockId))) ∧
        s2.getBlock s.nextBlockId = some ⟨some s.nextScopeId, []⟩ ∧
        s2.getScope s.nextScopeId =
          some (ScopeData.fresh (some s.currentScope)) ∧
        s2.expectedBlockTypes = .elseifT :: s.expectedBlockTypes) ∧
    (∀ (s : BuildState) (entry : BlockEntry) (stk : List BlockEntry)
        (bid : BlockId) (bd : BBlockData) (off : Nat) (tb fb : Option BlockId)
        (w : BlockId),
      s.blockStack = entry :: stk →
      entry.theBlock = some bid →
      s.getBlock bid = some bd →
      findIfLoop bd.ops.reverse 0 = some off →
      getOperationFromEnd bd.ops off = some (.ifOp tb fb (some w)) →
      registerControl "elseif" false s =
        .ok { s with
          blockStack := ⟨some w, .elseifWrapperT⟩ :: s.blockStack,
          expectedBlockTypes := .elseifT :: s.expectedBlockTypes }) ∧
    (∀ (s : BuildState) (sbid : BlockId) (sbd : BBlockData)
        (wentry : BlockEntry) (ebid : BlockId) (ebd : BBlockData)
        (rest2 : List BlockEntry) (restStack : List BStackEntry)
        (cur : ScopeData) (par : ScopeId),
      s.blockStack = ⟨some sbid, .elseifT⟩ :: wentry :: rest2 →
      wentry.theBlock = some ebid →
      s.theStack = .operation .boolean :: restStack →
      s.getBlock sbid = some sbd →
      s.getBlock ebid = some ebd →
      sbid ≠ ebid →
      s.getScope s.currentScope = some cur →
      cur.parent = some par →
      ∃ s2, exitBlock s = .ok s2 ∧
        s2.getBlock sbid = some { sbd with ops := sbd.ops ++ [.exitIfChain] } ∧
        s2.getBlock ebid =
          some { ebd with ops := ebd.ops ++ [.elseIfOp (some sbid)] } ∧
        s2.blockStack = rest2 ∧
        s2.theStack = restStack ∧
        s2.currentScope = par) ∧
    (∀ (s : BuildState) (elsebid : BlockId) (enc : BlockEntry)
        (ebid : BlockId) (ebd : BBlockData) (rest2 : List BlockEntry)
        (off : Nat) (tb fb w : Option BlockId) (cur : ScopeData)
        (par : ScopeId),
      s.blockStack = ⟨some elsebid, .elseT⟩ :: enc :: rest2 →
      enc.theBlock = some ebid →
      s.getBlock ebid = some ebd →
      findIfLoop ebd.ops.reverse 0 = some off →
      getOperationFromEnd ebd.ops off = some (.ifOp tb fb w) →
      s.getScope s.currentScope = some cur →
      cur.parent = some par →
      ∃ s2, exitBlock s = .ok s2 ∧
        (∃ ebd2, s2.getBlock ebid = some ebd2 ∧
          getOperationFromEnd ebd2.ops off =
            some (.ifOp tb (some elsebid) w)) ∧
        s2.blockStack = enc :: rest2 ∧
        s2.currentScope = par) :=
  ⟨registerControl_first_elseif, registerControl_subsequent_elseif,
    exitBlock_elseif_body, exitBlock_else_installs_falseBlock⟩

/-- A minimal parser state: the current block 10 holds a boolean condition
and an `If` with no wrapper yet. -/
def c2StateA : BuildState :=
  { scopes := [(0, ScopeData.fresh none), (1, ⟨some 0, [], [], []⟩)],
    nextScopeId := 2,
    blocks := [(10, ⟨some 1,
      [BOp.genericOp .boolean 0, BOp.ifOp (some 11) none none]⟩),
      (11, ⟨some 1, []⟩)],
    nextBlockId := 12,
    globalScopeId := 0,
    currentScope := 1,
    blockStack := [⟨some 10, .free⟩],
    expectedBlockTypes := [],
    theStack := [],
    displacedScopes := [],
    savedTaskNames := [],
    passedParameterCount := [],
    extensionControlKeywords := [],
    messageDispatchScope := none,
    controlVarName := "",
    controlVarType := .integer,
    fatalError := false,
    errors := [],
    taskNameTrack := [],
    functionReturnValueTracker := [],
    functionReturnInitBlocks := [],
    knownExtensions := [] }

/-- Like `c2StateA` but the `If` already carries wrapper block 13. -/
def c2StateB : BuildState :=
  { c2StateA with blocks := [(10, ⟨some 1,
      [BOp.genericOp .boolean 0, BOp.ifOp (some 11) none (some 13)]⟩),
      (11, ⟨some 1, []⟩), (13, ⟨some 2, []⟩)] }

/-- A state mid-elseif: block 20 is the elseif body being closed, block 13
the wrapper, scope 3 the elseif scope parented to scope 1. -/
def c2StateC : BuildState :=
  { c2StateB with
    scopes := [(0, ScopeData.fresh none), (1, ⟨some 0, [], [], []⟩),
      (3, ⟨some 1, [], [], []⟩)],
    blocks := [(10, ⟨some 1,
      [BOp.genericOp .boolean 0, BOp.ifOp (some 11) none (some 13)]⟩),
      (11, ⟨some 1, []⟩), (13, ⟨some 2, []⟩),
      (20, ⟨some 3, [BOp.genericOp .boolean 0]⟩)],
    currentScope := 3,
    blockStack := [⟨some 20, .elseifT⟩, ⟨some 13, .elseifWrapperT⟩,
      ⟨some 10, .free⟩],
    theStack := [.operation .boolean] }

/-- A state closing an else block 14 whose enclosing block 10 ends in an
`If` carrying wrapper 13. -/
def c2StateD : BuildState :=
  { c2StateC with
    blocks := [(10, ⟨some 1,
      [BOp.genericOp .boolean 0, BOp.ifOp (some 11) none (some 13)]⟩),
      (11, ⟨some 1, []⟩), (13, ⟨some 2, []⟩), (14, ⟨some 3, []⟩)],
    blockStack := [⟨some 14, .elseT⟩, ⟨some 10, .free⟩],
    theStack := [] }

theorem c2_chain_witness :
    (∃ s2, registerControl "elseif" false c2StateA = .ok s2 ∧
      s2.blockStack = ⟨some 12, .elseifWrapperT⟩ :: c2StateA.blockStack ∧
      (∃ bd2, s2.getBlock 10 = some bd2 ∧
        getOperationFromEnd bd2.ops 0 =
          some (.ifOp (some 11) none (some 12))) ∧
      s2.getBlock 12 = some ⟨some 2, []⟩ ∧
      s2.getScope 2 = some (ScopeData.fresh (some 1)) ∧
      s2.expectedBlockTypes = [.elseifT]) ∧
    registerControl "elseif" false c2StateB =
      .ok { c2StateB with
        blockStack := ⟨some 13, .elseifWrapperT⟩ :: c2StateB.blockStack,
        expectedBlockTypes := [.elseifT] } ∧
    (∃ s2, exitBlock c2StateC = .ok s2 ∧
      s2.getBlock 20 = some ⟨some 3,
        [BOp.genericOp .boolean 0, BOp.exitIfChain]⟩ ∧
      s2.getBlock 13 = some ⟨some 2, [BOp.elseIfOp (some 20)]⟩ ∧
      s2.blockStack = [⟨some 10, .free⟩] ∧
      s2.theStack = [] ∧
      s2.currentScope = 1) ∧
    (∃ s2, exitBlock c2StateD = .ok s2 ∧
      (∃ ebd2, s2.getBlock 10 = some ebd2 ∧
        getOperationFromEnd ebd2.ops 0 =
          some (.ifOp (some 11) (some 14) (some 13))) ∧
      s2.blockStack = [⟨some 10, .free⟩] ∧
      s2.currentScope = 1) := by
  refine ⟨?_, ?_, ?_, ?_⟩
  · exact c2_if_elseif_else_chain.1 c2StateA ⟨some 10, .free⟩ [] 10
      ⟨some 1, [BOp.genericOp .boolean 0, BOp.ifOp (some 11) none none]⟩ 0
      (some 11) none rfl rfl rfl rfl rfl rfl rfl
  · exact c2_if_elseif_else_chain.2.1 c2StateB ⟨some 10, .free⟩ [] 10
      ⟨some 1, [BOp.genericOp .boolean 0, BOp.ifOp (some 11) none (some 13)]⟩
      0 (some 11) none 13 rfl rfl rfl rfl rfl
  · exact c2_if_elseif_else_chain.2.2.1 c2StateC 20
      ⟨some 3, [BOp.genericOp .boolean 0]⟩ ⟨some 13, .elseifWrapperT⟩ 13
      ⟨some 2, []⟩ [⟨some 10, .free⟩] [] ⟨some 1, [], [], []⟩ 1
      rfl rfl rfl rfl rfl (by decide) rfl rfl
  · exact c2_if_elseif_else_chain.2.2.2 c2StateD 14 ⟨some 10, .free⟩ 10
      ⟨some 1, [BOp.genericOp .boolean 0, BOp.ifOp (some 11) none (some 13)]⟩
      [] 0 (some 11) none (some 13) ⟨some 1, [], [], []⟩ 1
      rfl rfl rfl rfl rfl rfl rfl

end Builder

namespace Builder

theorem registerEndOfParallelFor_wrong_count (s : BuildState) (count : Nat)
    (restCnt : List Nat) (e4 : BStackEntry)
    (hcnt : s.passedParameterCount = count :: restCnt)
    (hne : count ≠ 4)
    (hstk : s.theStack.get? 3 = some e4) :
    registerEndOfParallelFor s = .ok { s with
      fatalError := true,
      errors := s.errors ++ ["parallelfor() expects 4 parameters"],
      controlVarName := e4.stringValue,
      controlVarType := EpochType.integer,
      passedParameterCount := restCnt } := by
  unfold registerEndOfParallelFor popParameterCount BuildState.reportFatalError
  simp only [hcnt, hstk]
  rw [if_pos hne]
  simp only [hstk, hcnt]

theorem exitBlock_parallelfor_bad_threadcount (s : BuildState)
    (b : Option BlockId) (rest : List BlockEntry) (ty : EpochType)
    (r1 : List BStackEntry)
    (hstack : s.blockStack = ⟨b, .parallelFor⟩ :: rest)
    (hthe : s.theStack = .operation ty :: r1)
    (hty : ty ≠ .integer) :
    exitBlock s = .error (.parserFailure
      "Last parameter to parallelfor() should be a thread count") := by
  unfold exitBlock
  simp only [hstack, hthe, bind, Except.bind, BuildState.effType]
  rw [if_pos hty]

theorem exitBlock_parallelfor_bad_counter (s : BuildState)
    (b : Option BlockId) (rest : List BlockEntry) (r4 : List BStackEntry)
    (cur : ScopeData) (par : ScopeId)
    (hstack : s.blockStack = ⟨b, .parallelFor⟩ :: rest)
    (hthe : s.theStack = .operation .integer :: .operation .integer ::
      .operation .integer :: .operation .integer :: r4)
    (hcur : s.getScope s.currentScope = some cur)
    (hpar : cur.parent = some par) :
    exitBlock s = .ok { s with
      blockStack := rest,
      theStack := r4,
      fatalError := true,
      errors := s.errors ++
        ["First parameter to parallelfor() should be a loop counter variable name"],
      currentScope := par } := by
  unfold exitBlock BuildState.toParentScope BuildState.reportFatalError
  have hcur2 : lookupArena s.scopes s.currentScope = some cur := hcur
  simp only [hstack, hthe, bind, Except.bind, BuildState.effType,
    BuildState.getScope]
  rw [if_neg (fun h : EpochType.integer ≠ EpochType.integer => h rfl)]
  rw [if_neg (fun h : EpochType.integer ≠ EpochType.integer => h rfl)]
  rw [if_neg (fun h : EpochType.integer ≠ EpochType.integer => h rfl)]
  simp only [hcur2, hpar]

end Builder

namespace Builder

/-- C4 (amended): what the parallelfor error paths actually do.  A parameter
count other than 4 only sets the fatal flag and records the message, emitting
nothing, and parsing continues; a thread-count (and likewise upper/lower
bound) argument that is not Integer-typed aborts the parse with a
ParserFailureException rather than continuing; a first argument that is not
an identifier sets the fatal flag and continues with no operation (no NoOp)
emitted into the enclosing block. -/
theorem c4_parallelfor_error_handling_amended :
    (∀ (s : BuildState) (count : Nat) (restCnt : List Nat) (e4 : BStackEntry),
      s.passedParameterCount = count :: restCnt →
      count ≠ 4 →
      s.theStack.get? 3 = some e4 →
      registerEndOfParallelFor s = .ok { s with
        fatalError := true,
        errors := s.errors ++ ["parallelfor() expects 4 parameters"],
        controlVarName := e4.stringValue,
        controlVarType := EpochType.integer,
        passedParameterCount := restCnt }) ∧
    (∀ (s : BuildState) (b : Option BlockId) (rest : List BlockEntry)
        (ty : EpochType) (r1 : List BStackEntry),
      s.blockStack = ⟨b, .parallelFor⟩ :: rest →
      s.theStack = .operation ty :: r1 →
      ty ≠ .integer →
      exitBlock s = .error (.parserFailure
        "Last parameter to parallelfor() should be a thread count")) ∧
    (∀ (s : BuildState) (b : Option BlockId) (rest : List BlockEntry)
        (r4 : List BStackEntry) (cur : ScopeData) (par : ScopeId),
      s.blockStack = ⟨b, .parallelFor⟩ :: rest →
      s.theStack = .operation .integer :: .operation .integer ::
        .operation .integer :: .operation .integer :: r4 →
      s.getScope s.currentScope = some cur →
      cur.parent = some par →
      exitBlock s = .ok { s with
        blockStack := rest,
        theStack := r4,
        fatalError := true,
        errors := s.errors ++
          ["First parameter to parallelfor() should be a loop counter variable name"],
        currentScope := par }) :=
  ⟨registerEndOfParallelFor_wrong_count,
    exitBlock_parallelfor_bad_threadcount, exitBlock_parallelfor_bad_counter⟩

/-- A parser state about to close a parallelfor block (block 20, scope 3,
enclosing block 10 in scope 1). -/
def c4Base : BuildState :=
  { scopes := [(0, ScopeData.fresh none), (1, ⟨some 0, [], [], []⟩),
      (3, ⟨some 1, [], [], []⟩)],
    nextScopeId := 4,
    blocks := [(10, ⟨some 1, []⟩), (20, ⟨some 3, []⟩)],
    nextBlockId := 21,
    globalScopeId := 0,
    currentScope := 3,
    blockStack := [⟨some 20, .parallelFor⟩, ⟨some 10, .free⟩],
    expectedBlockTypes := [],
    theStack := [],
    displacedScopes := [],
    savedTaskNames := [],
    passedParameterCount := [],
    extensionControlKeywords := [],
    messageDispatchScope := none,
    controlVarName := "",
    controlVarType := .integer,
    fatalError := false,
    errors := [],
    taskNameTrack := [],
    functionReturnValueTracker := [],
    functionReturnInitBlocks := [],
    knownExtensions := [] }

/-- parallelfor() with a string-typed thread count on the stack. -/
def c4StateA : BuildState :=
  { c4Base with theStack := [.operation .stringT, .operation .integer,
      .operation .integer, .identifier "i"] }

/-- parallelfor() whose first argument is an expression, not an identifier. -/
def c4StateB : BuildState :=
  { c4Base with theStack := [.operation .integer, .operation .integer,
      .operation .integer, .operation .integer] }

/-- parallelfor() closed with 3 parameters instead of 4. -/
def c4StateC : BuildState :=
  { c4Base with
    theStack := [.identifier "a", .identifier "b", .identifier "c",
      .identifier "i"],
    passedParameterCount := [3, 7] }

/-- C4 counterexample: a non-Integer thread count makes the builder throw a
ParserFailureException (no fatal flag, no NoOp, parse aborted), and a
non-identifier first argument sets the fatal flag but emits no operation at
all into the enclosing block — the claimed fatal-error-plus-NoOp-and-continue
behaviour never happens. -/
theorem c4_parallelfor_counterexample :
    exitBlock c4StateA = .error (.parserFailure
      "Last parameter to parallelfor() should be a thread count") ∧
    (exitBlock c4StateB).map (fun s2 =>
      (s2.fatalError, s2.errors, (s2.getBlock 10).map BBlockData.ops,
        s2.blockStack, s2.currentScope)) =
      .ok (true,
        ["First parameter to parallelfor() should be a loop counter variable name"],
        some [], [⟨some 10, .free⟩], 1) := by
  constructor
  · rfl
  · rfl

theorem c4_amended_witness :
    registerEndOfParallelFor c4StateC = .ok { c4StateC with
      fatalError := true,
      errors := c4StateC.errors ++ ["parallelfor() expects 4 parameters"],
      controlVarName := (BStackEntry.identifier "i").stringValue,
      controlVarType := EpochType.integer,
      passedParameterCount := [7] } ∧
    exitBlock c4StateA = .error (.parserFailure
      "Last parameter to parallelfor() should be a thread count") ∧
    exitBlock c4StateB = .ok { c4StateB with
      blockStack := [⟨some 10, .free⟩],
      theStack := [],
      fatalError := true,
      errors := c4StateB.errors ++
        ["First parameter to parallelfor() should be a loop counter variable name"],
      currentScope := 1 } := by
  refine ⟨?_, ?_, ?_⟩
  · exact c4_parallelfor_error_handling_amended.1 c4StateC 3 [7]
      (.identifier "i") rfl (by decide) rfl
  · exact c4_parallelfor_error_handling_amended.2.1 c4StateA (some 20)
      [⟨some 10, .free⟩] .stringT
      [.operation .integer, .operation .integer, .identifier "i"]
      rfl rfl (by decide)
  · exact c4_parallelfor_error_handling_amended.2.2 c4StateB (some 20)
      [⟨some 10, .free⟩] [] ⟨some 1, [], [], []⟩ 1 rfl rfl rfl rfl

end Builder

namespace Loader

/-- Bytecode opcodes.  Modelled from the spec (s. 6): the numeric
`Bytecode::` constants live in a header that is not among the staged
sources; the loader dispatch in `Loading.cpp` names them, and the last six
are opcodes the operation classes of the builder serialize to but the
loader never dispatches on. -/
inductive Opcode where
  | pushOperation
  | invoke
  | debugWrite
  | pushRealLiteral
  | divideReals
  | pushIntegerLiteral
  | isEqual
  | isNotEqual
  | isLesser
  | isGreater
  | assignValue
  | doWhile
  | getValue
  | ifT
  | addReals
  | subReals
  | pushBooleanLiteral
  | pushStringLiteral
  | addIntegers
  | subtractIntegers
  | debugRead
  | elseIf
  | exitIfChain
  | readTuple
  | writeTuple
  | readStructure
  | writeStructure
  | init
  | bindFunctionReference
  | sizeOfOp
  | whileT
  | bindReference
  | whileCondition
  | breakOp
  | returnOp
  | bitwiseAnd
  | bitwiseOr
  | bitwiseXor
  | bitwiseNot
  | logicalAnd
  | logicalOr
  | logicalXor
  | logicalNot
  | concat
  | isGreaterEqual
  | pushInteger16Literal
  | invokeIndirect
  | booleanLiteral
  | beginBlock
  | readStructureIndirect
  | bindStruct
  | writeStructureIndirect
  | forkTask
  | acceptMessage
  | multiplyIntegers
  | getMessageSender
  | getTaskCaller
  | sendTaskMessage
  | acceptMessageFromMap
  | typeCastToString
  | divideIntegers
  | typeCast
  | future
  | mapOp
  | reduceOp
  | isLesserEqual
  | integerLiteral
  | threadPool
  | forkThread
  | handoff
  | handoffControl
  | parallelFor
  | readArray
  | writeArray
  | arrayLength
  | consArrayIndirect
  | endBlock
  | elseIfWrapper
  | scope
  | parentScope
  | variablesOp
  | ghosts
  | ghostRecord
  | functions
  | callDLL
  | functionSignatureList
  | functionSignatureBegin
  | functionSignatureEnd
  | tupleTypes
  | tupleHints
  | tupleTypeMap
  | members
  | structureTypes
  | structureHints
  | structureTypeMap
  | constants
  | responseMaps
  | futures
  | arrayHints
  | endScope
  | globalBlock
  | extensionData
  | multiplyReals
  | addIntegers16
  | subtractIntegers16
  | multiplyIntegers16
  | divideIntegers16
  | consArray
deriving DecidableEq, Repr

/-- The byte stream, abstracted to typed tokens as the spec (s. 9) advises:
each fixed-width read of the C++ reader corresponds to one token.  `cookie`
stands for the header cookie bytes. -/
inductive Tok where
  | cookie
  | ins (op : Opcode)
  | num (n : Int)
  | flg (b : Bool)
  | str (s : String)
  | flt (v : Int)
deriving DecidableEq, Repr

/-- Loader failures: `invalidBytecode` is `InvalidBytecodeException` (message
kept, the formatted offset dropped), `exceptionMsg` the plain `Exception`
throws of the typecast decoders, `streamMismatch` a fixed-width read hitting
a token of the wrong shape (in C++ such a read returns garbage bytes), and
`cppFault` a crash (null deref, missing map key via `find`). -/
inductive LoadErr where
  | invalidBytecode (msg : String)
  | exceptionMsg (msg : String)
  | streamMismatch
  | cppFault
  | outOfFuel
deriving DecidableEq, Repr

/-- Numeric type codes (`EpochVariableTypeID`).  Modelled from the spec
(s. 2 lists the closed set in this order); the numeric header is not among
the staged sources. -/
def typeNull : Int := 0
def typeInteger : Int := 1
def typeInteger16 : Int := 2
def typeReal : Int := 3
def typeBoolean : Int := 4
def typeString : Int := 5
def typeTuple : Int := 6
def typeStructure : Int := 7
def typeFunction : Int := 8
def typeBuffer : Int := 12

mutual

/-- Loaded operations, one constructor per VM operation class the loader
constructs.  The four arithmetic families appear as `arithFold`/`arithBinary`
mirroring the one-parameter and two-parameter C++ constructors. -/
inductive LOp where
  | pushOp (inner : LOp)
  | invokeOp (funcref : Nat)
  | debugWrite
  | debugRead
  | pushRealLiteral (v : Int)
  | arithFold (fam : Arith.ArithFam) (ty : EpochType)
  | arithBinary (fam : Arith.ArithFam) (ty : EpochType)
      (firstIsArray secondIsArray : Bool)
  | concatFold
  | concatBinary (firstIsArray secondIsArray : Bool)
  | isEqual (ty : Int)
  | isNotEqual (ty : Int)
  | isLesser (ty : Int)
  | isGreater (ty : Int)
  | isGreaterOrEqual (ty : Int)
  | isLesserOrEqual (ty : Int)
  | assignValue (name : String)
  | getVariableValue (name : String)
  | initializeValue (name : String)
  | doWhileLoop (body : Option LBlockT)
  | ifOp (trueB : Option LBlockT) (elseifW : Option LBlockT)
      (falseB : Option LBlockT)
  | elseIfOp (body : Option LBlockT)
  | exitIfChain
  | pushBooleanLiteral (b : Bool)
  | pushStringLiteral (s : String)
  | pushIntegerLiteral (v : Int)
  | pushInteger16Literal (v : Int)
  | readTuple (varname membername : String)
  | assignTuple (varname membername : String)
  | readStructure (varname membername : String)
  | assignStructure (varname membername : String)
  | bindFunctionReference (name : String)
  | sizeOfOp (name : String)
  | whileLoop (body : Option LBlockT)
  | whileLoopConditional
  | bindReference (name : String)
  | breakOp
  | returnOp
  | bitwiseAnd (ty : Int) (subs : List LOp)
  | bitwiseOr (ty : Int) (subs : List LOp)
  | bitwiseXor (ty : Int)
  | bitwiseNot (ty : Int)
  | logicalAnd (subs : List LOp)
  | logicalOr (subs : List LOp)
  | logicalXor
  | logicalNot
  | invokeIndirect (name : String)
  | booleanConstant (b : Bool)
  | integerConstant (v : Int)
  | executeBlock (body : Option LBlockT)
  | readStructureIndirect (membername : String)
  | bindStructChained (membername : String)
  | bindStruct (varname membername : String)
  | assignStructureIndirect (membername : String)
  | forkTask (body : Option LBlockT)
  | forkThread (body : Option LBlockT)
  | acceptMessage (messagename : String) (body : Option LBlockT)
      (auxRef : Nat)
  | getMessageSender
  | getTaskCaller
  | sendTaskMessage (byname : Bool) (messagename : String)
      (paramtypes : List Int)
  | acceptMessageFromMap (mapname : String)
  | typeCastToString (originty : Int)
  | typeCast (originty destty : Int)
  | forkFuture (name : String) (ty : Int) (usethreadpool : Bool)
  | mapOperation (inner : LOp)
  | reduceOperation (inner : LOp)
  | createThreadPool
  | handoffOp (libname : String) (body : Option LBlockT) (handle : Int)
  | handoffControlOp (libname : String) (body : Option LBlockT)
      (countervar : String) (handle : Int)
  | parallelForOp (body : Option LBlockT) (countervar : String)
  | readArray (name : String)
  | writeArray (name : String)
  | arrayLength (name : String)
  | consArrayIndirect (elemty : Int) (inner : LOp)
deriving Repr

/-- A loaded code block: the scope it is bound to (a loaded-scope arena
reference) plus its operations. -/
inductive LBlockT where
  | mk (boundScope : Option Nat) (ops : List LOp)
deriving Repr

end

def LBlockT.boundScope : LBlockT → Option Nat
  | .mk b _ => b

def LBlockT.ops : LBlockT → List LOp
  | .mk _ o => o

/-- A loaded function signature (`VM::FunctionSignature`), content kept
verbatim from the stream. -/
inductive LSig where
  | mk (params returns paramHints paramFlags : List Int)
      (subs : List (Option LSig)) (returnHints : List Int)
deriving Repr

/-- An empty signature, what `LoadFunctionSignature` returns on prepass. -/
def emptySig : LSig := .mk [] [] [] [] [] []

/-- A loaded function object (`VM::FunctionBase`): a `CallDLL` marshalling
stub or a user function. -/
inductive LFunc where
  | dllF (dllname dllfuncname : String) (paramsRef : Nat)
      (returntype returntypehint : Int)
  | userF (paramsRef returnsRef : Nat) (body : Option LBlockT)
deriving Repr

/-- A loaded scope descriptor (`VM::ScopeDescription`), restricted to the
content `LoadScope` writes. -/
structure LScope where
  parent : Option Nat
  references : List (String × Int)
  vars : List (String × Int)
  memberOrder : List String
  ghosts : List (List (String × Nat))
  functions : List (String × Nat)
  functionSignatures : List (String × LSig)
  tupleTypes : List (String × Int)
  tupleTypeHints : List (String × Int)
  tupleTypeData : List (Int × List (String × Int))
  structureTypes : List (String × Int)
  structureTypeHints : List (String × Int)
  structureTypeData : List (Int × List (String × Int × Option Int))
  constants : List String
  responseMaps : List (String × List (String × List Int × Option LBlockT × Nat))
  futures : List (String × LOp)
  arrayTypes : List (String × Int)
deriving Repr

def emptyLScope : LScope :=
  ⟨none, [], [], [], [], [], [], [], [], [], [], [], [], [], [], [], []⟩

/-- The loader state (`FileLoader` object plus the Program it fills in). -/
structure LState where
  toks : List Tok
  isPrepass : Bool
  pool : List String
  scopeIDMap : List (Nat × Nat)
  scopes : List (Nat × LScope)
  nextScopeRef : Nat
  funcs : List (Nat × LFunc)
  nextFuncRef : Nat
  functionIDMap : List (Int × Nat)
  tupleOwnerMap : List (Int × Nat)
  structOwnerMap : List (Int × Nat)
  usesConsole : Bool
  globalInit : Option LBlockT
  registeredExtensions : List String
  extData : List (String × String)
  globalScopeRef : Nat
deriving Repr

/-- Association-list lookup keyed by `Nat` (`std::map::find`). -/
def lookupNat {α : Type} (l : List (Nat × α)) (k : Nat) : Option α :=
  (l.find? (fun p => p.1 == k)).map Prod.snd

/-- Association-list lookup keyed by `Int`. -/
def lookupInt {α : Type} (l : List (Int × α)) (k : Int) : Option α :=
  (l.find? (fun p => p.1 == k)).map Prod.snd

/-- `std::map::operator[] = v`: overwrite or append. -/
def mapInsertNat {α : Type} (l : List (Nat × α)) (k : Nat) (v : α) :
    List (Nat × α) :=
  if (l.find? (fun p => p.1 == k)).isSome then
    l.map (fun p => if p.1 == k then (k, v) else p)
  else l ++ [(k, v)]

def mapInsertInt {α : Type} (l : List (Int × α)) (k : Int) (v : α) :
    List (Int × α) :=
  if (l.find? (fun p => p.1 == k)).isSome then
    l.map (fun p => if p.1 == k then (k, v) else p)
  else l ++ [(k, v)]

/-- `Program::PoolStaticString` via `WidenAndCache`: intern into the
Program's string pool. -/
def poolString (st : LState) (s : String) : LState :=
  if s ∈ st.pool then st else { st with pool := st.pool ++ [s] }

/-- `FileLoader::ReadInstruction`. -/
def readInstruction (st : LState) : Except LoadErr (Opcode × LState) :=
  match st.toks with
  | .ins op :: rest => .ok (op, { st with toks := rest })
  | _ => .error .streamMismatch

/-- `FileLoader::PeekInstruction`: `none` when the next token is not an
instruction byte (a C++ peek would read a raw payload byte there). -/
def peekInstructionL (st : LState) : Option Opcode :=
  match st.toks with
  | .ins op :: _ => some op
  | _ => none

/-- `FileLoader::ExpectInstruction`. -/
def expectInstructionL (op : Opcode) (st : LState) :
    Except LoadErr LState :=
  match st.toks with
  | .ins op2 :: rest =>
      if op2 = op then .ok { st with toks := rest }
      else .error (.invalidBytecode
        "Expected a specific instruction, but a different instruction was found; ensure the binary is not corrupted")
  | _ => .error .streamMismatch

/-- `FileLoader::ReadNumber`. -/
def readNumber (st : LState) : Except LoadErr (Int × LState) :=
  match st.toks with
  | .num n :: rest => .ok (n, { st with toks := rest })
  | _ => .error .streamMismatch

/-- `FileLoader::ReadFlag`. -/
def readFlag (st : LState) : Except LoadErr (Bool × LState) :=
  match st.toks with
  | .flg b :: rest => .ok (b, { st with toks := rest })
  | _ => .error .streamMismatch

/-- `FileLoader::ReadFloat`. -/
def readFloat (st : LState) : Except LoadErr (Int × LState) :=
  match st.toks with
  | .flt v :: rest => .ok (v, { st with toks := rest })
  | _ => .error .streamMismatch

/-- `FileLoader::ReadNullTerminatedString` (and, one token per string,
`ReadStringByLength`). -/
def readString (st : LState) : Except LoadErr (String × LState) :=
  match st.toks with
  | .str s :: rest => .ok (s, { st with toks := rest })
  | _ => .error .streamMismatch

/-- `ScopeIDMap[scopeid]` on a key the loader expects to exist: a missing
key makes `operator[]` insert a null descriptor that the very next member
access dereferences. -/
def getMappedScope (st : LState) (scopeid : Nat) : Except LoadErr Nat :=
  match lookupNat st.scopeIDMap scopeid with
  | some r => .ok r
  | none => .error .cppFault

/-- Update a loaded scope in the arena. -/
def modifyScope (st : LState) (r : Nat) (f : LScope → LScope) : LState :=
  let ns := st.scopes.map (fun p => if p.1 == r then (p.1, f p.2) else p)
  { st with scopes := ns }

end Loader

namespace Loader

/-- The `Variables` entry loop of `LoadScope` (`Loading.cpp` 260-288). -/
def loadVariablesEntries : Nat → LState → Nat → Except LoadErr LState
  | 0, st, _ => .ok st
  | n + 1, st, sref => do
      let p1 ← readFlag st
      let p2 ← readString p1.2
      let p3 ← readNumber p2.2
      let isref := p1.1
      let varname := p2.1
      let vartype := p3.1
      let st := p3.2
      let st :=
        if st.isPrepass then st
        else
          let st := poolString st varname
          if isref then
            modifyScope st sref (fun d =>
              { d with references := d.references ++ [(varname, vartype)] })
          else if vartype = typeTuple ∨ vartype = typeStructure then
            modifyScope st sref (fun d =>
              { d with vars := d.vars ++ [(varname, vartype)],
                       memberOrder := d.memberOrder ++ [varname] })
          else if vartype = typeFunction then
            modifyScope st sref (fun d =>
              { d with memberOrder := d.memberOrder ++ [varname] })
          else
            modifyScope st sref (fun d =>
              { d with vars := d.vars ++ [(varname, vartype)],
                       memberOrder := d.memberOrder ++ [varname] })
      loadVariablesEntries n st sref

/-- The ghost-record inner loop (`Loading.cpp` 300-307).  Ghost sets are
stored newest-first, so the C++ `Ghosts.back()` is the list head. -/
def loadGhostRecords : Nat → LState → Nat → Except LoadErr LState
  | 0, st, _ => .ok st
  | n + 1, st, sref => do
      let p1 ← readString st
      let p2 ← readNumber p1.2
      let varname := p1.1
      let ownerid := p2.1
      let st := p2.2
      let st ←
        (if st.isPrepass then .ok st
        else
          match lookupNat st.scopeIDMap ownerid.toNat with
          | none => .error .cppFault
          | some ownerref =>
            let st := poolString st varname
            match (lookupNat st.scopes sref).map LScope.ghosts with
            | some (_ :: _) =>
                .ok (modifyScope st sref (fun d =>
                  { d with ghosts :=
                      match d.ghosts with
                      | g2 :: rest => (g2 ++ [(varname, ownerref)]) :: rest
                      | [] => [] }))
            | _ => .error .cppFault : Except LoadErr LState)
      loadGhostRecords n st sref

/-- The `Ghosts` group loop (`Loading.cpp` 292-308). -/
def loadGhostGroups : Nat → LState → Nat → Except LoadErr LState
  | 0, st, _ => .ok st
  | n + 1, st, sref => do
      let st ← expectInstructionL .ghostRecord st
      let st :=
        if st.isPrepass then st
        else modifyScope st sref (fun d => { d with ghosts := [] :: d.ghosts })
      let p ← readNumber st
      let st ← loadGhostRecords p.1.toNat p.2 sref
      loadGhostGroups n st sref

/-- The `TupleTypes` entry loop (`Loading.cpp` 372-379). -/
def loadTupleTypesEntries : Nat → LState → Nat → Except LoadErr LState
  | 0, st, _ => .ok st
  | n + 1, st, sref => do
      let p1 ← readString st
      let p2 ← readNumber p1.2
      let st :=
        if p2.2.isPrepass then p2.2
        else
          let st := poolString p2.2 p1.1
          modifyScope st sref (fun d =>
            { d with tupleTypes := d.tupleTypes ++ [(p1.1, p2.1)] })
      loadTupleTypesEntries n st sref

/-- The `TupleHints` entry loop (`Loading.cpp` 383-390). -/
def loadTupleHintsEntries : Nat → LState → Nat → Except LoadErr LState
  | 0, st, _ => .ok st
  | n + 1, st, sref => do
      let p1 ← readString st
      let p2 ← readNumber p1.2
      let st :=
        if p2.2.isPrepass then p2.2
        else
          let st := poolString p2.2 p1.1
          modifyScope st sref (fun d =>
            { d with tupleTypeHints := d.tupleTypeHints ++ [(p1.1, p2.1)] })
      loadTupleHintsEntries n st sref

/-- The tuple-type member loop (`Loading.cpp` 404-412). -/
def loadTupleMemberEntries : Nat → LState → List (String × Int) →
    Except LoadErr (LState × List (String × Int))
  | 0, st, acc => .ok (st, acc)
  | n + 1, st, acc => do
      let p1 ← readString st
      let p2 ← readNumber p1.2
      let p3 ← readNumber p2.2
      let st := p3.2
      if st.isPrepass then
        loadTupleMemberEntries n st acc
      else
        loadTupleMemberEntries n (poolString st p1.1) (acc ++ [(p1.1, p2.1)])

/-- The `TupleTypeMap` entry loop (`Loading.cpp` 394-420). -/
def loadTupleTypeMapEntries : Nat → LState → Nat → Except LoadErr LState
  | 0, st, _ => .ok st
  | n + 1, st, sref => do
      let p1 ← readNumber st
      let st ← expectInstructionL .members p1.2
      let p2 ← readNumber st
      let pm ← loadTupleMemberEntries p2.1.toNat p2.2 []
      let st := pm.1
      let st :=
        if st.isPrepass then st
        else
          let st := modifyScope st sref (fun d =>
            { d with tupleTypeData := d.tupleTypeData ++ [(p1.1, pm.2)] })
          { st with tupleOwnerMap := mapInsertInt st.tupleOwnerMap p1.1 sref }
      loadTupleTypeMapEntries n st sref

/-- The `StructureTypes` entry loop (`Loading.cpp` 424-431). -/
def loadStructureTypesEntries : Nat → LState → Nat → Except LoadErr LState
  | 0, st, _ => .ok st
  | n + 1, st, sref => do
      let p1 ← readString st
      let p2 ← readNumber p1.2
      let st :=
        if p2.2.isPrepass then p2.2
        else
          let st := poolString p2.2 p1.1
          modifyScope st sref (fun d =>
            { d with structureTypes := d.structureTypes ++ [(p1.1, p2.1)] })
      loadStructureTypesEntries n st sref

/-- The `StructureHints` entry loop (`Loading.cpp` 435-442). -/
def loadStructureHintsEntries : Nat → LState → Nat → Except LoadErr LState
  | 0, st, _ => .ok st
  | n + 1, st, sref => do
      let p1 ← readString st
      let p2 ← readNumber p1.2
      let st :=
        if p2.2.isPrepass then p2.2
        else
          let st := poolString p2.2 p1.1
          modifyScope st sref (fun d =>
            { d with structureTypeHints :=
                d.structureTypeHints ++ [(p1.1, p2.1)] })
      loadStructureHintsEntries n st sref

/-- The structure-type member loop (`Loading.cpp` 456-475): Structure and
Tuple members carry a hint that is resolved through the process-wide owner
registry. -/
def loadStructMemberEntries : Nat → LState →
    List (String × Int × Option Int) →
    Except LoadErr (LState × List (String × Int × Option Int))
  | 0, st, acc => .ok (st, acc)
  | n + 1, st, acc => do
      let p1 ← readString st
      let p2 ← readNumber p1.2
      let p3 ← readNumber p2.2
      let membername := p1.1
      let ty := p2.1
      let st := p3.2
      let ph ←
        (if ty = typeStructure ∨ ty = typeTuple then do
          let p4 ← readNumber st
          .ok (some p4.1, p4.2)
        else .ok (none, st) : Except LoadErr (Option Int × LState))
      let st := ph.2
      if st.isPrepass then
        loadStructMemberEntries n st acc
      else do
        let st ←
          (match ph.1 with
          | some hint =>
              if ty = typeStructure then
                match lookupInt st.structOwnerMap hint with
                | some _ => .ok st
                | none => .error .cppFault
              else
                match lookupInt st.tupleOwnerMap hint with
                | some _ => .ok st
                | none => .error .cppFault
          | none => .ok st : Except LoadErr LState)
        loadStructMemberEntries n (poolString st membername)
          (acc ++ [(membername, ty, ph.1)])

/-- The `StructureTypeMap` entry loop (`Loading.cpp` 446-483). -/
def loadStructureTypeMapEntries : Nat → LState → Nat → Except LoadErr LState
  | 0, st, _ => .ok st
  | n + 1, st, sref => do
      let p1 ← readNumber st
      let st ← expectInstructionL .members p1.2
      let p2 ← readNumber st
      let pm ← loadStructMemberEntries p2.1.toNat p2.2 []
      let st := pm.1
      let st :=
        if st.isPrepass then st
        else
          let st := modifyScope st sref (fun d =>
            { d with structureTypeData := d.structureTypeData ++ [(p1.1, pm.2)] })
          { st with structOwnerMap := mapInsertInt st.structOwnerMap p1.1 sref }
      loadStructureTypeMapEntries n st sref

/-- The `Constants` entry loop (`Loading.cpp` 488-489): the widen-and-pool
and the `SetConstant` both run UNGUARDED, also on the prepass. -/
def loadConstantsEntries : Nat → LState → Nat → Except LoadErr LState
  | 0, st, _ => .ok st
  | n + 1, st, sref => do
      let p ← readString st
      let st := poolString p.2 p.1
      let st := modifyScope st sref (fun d =>
        { d with constants := d.constants ++ [p.1] })
      loadConstantsEntries n st sref

/-- The `ArrayHints` entry loop (`Loading.cpp` 545-552): the name is
widened and pooled unguarded; only the `SetArrayType` is second-pass. -/
def loadArrayHintsEntries : Nat → LState → Nat → Except LoadErr LState
  | 0, st, _ => .ok st
  | n + 1, st, sref => do
      let p1 ← readString st
      let st := poolString p1.2 p1.1
      let p2 ← readNumber st
      let st :=
        if p2.2.isPrepass then p2.2
        else modifyScope p2.2 sref (fun d =>
          { d with arrayTypes := d.arrayTypes ++ [(p1.1, p2.1)] })
      loadArrayHintsEntries n st sref

end Loader

namespace Loader

/-- Append an operation to the block under construction, guarded by the
pass (`if(!IsPrepass) newblock->AddOperation(...)`). -/
def emitOp (st : LState) (curOps : List LOp) (op : LOp) : LState × List LOp :=
  if st.isPrepass then (st, curOps) else (st, curOps ++ [op])

/-- `block->BindToScope(scope)` on a freshly loaded block. -/
def bindBlock (scoperef : Nat) : Option LBlockT → Option LBlockT
  | some (.mk _ ops) => some (.mk (some scoperef) ops)
  | none => none

/-- A counted run of `ReadNumber` calls. -/
def readNumberList : Nat → LState → Except LoadErr (List Int × LState)
  | 0, st => .ok ([], st)
  | n + 1, st => do
      let p ← readNumber st
      let pr ← readNumberList n p.2
      .ok (p.1 :: pr.1, pr.2)

set_option maxHeartbeats 1000000 in
mutual

/-- `FileLoader::LoadScope` (`Loading.cpp` 241-557), returning the loaded
scope's arena reference. -/
def loadScope : Nat → Bool → LState → Except LoadErr (LState × Nat)
  | 0, _, _ => .error .outOfFuel
  | fuel + 1, linktoglobal, st => do
      let st ← expectInstructionL .scope st
      let p ← readNumber st
      let scopeid := p.1.toNat
      let st := p.2
      let st :=
        if linktoglobal then
          { st with scopeIDMap :=
              mapInsertNat st.scopeIDMap scopeid st.globalScopeRef }
        else if st.isPrepass then
          let r := st.nextScopeRef
          let st2 := { st with scopes := st.scopes ++ [(r, emptyLScope)] }
          let st3 := { st2 with nextScopeRef := r + 1 }
          { st3 with scopeIDMap := mapInsertNat st3.scopeIDMap scopeid r }
        else st
      let st ← expectInstructionL .parentScope st
      let pp ← readNumber st
      let parentscopeid := pp.1
      let st := pp.2
      let st ←
        (if parentscopeid ≠ 0 ∧ ¬ st.isPrepass then
          match lookupNat st.scopeIDMap parentscopeid.toNat with
          | none => .error .cppFault
          | some pref => do
              let sref ← getMappedScope st scopeid
              .ok (modifyScope st sref (fun d => { d with parent := some pref }))
        else .ok st : Except LoadErr LState)
      let sref ← getMappedScope st scopeid
      let st ← expectInstructionL .variablesOp st
      let pv ← readNumber st
      let st ← loadVariablesEntries pv.1.toNat pv.2 sref
      let st ← expectInstructionL .ghosts st
      let pg ← readNumber st
      let st ← loadGhostGroups pg.1.toNat pg.2 sref
      let st ← expectInstructionL .functions st
      let pf ← readNumber st
      let st ← loadFunctionEntries fuel pf.1.toNat pf.2 sref
      let st ← expectInstructionL .functionSignatureList st
      let ps ← readNumber st
      let st ← loadSignatureListEntries fuel ps.1.toNat ps.2 sref
      let st ← expectInstructionL .tupleTypes st
      let pt ← readNumber st
      let st ← loadTupleTypesEntries pt.1.toNat pt.2 sref
      let st ← expectInstructionL .tupleHints st
      let pth ← readNumber st
      let st ← loadTupleHintsEntries pth.1.toNat pth.2 sref
      let st ← expectInstructionL .tupleTypeMap st
      let ptm ← readNumber st
      let st ← loadTupleTypeMapEntries ptm.1.toNat ptm.2 sref
      let st ← expectInstructionL .structureTypes st
      let pst ← readNumber st
      let st ← loadStructureTypesEntries pst.1.toNat pst.2 sref
      let st ← expectInstructionL .structureHints st
      let psh ← readNumber st
      let st ← loadStructureHintsEntries psh.1.toNat psh.2 sref
      let st ← expectInstructionL .structureTypeMap st
      let psm ← readNumber st
      let st ← loadStructureTypeMapEntries psm.1.toNat psm.2 sref
      let st ← expectInstructionL .constants st
      let pc ← readNumber st
      let st ← loadConstantsEntries pc.1.toNat pc.2 sref
      let st ← expectInstructionL .responseMaps st
      let pr ← readNumber st
      let st ← loadResponseMapsEntries fuel pr.1.toNat pr.2 sref
      let st ← expectInstructionL .futures st
      let pfu ← readNumber st
      let st ← loadFuturesEntries fuel pfu.1.toNat pfu.2 sref
      let st ← expectInstructionL .arrayHints st
      let pa ← readNumber st
      let st ← loadArrayHintsEntries pa.1.toNat pa.2 sref
      let st ← expectInstructionL .endScope st
      let r ← getMappedScope st scopeid
      .ok (st, r)

termination_by structural fuel => fuel

/-- The `Functions` entry loop of `LoadScope` (`Loading.cpp` 312-357). -/
def loadFunctionEntries : Nat → Nat → LState → Nat →
    Except LoadErr LState
  | 0, _, _, _ => .error .outOfFuel
  | _ + 1, 0, st, _ => .ok st
  | fuel + 1, count + 1, st, sref => do
      let p1 ← readString st
      let p2 ← readNumber p1.2
      let p3 ← readNumber p2.2
      let funcname := p1.1
      let funcid := p2.1
      let st := p3.2
      let step : Except LoadErr LState :=
        if peekInstructionL st = some .callDLL then do
          let pi ← readInstruction st
          let pd1 ← readString pi.2
          let pd2 ← readString pd1.2
          let pr1 ← readNumber pd2.2
          let pr2 ← readNumber pr1.2
          let pscope ← loadScope fuel false pr2.2
          let st := pscope.1
          if st.isPrepass then
            let st := poolString (poolString (poolString st pd1.1) pd2.1) funcname
            let fref := st.nextFuncRef
            let newfn := LFunc.dllF pd1.1 pd2.1 pscope.2 pr1.1 pr2.1
            let st := { st with funcs := st.funcs ++ [(fref, newfn)] }
            let st := { st with nextFuncRef := fref + 1 }
            let st := { st with functionIDMap := mapInsertInt st.functionIDMap funcid fref }
            .ok (modifyScope st sref (fun d =>
              { d with functions := d.functions ++ [(funcname, fref)] }))
          else .ok st
        else do
          let pparams ← loadScope fuel false st
          let preturns ← loadScope fuel false pparams.1
          let st ← expectInstructionL .beginBlock preturns.1
          let plocal ← loadScope fuel false st
          let pblock ← loadCodeBlock fuel plocal.1
          let st := pblock.1
          if st.isPrepass then
            let st := poolString st funcname
            let fref := st.nextFuncRef
            let newfn := LFunc.userF pparams.2 preturns.2 none
            let st := { st with funcs := st.funcs ++ [(fref, newfn)] }
            let st := { st with nextFuncRef := fref + 1 }
            let st := { st with functionIDMap := mapInsertInt st.functionIDMap funcid fref }
            .ok (modifyScope st sref (fun d =>
              { d with functions := d.functions ++ [(funcname, fref)] }))
          else
            match pblock.2 with
            | none => .error .cppFault
            | some (LBlockT.mk _ ops) =>
              match lookupInt st.functionIDMap funcid with
              | none => .error .cppFault
              | some fref =>
                match lookupNat st.funcs fref with
                | some (LFunc.userF prr rrr _) =>
                    let newfn := LFunc.userF prr rrr (some (LBlockT.mk (some plocal.2) ops))
                    .ok { st with funcs := mapInsertNat st.funcs fref newfn }
                | _ => .error .cppFault
      let st ← step
      loadFunctionEntries fuel count st sref

termination_by structural fuel => fuel

/-- The `FunctionSignatureList` entry loop (`Loading.cpp` 361-368). -/
def loadSignatureListEntries : Nat → Nat → LState → Nat →
    Except LoadErr LState
  | 0, _, _, _ => .error .outOfFuel
  | _ + 1, 0, st, _ => .ok st
  | fuel + 1, count + 1, st, sref => do
      let p1 ← readString st
      let st ← expectInstructionL .functionSignatureBegin p1.2
      let psig ← loadFunctionSignature fuel st
      let st :=
        if psig.1.isPrepass then psig.1
        else
          let st := poolString psig.1 p1.1
          modifyScope st sref (fun d =>
            { d with functionSignatures :=
                d.functionSignatures ++ [(p1.1, psig.2)] })
      loadSignatureListEntries fuel count st sref

termination_by structural fuel => fuel

/-- `FileLoader::LoadFunctionSignature` (`Loading.cpp` 562-625). -/
def loadFunctionSignature : Nat → LState → Except LoadErr (LState × LSig)
  | 0, _ => .error .outOfFuel
  | fuel + 1, st => do
      let pn1 ← readNumber st
      let pl1 ← readNumberList pn1.1.toNat pn1.2
      let pn2 ← readNumber pl1.2
      let pl2 ← readNumberList pn2.1.toNat pn2.2
      let pn3 ← readNumber pl2.2
      let pl3 ← readNumberList pn3.1.toNat pn3.2
      let pn4 ← readNumber pl3.2
      let pl4 ← readNumberList pn4.1.toNat pn4.2
      let pn5 ← readNumber pl4.2
      let psubs ← loadSubSignatures fuel pn5.1.toNat pn5.2 []
      let pn6 ← readNumber psubs.1
      let pl6 ← readNumberList pn6.1.toNat pn6.2
      let st ← expectInstructionL .functionSignatureEnd pl6.2
      if st.isPrepass then .ok (st, emptySig)
      else .ok (st, LSig.mk pl1.1 pl2.1 pl3.1 pl4.1 psubs.2 pl6.1)

termination_by structural fuel => fuel

/-- The sub-signature loop of `LoadFunctionSignature` (`Loading.cpp`
586-600). -/
def loadSubSignatures : Nat → Nat → LState → List (Option LSig) →
    Except LoadErr (LState × List (Option LSig))
  | 0, _, _, _ => .error .outOfFuel
  | _ + 1, 0, st, acc => .ok (st, acc)
  | fuel + 1, count + 1, st, acc => do
      let pi ← readInstruction st
      if pi.1 = .functionSignatureEnd then
        let acc2 := if pi.2.isPrepass then acc else acc ++ [none]
        loadSubSignatures fuel count pi.2 acc2
      else do
        let psig ← loadFunctionSignature fuel pi.2
        let acc2 := if psig.1.isPrepass then acc else acc ++ [some psig.2]
        loadSubSignatures fuel count psig.1 acc2

termination_by structural fuel => fuel

/-- The `ResponseMaps` entry loop (`Loading.cpp` 495-526); the map name is
widened and pooled UNGUARDED, also on the prepass. -/
def loadResponseMapsEntries : Nat → Nat → LState → Nat →
    Except LoadErr LState
  | 0, _, _, _ => .error .outOfFuel
  | _ + 1, 0, st, _ => .ok st
  | fuel + 1, count + 1, st, sref => do
      let p1 ← readString st
      let mapname := p1.1
      let st := poolString p1.2 mapname
      let p2 ← readNumber st
      let pe ← loadResponseEntries fuel p2.1.toNat p2.2 []
      let st :=
        if pe.1.isPrepass then pe.1
        else modifyScope pe.1 sref (fun d =>
          { d with responseMaps := d.responseMaps ++ [(mapname, pe.2)] })
      loadResponseMapsEntries fuel count st sref

termination_by structural fuel => fuel

/-- The response-map entry loop (`Loading.cpp` 500-522). -/
def loadResponseEntries : Nat → Nat → LState →
    List (String × List Int × Option LBlockT × Nat) →
    Except LoadErr (LState × List (String × List Int × Option LBlockT × Nat))
  | 0, _, _, _ => .error .outOfFuel
  | _ + 1, 0, st, acc => .ok (st, acc)
  | fuel + 1, count + 1, st, acc => do
      let p1 ← readString st
      let p2 ← readNumber p1.2
      let pl ← readNumberList p2.1.toNat p2.2
      let st ← expectInstructionL .beginBlock pl.2
      let presp ← loadScope fuel false st
      let pblock ← loadCodeBlock fuel presp.1
      let paux ← loadScope fuel false pblock.1
      let st := paux.1
      if st.isPrepass then
        loadResponseEntries fuel count st acc
      else
        let st := poolString st p1.1
        loadResponseEntries fuel count st
          (acc ++ [(p1.1, pl.1, bindBlock presp.2 pblock.2, paux.2)])

termination_by structural fuel => fuel

/-- The `Futures` entry loop (`Loading.cpp` 531-540); the future name is
widened and pooled UNGUARDED, also on the prepass. -/
def loadFuturesEntries : Nat → Nat → LState → Nat → Except LoadErr LState
  | 0, _, _, _ => .error .outOfFuel
  | _ + 1, 0, st, _ => .ok st
  | fuel + 1, count + 1, st, sref => do
      let p1 ← readString st
      let futurename := p1.1
      let st := poolString p1.2 futurename
      let p2 ← readNumber st
      let pi ← readInstruction p2.2
      let pops ← generateOpFromByteCode fuel pi.1 pi.2 []
      let st ←
        (if pops.1.isPrepass then .ok pops.1
        else
          match pops.2.getLast? with
          | some op =>
              .ok (modifyScope pops.1 sref (fun d =>
                { d with futures := d.futures ++ [(futurename, op)] }))
          | none => .error .cppFault : Except LoadErr LState)
      loadFuturesEntries fuel count st sref

termination_by structural fuel => fuel

/-- `FileLoader::LoadCodeBlock` (`Loading.cpp` 630-644): `none` on the
prepass, where `newblock` stays null. -/
def loadCodeBlock : Nat → LState → Except LoadErr (LState × Option LBlockT)
  | 0, _ => .error .outOfFuel
  | fuel + 1, st => do
      let p ← loadCodeOps fuel st []
      if p.1.isPrepass then .ok (p.1, none)
      else .ok (p.1, some (LBlockT.mk none p.2))

termination_by structural fuel => fuel

/-- The read-dispatch loop of `LoadCodeBlock`. -/
def loadCodeOps : Nat → LState → List LOp →
    Except LoadErr (LState × List LOp)
  | 0, _, _ => .error .outOfFuel
  | fuel + 1, st, acc => do
      let pi ← readInstruction st
      if pi.1 = .endBlock then .ok (pi.2, acc)
      else do
        let p ← generateOpFromByteCode fuel pi.1 pi.2 acc
        loadCodeOps fuel p.1 p.2

termination_by structural fuel => fuel

/-- The elseif-wrapper chain of the `If` decoder (`Loading.cpp` 763-784):
each chain entry REPLACES the wrapper block (`SetElseIfBlock` on every
iteration). -/
def loadElseifChain : Nat → LState → Option LBlockT →
    Except LoadErr (LState × Option LBlockT)
  | 0, _, _ => .error .outOfFuel
  | fuel + 1, st, wrap => do
      let pn ← readInstruction st
      let pn ←
        (if pn.1 = .elseIf then readInstruction pn.2
        else .ok pn : Except LoadErr (Opcode × LState))
      if pn.1 = .beginBlock then do
        let ps ← loadScope fuel false pn.2
        let pb ← loadCodeBlock fuel ps.1
        let st := pb.1
        let wrap2 :=
          if st.isPrepass then wrap
          else bindBlock ps.2 pb.2
        if peekInstructionL st = some .elseIf then
          loadElseifChain fuel st wrap2
        else .ok (st, wrap2)
      else .error (.invalidBytecode
        "Elseifwrap instruction loaded, but no elseif blocks found! This is probably a compiler bug.")

termination_by structural fuel => fuel

/-- The sub-operation loop of the compound bitwise/logical decoders
(`Loading.cpp`, e.g. 975-982): each sub-op is decoded into a temporary
block and its tail popped into the compound. -/
def loadCompoundSubs : Nat → Nat → LState → List LOp →
    Except LoadErr (LState × List LOp)
  | 0, _, _, _ => .error .outOfFuel
  | _ + 1, 0, st, acc => .ok (st, acc)
  | fuel + 1, count + 1, st, acc => do
      let pi ← readInstruction st
      let p ← generateOpFromByteCode fuel pi.1 pi.2 []
      if p.1.isPrepass then
        loadCompoundSubs fuel count p.1 acc
      else
        match p.2.getLast? with
        | some op => loadCompoundSubs fuel count p.1 (acc ++ [op])
        | none => .error .cppFault

termination_by structural fuel => fuel

/-- `FileLoader::GenerateOpFromByteCode` (`Loading.cpp` 650-1449). -/
def generateOpFromByteCode : Nat → Opcode → LState → List LOp →
    Except LoadErr (LState × List LOp)
  | 0, _, _, _ => .error .outOfFuel
  | fuel + 1, instr, st, curOps =>
    match instr with
    | .pushOperation => do
        let pi ← readInstruction st
        let p ← generateOpFromByteCode fuel pi.1 pi.2 curOps
        if p.1.isPrepass then .ok p
        else
          match p.2.getLast? with
          | some inner => .ok (p.1, p.2.dropLast ++ [LOp.pushOp inner])
          | none => .error .cppFault
    | .invoke => do
        let p ← readNumber st
        if p.2.isPrepass then .ok (p.2, curOps)
        else
          match lookupInt p.2.functionIDMap p.1 with
          | some fref => .ok (emitOp p.2 curOps (.invokeOp fref))
          | none => .error .cppFault
    | .debugWrite => .ok (emitOp st curOps .debugWrite)
    | .pushRealLiteral => do
        let p ← readFloat st
        .ok (emitOp p.2 curOps (.pushRealLiteral p.1))
    | .divideReals => do
        let pa ← readFlag st
        let pb ← readFlag pa.2
        let pc ← readNumber pb.2
        if pc.1 = 1 then .ok (emitOp pc.2 curOps (.arithFold .divide .real))
        else .ok (emitOp pc.2 curOps (.arithBinary .divide .real pa.1 pb.1))
    | .pushIntegerLiteral => do
        let p ← readNumber st
        .ok (emitOp p.2 curOps (.pushIntegerLiteral p.1))
    | .isEqual => do
        let p ← readNumber st
        .ok (emitOp p.2 curOps (.isEqual p.1))
    | .isNotEqual => do
        let p ← readNumber st
        .ok (emitOp p.2 curOps (.isNotEqual p.1))
    | .isLesser => do
        let p ← readNumber st
        .ok (emitOp p.2 curOps (.isLesser p.1))
    | .isGreater => do
        let p ← readNumber st
        .ok (emitOp p.2 curOps (.isGreater p.1))
    | .assignValue => do
        let p ← readString st
        let st := if p.2.isPrepass then p.2 else poolString p.2 p.1
        .ok (emitOp st curOps (.assignValue p.1))
    | .doWhile => do
        let st ← expectInstructionL .beginBlock st
        let ps ← loadScope fuel false st
        let pb ← loadCodeBlock fuel ps.1
        .ok (emitOp pb.1 curOps (.doWhileLoop (bindBlock ps.2 pb.2)))
    | .getValue => do
        let p ← readString st
        let st := if p.2.isPrepass then p.2 else poolString p.2 p.1
        .ok (emitOp st curOps (.getVariableValue p.1))
    | .ifT => do
        let pn ← readInstruction st
        let pt ←
          (if pn.1 = .beginBlock then do
            let ps ← loadScope fuel false pn.2
            let pb ← loadCodeBlock fuel ps.1
            .ok (pb.1, bindBlock ps.2 pb.2)
          else .ok (pn.2, none) : Except LoadErr (LState × Option LBlockT))
        let pn2 ← readInstruction pt.1
        let pw ←
          (if pn2.1 = .elseIfWrapper then loadElseifChain fuel pn2.2 none
          else .ok (pn2.2, none) : Except LoadErr (LState × Option LBlockT))
        let pn3 ← readInstruction pw.1
        let pf ←
          (if pn3.1 = .beginBlock then do
            let ps ← loadScope fuel false pn3.2
            let pb ← loadCodeBlock fuel ps.1
            .ok (pb.1, bindBlock ps.2 pb.2)
          else .ok (pn3.2, none) : Except LoadErr (LState × Option LBlockT))
        .ok (emitOp pf.1 curOps (.ifOp pt.2 pw.2 pf.2))
    | .addReals => do
        let pa ← readFlag st
        let pb ← readFlag pa.2
        let pc ← readNumber pb.2
        if pc.1 = 1 then .ok (emitOp pc.2 curOps (.arithFold .add .real))
        else .ok (emitOp pc.2 curOps (.arithBinary .add .real pa.1 pb.1))
    | .subReals => do
        let pa ← readFlag st
        let pb ← readFlag pa.2
        let pc ← readNumber pb.2
        if pc.1 = 1 then .ok (emitOp pc.2 curOps (.arithFold .subtract .real))
        else .ok (emitOp pc.2 curOps (.arithBinary .subtract .real pa.1 pb.1))
    | .pushBooleanLiteral => do
        let p ← readFlag st
        .ok (emitOp p.2 curOps (.pushBooleanLiteral p.1))
    | .pushStringLiteral => do
        let p1 ← readNumber st
        let p2 ← readString p1.2
        let st := if p2.2.isPrepass then p2.2 else poolString p2.2 p2.1
        .ok (emitOp st curOps (.pushStringLiteral p2.1))
    | .addIntegers => do
        let pa ← readFlag st
        let pb ← readFlag pa.2
        let pc ← readNumber pb.2
        if pc.1 = 1 then .ok (emitOp pc.2 curOps (.arithFold .add .integer))
        else .ok (emitOp pc.2 curOps (.arithBinary .add .integer pa.1 pb.1))
    | .subtractIntegers => do
        let pa ← readFlag st
        let pb ← readFlag pa.2
        let pc ← readNumber pb.2
        if pc.1 = 1 then
          .ok (emitOp pc.2 curOps (.arithFold .subtract .integer))
        else
          .ok (emitOp pc.2 curOps (.arithBinary .subtract .integer pa.1 pb.1))
    | .debugRead => .ok (emitOp st curOps .debugRead)
    | .elseIf => do
        let pi ← readInstruction st
        if pi.1 ≠ .beginBlock then
          .error (.invalidBytecode
            "Corruption near Elseif instruction (expected to begin a block here)")
        else do
          let ps ← loadScope fuel false pi.2
          let pb ← loadCodeBlock fuel ps.1
          .ok (emitOp pb.1 curOps (.elseIfOp (bindBlock ps.2 pb.2)))
    | .exitIfChain => .ok (emitOp st curOps .exitIfChain)
    | .readTuple => do
        let p1 ← readString st
        let p2 ← readString p1.2
        let st := if p2.2.isPrepass then p2.2
          else poolString (poolString p2.2 p1.1) p2.1
        .ok (emitOp st curOps (.readTuple p1.1 p2.1))
    | .writeTuple => do
        let p1 ← readString st
        let p2 ← readString p1.2
        let st := if p2.2.isPrepass then p2.2
          else poolString (poolString p2.2 p1.1) p2.1
        .ok (emitOp st curOps (.assignTuple p1.1 p2.1))
    | .readStructure => do
        let p1 ← readString st
        let p2 ← readString p1.2
        let st := if p2.2.isPrepass then p2.2
          else poolString (poolString p2.2 p1.1) p2.1
        .ok (emitOp st curOps (.readStructure p1.1 p2.1))
    | .writeStructure => do
        let p1 ← readString st
        let p2 ← readString p1.2
        let st := if p2.2.isPrepass then p2.2
          else poolString (poolString p2.2 p1.1) p2.1
        .ok (emitOp st curOps (.assignStructure p1.1 p2.1))
    | .init => do
        let p ← readString st
        let st := if p.2.isPrepass then p.2 else poolString p.2 p.1
        .ok (emitOp st curOps (.initializeValue p.1))
    | .bindFunctionReference => do
        let p ← readString st
        let st := if p.2.isPrepass then p.2 else poolString p.2 p.1
        .ok (emitOp st curOps (.bindFunctionReference p.1))
    | .sizeOfOp => do
        let p ← readString st
        let st := if p.2.isPrepass then p.2 else poolString p.2 p.1
        .ok (emitOp st curOps (.sizeOfOp p.1))
    | .whileT => do
        let st ← expectInstructionL .beginBlock st
        let ps ← loadScope fuel false st
        let pb ← loadCodeBlock fuel ps.1
        .ok (emitOp pb.1 curOps (.whileLoop (bindBlock ps.2 pb.2)))
    | .bindReference => do
        let p ← readString st
        let st := if p.2.isPrepass then p.2 else poolString p.2 p.1
        .ok (emitOp st curOps (.bindReference p.1))
    | .whileCondition => .ok (emitOp st curOps .whileLoopConditional)
    | .breakOp => .ok (emitOp st curOps .breakOp)
    | .returnOp => .ok (emitOp st curOps .returnOp)
    | .bitwiseAnd => do
        let p1 ← readNumber st
        let p2 ← readNumber p1.2
        let ps ← loadCompoundSubs fuel p2.1.toNat p2.2 []
        .ok (emitOp ps.1 curOps (.bitwiseAnd p1.1 ps.2))
    | .bitwiseOr => do
        let p1 ← readNumber st
        let p2 ← readNumber p1.2
        let ps ← loadCompoundSubs fuel p2.1.toNat p2.2 []
        .ok (emitOp ps.1 curOps (.bitwiseOr p1.1 ps.2))
    | .bitwiseXor => do
        let p ← readNumber st
        .ok (emitOp p.2 curOps (.bitwiseXor p.1))
    | .bitwiseNot => do
        let p ← readNumber st
        .ok (emitOp p.2 curOps (.bitwiseNot p.1))
    | .logicalAnd => do
        let p ← readNumber st
        let ps ← loadCompoundSubs fuel p.1.toNat p.2 []
        .ok (emitOp ps.1 curOps (.logicalAnd ps.2))
    | .logicalOr => do
        let p ← readNumber st
        let ps ← loadCompoundSubs fuel p.1.toNat p.2 []
        .ok (emitOp ps.1 curOps (.logicalOr ps.2))
    | .logicalXor => .ok (emitOp st curOps .logicalXor)
    | .logicalNot => .ok (emitOp st curOps .logicalNot)
    | .concat => do
        let pa ← readFlag st
        let pb ← readFlag pa.2
        let pc ← readNumber pb.2
        if pc.1 = 1 then .ok (emitOp pc.2 curOps .concatFold)
        else .ok (emitOp pc.2 curOps (.concatBinary pa.1 pb.1))
    | .isGreaterEqual => do
        let p ← readNumber st
        .ok (emitOp p.2 curOps (.isGreaterOrEqual p.1))
    | .pushInteger16Literal => do
        let p ← readNumber st
        .ok (emitOp p.2 curOps (.pushInteger16Literal p.1))
    | .invokeIndirect => do
        let p ← readString st
        let st := if p.2.isPrepass then p.2 else poolString p.2 p.1
        .ok (emitOp st curOps (.invokeIndirect p.1))
    | .booleanLiteral => do
        let p ← readFlag st
        .ok (emitOp p.2 curOps (.booleanConstant p.1))
    | .beginBlock => do
        let ps ← loadScope fuel false st
        let pb ← loadCodeBlock fuel ps.1
        .ok (emitOp pb.1 curOps (.executeBlock (bindBlock ps.2 pb.2)))
    | .readStructureIndirect => do
        let p ← readString st
        if p.2.isPrepass then .ok (p.2, curOps)
        else
          match curOps.getLast? with
          | some _ =>
              let st := poolString p.2 p.1
              .ok (emitOp st curOps (.readStructureIndirect p.1))
          | none => .error .cppFault
    | .bindStruct => do
        let pc ← readFlag st
        if pc.1 then do
          let pm ← readString pc.2
          let st := if pm.2.isPrepass then pm.2 else poolString pm.2 pm.1
          .ok (emitOp st curOps (.bindStructChained pm.1))
        else do
          let pv ← readString pc.2
          let pm ← readString pv.2
          let st := if pm.2.isPrepass then pm.2
            else poolString (poolString pm.2 pv.1) pm.1
          .ok (emitOp st curOps (.bindStruct pv.1 pm.1))
    | .writeStructureIndirect => do
        let p ← readString st
        let st := if p.2.isPrepass then p.2 else poolString p.2 p.1
        .ok (emitOp st curOps (.assignStructureIndirect p.1))
    | .forkTask => do
        let st ← expectInstructionL .beginBlock st
        let ps ← loadScope fuel false st
        let pb ← loadCodeBlock fuel ps.1
        let st := pb.1
        if st.isPrepass then .ok (st, curOps)
        else
          let st := modifyScope st ps.2
            (fun d => { d with parent := some st.globalScopeRef })
          .ok (emitOp st curOps (.forkTask (bindBlock ps.2 pb.2)))
    | .acceptMessage => do
        let p1 ← readString st
        let p2 ← readNumber p1.2
        let pl ← readNumberList p2.1.toNat p2.2
        let st ← expectInstructionL .beginBlock pl.2
        let presp ← loadScope fuel false st
        let pblock ← loadCodeBlock fuel presp.1
        let paux ← loadScope fuel false pblock.1
        let st := paux.1
        if st.isPrepass then .ok (st, curOps)
        else
          let st := poolString st p1.1
          .ok (emitOp st curOps
            (.acceptMessage p1.1 (bindBlock presp.2 pblock.2) paux.2))
    | .multiplyIntegers => do
        let pa ← readFlag st
        let pb ← readFlag pa.2
        let pc ← readNumber pb.2
        if pc.1 = 1 then
          .ok (emitOp pc.2 curOps (.arithFold .multiply .integer))
        else
          .ok (emitOp pc.2 curOps (.arithBinary .multiply .integer pa.1 pb.1))
    | .getMessageSender => .ok (emitOp st curOps .getMessageSender)
    | .getTaskCaller => .ok (emitOp st curOps .getTaskCaller)
    | .sendTaskMessage => do
        let pf ← readFlag st
        let pm ← readString pf.2
        let pn ← readNumber pm.2
        let pl ← readNumberList pn.1.toNat pn.2
        let st := if pl.2.isPrepass then pl.2 else poolString pl.2 pm.1
        .ok (emitOp st curOps (.sendTaskMessage pf.1 pm.1 pl.1))
    | .acceptMessageFromMap => do
        let p ← readString st
        let st := if p.2.isPrepass then p.2 else poolString p.2 p.1
        .ok (emitOp st curOps (.acceptMessageFromMap p.1))
    | .typeCastToString => do
        let p ← readNumber st
        if p.2.isPrepass then .ok (p.2, curOps)
        else if p.1 = typeReal ∨ p.1 = typeInteger ∨ p.1 = typeInteger16 ∨
            p.1 = typeBoolean ∨ p.1 = typeBuffer then
          .ok (emitOp p.2 curOps (.typeCastToString p.1))
        else
          .error (.exceptionMsg
            "Cannot cast the given variable type to string; is one or more of your libraries out of date?")
    | .divideIntegers => do
        let pa ← readFlag st
        let pb ← readFlag pa.2
        let pc ← readNumber pb.2
        if pc.1 = 1 then
          .ok (emitOp pc.2 curOps (.arithFold .divide .integer))
        else
          .ok (emitOp pc.2 curOps (.arithBinary .divide .integer pa.1 pb.1))
    | .typeCast => do
        let p1 ← readNumber st
        let p2 ← readNumber p1.2
        let origin := p1.1
        let dest := p2.1
        let st := p2.2
        if st.isPrepass then .ok (st, curOps)
        else if dest = typeInteger then
          if origin = typeString ∨ origin = typeReal ∨
              origin = typeInteger16 ∨ origin = typeBoolean then
            .ok (emitOp st curOps (.typeCast origin dest))
          else
            .error (.exceptionMsg
              "Invalid parameters supplied to typecast operation; ensure all libraries are up to date and the binary is not corrupted")
        else if dest = typeInteger16 then
          if origin = typeString ∨ origin = typeReal ∨
              origin = typeInteger ∨ origin = typeBoolean then
            .ok (emitOp st curOps (.typeCast origin dest))
          else
            .error (.exceptionMsg
              "Invalid parameters supplied to typecast operation; ensure all libraries are up to date and the binary is not corrupted")
        else if dest = typeReal then
          if origin = typeString ∨ origin = typeInteger ∨
              origin = typeInteger16 ∨ origin = typeBoolean then
            .ok (emitOp st curOps (.typeCast origin dest))
          else
            .error (.exceptionMsg
              "Invalid parameters supplied to typecast operation; ensure all libraries are up to date and the binary is not corrupted")
        else
          .error (.exceptionMsg
            "Invalid parameters supplied to typecast operation; ensure all libraries are up to date and the binary is not corrupted")
    | .future => do
        let p1 ← readString st
        let st := poolString p1.2 p1.1
        let p2 ← readNumber st
        let p3 ← readFlag p2.2
        .ok (emitOp p3.2 curOps (.forkFuture p1.1 p2.1 p3.1))
    | .mapOp => do
        let pi ← readInstruction st
        let p ← generateOpFromByteCode fuel pi.1 pi.2 []
        if p.1.isPrepass then .ok (p.1, curOps)
        else
          match p.2.getLast? with
          | some inner => .ok (emitOp p.1 curOps (.mapOperation inner))
          | none => .error .cppFault
    | .reduceOp => do
        let pi ← readInstruction st
        let p ← generateOpFromByteCode fuel pi.1 pi.2 []
        if p.1.isPrepass then .ok (p.1, curOps)
        else
          match p.2.getLast? with
          | some inner => .ok (emitOp p.1 curOps (.reduceOperation inner))
          | none => .error .cppFault
    | .isLesserEqual => do
        let p ← readNumber st
        .ok (emitOp p.2 curOps (.isLesserOrEqual p.1))
    | .integerLiteral => do
        let p ← readNumber st
        .ok (emitOp p.2 curOps (.integerConstant p.1))
    | .threadPool => .ok (emitOp st curOps .createThreadPool)
    | .forkThread => do
        let st ← expectInstructionL .beginBlock st
        let ps ← loadScope fuel false st
        let pb ← loadCodeBlock fuel ps.1
        let st := pb.1
        if st.isPrepass then .ok (st, curOps)
        else
          let st := modifyScope st ps.2
            (fun d => { d with parent := some st.globalScopeRef })
          .ok (emitOp st curOps (.forkThread (bindBlock ps.2 pb.2)))
    | .handoff => do
        let p1 ← readString st
        let st := poolString p1.2 p1.1
        let p2 ← readNumber st
        let st ← expectInstructionL .beginBlock p2.2
        let ps ← loadScope fuel false st
        let pb ← loadCodeBlock fuel ps.1
        .ok (emitOp pb.1 curOps (.handoffOp p1.1 (bindBlock ps.2 pb.2) p2.1))
    | .handoffControl => do
        let p1 ← readString st
        let st := poolString p1.2 p1.1
        let p2 ← readString st
        let st := poolString p2.2 p2.1
        let p3 ← readNumber st
        let st ← expectInstructionL .beginBlock p3.2
        let ps ← loadScope fuel false st
        let pb ← loadCodeBlock fuel ps.1
        .ok (emitOp pb.1 curOps
          (.handoffControlOp p1.1 (bindBlock ps.2 pb.2) p2.1 p3.1))
    | .parallelFor => do
        let p1 ← readString st
        let st := poolString p1.2 p1.1
        let st ← expectInstructionL .beginBlock st
        let ps ← loadScope fuel false st
        let pb ← loadCodeBlock fuel ps.1
        .ok (emitOp pb.1 curOps (.parallelForOp (bindBlock ps.2 pb.2) p1.1))
    | .readArray => do
        let p ← readString st
        let st := poolString p.2 p.1
        .ok (emitOp st curOps (.readArray p.1))
    | .writeArray => do
        let p ← readString st
        let st := poolString p.2 p.1
        .ok (emitOp st curOps (.writeArray p.1))
    | .arrayLength => do
        let p ← readString st
        let st := poolString p.2 p.1
        .ok (emitOp st curOps (.arrayLength p.1))
    | .consArrayIndirect => do
        let p1 ← readNumber st
        let pi ← readInstruction p1.2
        let p ← generateOpFromByteCode fuel pi.1 pi.2 curOps
        if p.1.isPrepass then .ok p
        else
          match p.2.getLast? with
          | some inner =>
              .ok (p.1, p.2.dropLast ++ [LOp.consArrayIndirect p1.1 inner])
          | none => .error .cppFault
    | _ =>
        .error (.invalidBytecode
          "Read an opcode from the binary, but it doesn't match any known opcode. Aborting program execution!")

termination_by structural fuel => fuel

end

end Loader

namespace Loader

/-- `FileLoader::CheckCookie` (`Loading.cpp` 119-125). -/
def checkCookie (st : LState) : Except LoadErr LState :=
  match st.toks with
  | .cookie :: rest => .ok { st with toks := rest }
  | _ => .error (.invalidBytecode
      "Binary code does not contain a valid signature cookie; this may indicate a corrupted binary or an outdated library")

/-- `FileLoader::CheckFlags` (`Loading.cpp` 130-135). -/
def checkFlags (st : LState) : Except LoadErr LState := do
  let p ← readNumber st
  if p.1 ≠ 0 then .ok { p.2 with usesConsole := true }
  else .ok p.2

/-- The extension-name loop of `CheckExtensions` (`Loading.cpp`
1505-1517): the name is widened and pooled UNGUARDED on both passes; the
registration itself is prepass-only. -/
def checkExtensionsEntries : Nat → LState → Except LoadErr LState
  | 0, st => .ok st
  | n + 1, st => do
      let p ← readString st
      let st := poolString p.2 p.1
      let st :=
        if st.isPrepass then
          { st with registeredExtensions := st.registeredExtensions ++ [p.1] }
        else st
      checkExtensionsEntries n st

/-- `FileLoader::CheckExtensions`. -/
def checkExtensions (st : LState) : Except LoadErr LState := do
  let p ← readNumber st
  checkExtensionsEntries p.1.toNat p.2

/-- `FileLoader::LoadGlobalInitBlock` (`Loading.cpp` 1454-1467). -/
def loadGlobalInitBlock (fuel : Nat) (st : LState) :
    Except LoadErr LState := do
  let st ← expectInstructionL .globalBlock st
  let pi ← readInstruction st
  if pi.1 = .beginBlock then do
    let pb ← loadCodeBlock fuel pi.2
    if pb.1.isPrepass then .ok pb.1
    else .ok { pb.1 with globalInit := pb.2 }
  else .ok pi.2

/-- The data-block loop of `LoadExtensionData` (`Loading.cpp` 1521-1533). -/
def loadExtensionDataEntries : Nat → LState → Except LoadErr LState
  | 0, st => .ok st
  | n + 1, st => do
      let p1 ← readString st
      let p2 ← readNumber p1.2
      let p3 ← readString p2.2
      loadExtensionDataEntries n
        { p3.2 with extData := p3.2.extData ++ [(p1.1, p3.1)] }

/-- `FileLoader::LoadExtensionData`. -/
def loadExtensionData (st : LState) : Except LoadErr LState := do
  let st ← expectInstructionL .extensionData st
  let p ← readNumber st
  loadExtensionDataEntries p.1.toNat p.2

/-- The loader state at `FileLoader` construction: an empty Program whose
global scope sits at arena reference 0, first pass about to start. -/
def initialLState (toks : List Tok) : LState :=
  { toks := toks, isPrepass := true, pool := [], scopeIDMap := [],
    scopes := [(0, emptyLScope)], nextScopeRef := 1, funcs := [],
    nextFuncRef := 0, functionIDMap := [], tupleOwnerMap := [],
    structOwnerMap := [], usesConsole := false, globalInit := none,
    registeredExtensions := [], extData := [], globalScopeRef := 0 }

/-- The prepass half of the `FileLoader` constructor (`Loading.cpp`
75-78). -/
def fileLoaderPrepass (fuel : Nat) (toks : List Tok) :
    Except LoadErr LState := do
  let st ← checkCookie (initialLState toks)
  let st ← checkFlags st
  let st ← checkExtensions st
  let p ← loadScope fuel true st
  .ok p.1

/-- The full two-pass `FileLoader` constructor (`Loading.cpp` 67-95). -/
def fileLoaderRun (fuel : Nat) (toks : List Tok) :
    Except LoadErr LState := do
  let st ← fileLoaderPrepass fuel toks
  let st := { st with toks := toks, isPrepass := false }
  let st ← checkCookie st
  let st ← checkFlags st
  let st ← checkExtensions st
  let p ← loadScope fuel true st
  let st ← loadGlobalInitBlock fuel p.1
  loadExtensionData st

end Loader

namespace Loader

theorem readFlag_fields (st : LState) (p : Bool × LState)
    (h : readFlag st = .ok p) :
    p.2.pool = st.pool ∧ p.2.scopes = st.scopes ∧
      p.2.isPrepass = st.isPrepass := by
  unfold readFlag at h
  rcases htoks : st.toks with _ | ⟨t, rest⟩ <;> rw [htoks] at h
  · cases h
  · cases t <;> cases h <;> exact ⟨rfl, rfl, rfl⟩

theorem readNumber_fields (st : LState) (p : Int × LState)
    (h : readNumber st = .ok p) :
    p.2.pool = st.pool ∧ p.2.scopes = st.scopes ∧
      p.2.isPrepass = st.isPrepass := by
  unfold readNumber at h
  rcases htoks : st.toks with _ | ⟨t, rest⟩ <;> rw [htoks] at h
  · cases h
  · cases t <;> cases h <;> exact ⟨rfl, rfl, rfl⟩

theorem readString_fields (st : LState) (p : String × LState)
    (h : readString st = .ok p) :
    p.2.pool = st.pool ∧ p.2.scopes = st.scopes ∧
      p.2.isPrepass = st.isPrepass := by
  unfold readString at h
  rcases htoks : st.toks with _ | ⟨t, rest⟩ <;> rw [htoks] at h
  · cases h
  · cases t <;> cases h <;> exact ⟨rfl, rfl, rfl⟩

/-- On the prepass, the `Variables` section only consumes tokens: the
string pool and the loaded scopes stay untouched. -/
theorem loadVariablesEntries_prepass_frame :
    ∀ (n : Nat) (st : LState) (sref : Nat) (st2 : LState),
      st.isPrepass = true →
      loadVariablesEntries n st sref = .ok st2 →
      st2.pool = st.pool ∧ st2.scopes = st.scopes ∧ st2.isPrepass = true := by
  intro n
  induction n with
  | zero =>
      intro st sref st2 hp h
      unfold loadVariablesEntries at h
      cases h
      exact ⟨rfl, rfl, hp⟩
  | succ n ih =>
      intro st sref st2 hp h
      unfold loadVariablesEntries at h
      cases h1 : readFlag st with
      | error e =>
          simp only [h1, bind, Except.bind] at h
          cases h
      | ok p1 =>
        cases h2 : readString p1.2 with
        | error e =>
            simp only [h1, h2, bind, Except.bind] at h
            cases h
        | ok p2 =>
          cases h3 : readNumber p2.2 with
          | error e =>
              simp only [h1, h2, h3, bind, Except.bind] at h
              cases h
          | ok p3 =>
            simp only [h1, h2, h3, bind, Except.bind] at h
            have f1 := readFlag_fields st p1 h1
            have f2 := readString_fields p1.2 p2 h2
            have f3 := readNumber_fields p2.2 p3 h3
            have hp3 : p3.2.isPrepass = true := by
              rw [f3.2.2, f2.2.2, f1.2.2, hp]
            rw [if_pos hp3] at h
            have := ih p3.2 sref st2 hp3 h
            refine ⟨?_, ?_, this.2.2⟩
            · rw [this.1, f3.1, f2.1, f1.1]
            · rw [this.2.1, f3.2.1, f2.2.1, f1.2.1]

theorem lookupNat_modifyScope (st : LState) (r r2 : Nat)
    (f : LScope → LScope) :
    lookupNat (modifyScope st r f).scopes r2 =
      if r2 = r then (lookupNat st.scopes r).map f
      else lookupNat st.scopes r2 :=
  Builder.lookupArena_update st.scopes r r2 f

theorem poolString_toks (st : LState) (s : String) :
    (poolString st s).toks = st.toks := by
  unfold poolString
  by_cases h : s ∈ st.pool
  · rw [if_pos h]
  · rw [if_neg h]

theorem poolString_isPrepass (st : LState) (s : String) :
    (poolString st s).isPrepass = st.isPrepass := by
  unfold poolString
  by_cases h : s ∈ st.pool
  · rw [if_pos h]
  · rw [if_neg h]

theorem mem_poolString_self (st : LState) (s : String) :
    s ∈ (poolString st s).pool := by
  unfold poolString
  by_cases h : s ∈ st.pool
  · rw [if_pos h]
    exact h
  · rw [if_neg h]
    simp

theorem mem_poolString_mono (st : LState) (s x : String)
    (h : x ∈ st.pool) : x ∈ (poolString st s).pool := by
  unfold poolString
  by_cases hs : s ∈ st.pool
  · rw [if_pos hs]
    exact h
  · rw [if_neg hs]
    simp [h]

/-- On EVERY pass, the `Constants` section widens and interns each constant
name into the Program's string pool and records it on the mapped scope. -/
theorem loadConstantsEntries_spec :
    ∀ (cs : List String) (st : LState) (sref : Nat) (rest : List Tok)
      (d : LScope),
      st.toks = cs.map Tok.str ++ rest →
      lookupNat st.scopes sref = some d →
      ∃ st2, loadConstantsEntries cs.length st sref = .ok st2 ∧
        st2.toks = rest ∧
        (∀ c ∈ cs, c ∈ st2.pool) ∧
        (∀ x ∈ st.pool, x ∈ st2.pool) ∧
        lookupNat st2.scopes sref =
          some { d with constants := d.constants ++ cs } ∧
        st2.isPrepass = st.isPrepass := by
  intro cs
  induction cs with
  | nil =>
      intro st sref rest d htoks hd
      refine ⟨st, rfl, by simpa using htoks, by simp, fun x hx => hx, ?_, rfl⟩
      simpa using hd
  | cons c cs ih =>
      intro st sref rest d htoks hd
      have hread : readString st = .ok (c, { st with toks := cs.map Tok.str ++ rest }) := by
        unfold readString
        rw [htoks]
        rfl
      set st1 := modifyScope
        (poolString { st with toks := cs.map Tok.str ++ rest } c) sref
        (fun d2 => { d2 with constants := d2.constants ++ [c] }) with hst1
      have hstep :
          loadConstantsEntries (c :: cs).length st sref =
            loadConstantsEntries cs.length st1 sref := by
        show loadConstantsEntries (cs.length + 1) st sref = _
        rw [loadConstantsEntries, hread]
        rfl
      have htoks1 : st1.toks = cs.map Tok.str ++ rest := by
        rw [hst1]
        show (poolString _ c).toks = _
        rw [poolString_toks]
      have hd1 : lookupNat st1.scopes sref =
          some { d with constants := d.constants ++ [c] } := by
        rw [hst1]
        rw [lookupNat_modifyScope]
        rw [if_pos rfl]
        have : lookupNat (poolString { st with toks := cs.map Tok.str ++ rest } c).scopes sref = some d := by
          unfold poolString
          by_cases hc : c ∈ ({ st with toks := cs.map Tok.str ++ rest } : LState).pool
          · rw [if_pos hc]
            exact hd
          · rw [if_neg hc]
            exact hd
        rw [this]
        rfl
      rcases ih st1 sref rest { d with constants := d.constants ++ [c] }
          htoks1 hd1 with ⟨st2, hrun, htoks2, hcs, hmono, hlook, hpre⟩
      refine ⟨st2, ?_, htoks2, ?_, ?_, ?_, ?_⟩
      · rw [hstep]
        exact hrun
      · intro x hx
        rcases List.mem_cons.mp hx with rfl | hx2
        · exact hmono x (by
            have : x ∈ (poolString { st with toks := cs.map Tok.str ++ rest } x).pool :=
              mem_poolString_self _ x
            simpa [hst1, modifyScope] using this)
        · exact hcs x hx2
      · intro x hx
        refine hmono x ?_
        have : x ∈ (poolString { st with toks := cs.map Tok.str ++ rest } c).pool :=
          mem_poolString_mono _ c x hx
        simpa [hst1, modifyScope] using this
      · rw [hlook]
        simp
      · rw [hpre, hst1]
        show (poolString _ c).isPrepass = _
        rw [poolString_isPrepass]

/-- On EVERY pass, `CheckExtensions` widens and interns the extension
names. -/
theorem checkExtensions_pools (st : LState) (name : String)
    (rest : List Tok) (htoks : st.toks = .num 1 :: .str name :: rest) :
    ∃ st2, checkExtensions st = .ok st2 ∧ name ∈ st2.pool ∧
      st2.toks = rest := by
  unfold checkExtensions checkExtensionsEntries readNumber readString
  rw [htoks]
  simp only [bind, Except.bind, Int.toNat_one]
  refine ⟨_, rfl, ?_, ?_⟩
  · split
    · exact mem_poolString_self _ name
    · exact mem_poolString_self _ name
  · split
    · show (poolString _ name).toks = rest
      rw [poolString_toks]
    · show (poolString _ name).toks = rest
      rw [poolString_toks]

end Loader

namespace Loader

/-- C6 (amended): loader pass discipline for strings.  The `Variables`
section interns and widens on the second pass only — the prepass leaves the
string pool and the loaded scopes untouched — but the `Constants` section
pools every constant name AND sets it on the mapped scope on both passes,
and `CheckExtensions` pools the extension names on both passes. -/
theorem c6_loader_pass_discipline_amended :
    (∀ (n : Nat) (st : LState) (sref : Nat) (st2 : LState),
      st.isPrepass = true →
      loadVariablesEntries n st sref = .ok st2 →
      st2.pool = st.pool ∧ st2.scopes = st.scopes ∧ st2.isPrepass = true) ∧
    (∀ (cs : List String) (st : LState) (sref : Nat) (rest : List Tok)
        (d : LScope),
      st.toks = cs.map Tok.str ++ rest →
      lookupNat st.scopes sref = some d →
      ∃ st2, loadConstantsEntries cs.length st sref = .ok st2 ∧
        st2.toks = rest ∧
        (∀ c ∈ cs, c ∈ st2.pool) ∧
        (∀ x ∈ st.pool, x ∈ st2.pool) ∧
        lookupNat st2.scopes sref =
          some { d with constants := d.constants ++ cs } ∧
        st2.isPrepass = st.isPrepass) ∧
    (∀ (st : LState) (name : String) (rest : List Tok),
      st.toks = .num 1 :: .str name :: rest →
      ∃ st2, checkExtensions st = .ok st2 ∧ name ∈ st2.pool ∧
        st2.toks = rest) :=
  ⟨loadVariablesEntries_prepass_frame, loadConstantsEntries_spec,
    checkExtensions_pools⟩

/-- A minimal binary: cookie, flags 0, one extension "ext", and a global
scope whose only content is the constant "secret". -/
def c6Toks : List Tok :=
  [.cookie, .num 0, .num 1, .str "ext",
   .ins .scope, .num 1, .ins .parentScope, .num 0,
   .ins .variablesOp, .num 0, .ins .ghosts, .num 0,
   .ins .functions, .num 0, .ins .functionSignatureList, .num 0,
   .ins .tupleTypes, .num 0, .ins .tupleHints, .num 0,
   .ins .tupleTypeMap, .num 0, .ins .structureTypes, .num 0,
   .ins .structureHints, .num 0, .ins .structureTypeMap, .num 0,
   .ins .constants, .num 1, .str "secret",
   .ins .responseMaps, .num 0, .ins .futures, .num 0,
   .ins .arrayHints, .num 0, .ins .endScope]

/-- C6 counterexample: after the PREPASS alone, the Program's string pool
already holds the widened extension name and constant name, and the global
scope's constant set is already mutated — contradicting the claim that the
prepass does not intern or widen strings or touch string-keyed scope
content. -/
theorem c6_prepass_interning_counterexample :
    (fileLoaderPrepass 9 c6Toks).map (fun st =>
      (st.isPrepass, st.pool, (lookupNat st.scopes 0).map LScope.constants))
      = .ok (true, ["ext", "secret"], some ["secret"]) := rfl

/-- The prepass about to read one variable entry. -/
def c6StateV : LState := initialLState [.flg false, .str "v", .num 1]

/-- The prepass state after that entry: only the token was consumed. -/
def c6StateVOut : LState := { c6StateV with toks := [] }

/-- The loader about to read one constant entry for scope 0. -/
def c6StateC : LState := initialLState [.str "k"]

/-- The loader about to read one extension name. -/
def c6StateE : LState := initialLState [.num 1, .str "extn"]

theorem c6_discipline_witness :
    (loadVariablesEntries 1 c6StateV 0 = .ok c6StateVOut ∧
      c6StateVOut.pool = c6StateV.pool ∧
      c6StateVOut.scopes = c6StateV.scopes ∧
      c6StateVOut.isPrepass = true) ∧
    (∃ st2, loadConstantsEntries (["k"] : List String).length c6StateC 0 =
        .ok st2 ∧
      st2.toks = [] ∧
      (∀ c ∈ (["k"] : List String), c ∈ st2.pool) ∧
      (∀ x ∈ c6StateC.pool, x ∈ st2.pool) ∧
      lookupNat st2.scopes 0 =
        some { emptyLScope with constants := emptyLScope.constants ++ ["k"] } ∧
      st2.isPrepass = c6StateC.isPrepass) ∧
    (∃ st2, checkExtensions c6StateE = .ok st2 ∧ "extn" ∈ st2.pool ∧
      st2.toks = []) := by
  refine ⟨⟨rfl, ?_, ?_, ?_⟩, ?_, ?_⟩
  · exact (c6_loader_pass_discipline_amended.1 1 c6StateV 0 c6StateVOut
      rfl rfl).1
  · exact (c6_loader_pass_discipline_amended.1 1 c6StateV 0 c6StateVOut
      rfl rfl).2.1
  · exact (c6_loader_pass_discipline_amended.1 1 c6StateV 0 c6StateVOut
      rfl rfl).2.2
  · exact c6_loader_pass_discipline_amended.2.1 ["k"] c6StateC 0 []
      emptyLScope rfl rfl
  · exact c6_loader_pass_discipline_amended.2.2 c6StateE "extn" [] rfl

end Loader

namespace Loader

/-- The opcode the binary writer uses for a builder arithmetic operation.
Modelled from the spec (s. 6: every operation serializes as its opcode byte
followed by its operand fields; the binary writer is not among the staged
sources).  `none` for element types the builders never produce. -/
def arithOpcode : Arith.ArithFam → EpochType → Option Opcode
  | .add, .integer => some .addIntegers
  | .subtract, .integer => some .subtractIntegers
  | .multiply, .integer => some .multiplyIntegers
  | .divide, .integer => some .divideIntegers
  | .add, .real => some .addReals
  | .subtract, .real => some .subReals
  | .multiply, .real => some .multiplyReals
  | .divide, .real => some .divideReals
  | .add, .integer16 => some .addIntegers16
  | .subtract, .integer16 => some .subtractIntegers16
  | .multiply, .integer16 => some .multiplyIntegers16
  | .divide, .integer16 => some .divideIntegers16
  | _, _ => none

/-- The serialized form of a binary arithmetic operation: opcode, the two
is-array flags, the parameter count.  Modelled from the spec (s. 6), mirroring
the fields the loader's own decoders read back for the families it supports. -/
def serializeArithOp (fam : Arith.ArithFam) (ty : EpochType)
    (a b : Bool) (paramcount : Int) : List Tok :=
  match arithOpcode fam ty with
  | some c => [.ins c, .flg a, .flg b, .num paramcount]
  | none => []

theorem generateOp_multiplyReals_error (fuel : Nat) (st : LState)
    (curOps : List LOp) :
    generateOpFromByteCode (fuel + 1) .multiplyReals st curOps =
      .error (.invalidBytecode
        "Read an opcode from the binary, but it doesn't match any known opcode. Aborting program execution!") := rfl

theorem createMultiply_on_reals (s : Arith.ArithState) (r1 r2 : Int)
    (rest : List Arith.StackEntry)
    (hcnt : s.passedParameterCount.headD 0 = 2)
    (hstack : s.theStack = .realLiteral r2 :: .realLiteral r1 :: rest) :
    Arith.CreateOperation_Multiply s =
      .ok ({ s with theStack := rest },
        .arith .multiply .real (.binary false false)) := by
  unfold Arith.CreateOperation_Multiply Arith.createArithOp
  rw [hcnt, hstack]
  simp [Arith.StackEntry.determineEffectiveType, Arith.StackEntry.isArray]

theorem loadCodeOps_multiplyReals_error (fuel : Nat) (st : LState)
    (curOps : List LOp) (a b : Bool) (c : Int) (rest : List Tok)
    (htoks : st.toks = serializeArithOp .multiply .real a b c ++ rest) :
    loadCodeOps (fuel + 2) st curOps =
      .error (.invalidBytecode
        "Read an opcode from the binary, but it doesn't match any known opcode. Aborting program execution!") := by
  have hread : readInstruction st =
      .ok (.multiplyReals, { st with toks := .flg a :: .flg b :: .num c :: rest }) := by
    unfold readInstruction
    rw [htoks]
    rfl
  rw [loadCodeOps, hread]
  simp only [bind, Except.bind]
  rw [if_neg (by decide)]
  rw [generateOp_multiplyReals_error]

end Loader

namespace Loader

/-- C1 (code bug): the round-trip fails for programs containing real
multiplication.  The builder accepts `real * real` with no fatal error and
emits a MultiplyReals operation; that operation serializes under the
MultiplyReals opcode; but `GenerateOpFromByteCode` has no case for that
opcode (nor for the Integer16 arithmetic family or plain ConsArray), so
loading any block holding it aborts with `InvalidBytecodeException` instead
of reproducing the program. -/
theorem c1_real_multiply_roundtrip_bug :
    (∀ (s : Arith.ArithState) (r1 r2 : Int) (rest : List Arith.StackEntry),
      s.passedParameterCount.headD 0 = 2 →
      s.theStack = .realLiteral r2 :: .realLiteral r1 :: rest →
      Arith.CreateOperation_Multiply s =
        .ok ({ s with theStack := rest },
          .arith .multiply .real (.binary false false))) ∧
    (∀ (a b : Bool) (c : Int),
      serializeArithOp .multiply .real a b c =
        [.ins .multiplyReals, .flg a, .flg b, .num c]) ∧
    (∀ (fuel : Nat) (st : LState) (curOps : List LOp) (a b : Bool) (c : Int)
        (rest : List Tok),
      st.toks = serializeArithOp .multiply .real a b c ++ rest →
      loadCodeOps (fuel + 2) st curOps =
        .error (.invalidBytecode
          "Read an opcode from the binary, but it doesn't match any known opcode. Aborting program execution!")) ∧
    (∀ op ∈ ([.multiplyReals, .addIntegers16, .subtractIntegers16,
        .multiplyIntegers16, .divideIntegers16, .consArray] : List Opcode),
      ∀ (fuel : Nat) (st : LState) (curOps : List LOp),
      generateOpFromByteCode (fuel + 1) op st curOps =
        .error (.invalidBytecode
          "Read an opcode from the binary, but it doesn't match any known opcode. Aborting program execution!")) := by
  refine ⟨createMultiply_on_reals, fun a b c => rfl,
    loadCodeOps_multiplyReals_error, ?_⟩
  intro op hop fuel st curOps
  simp only [List.mem_cons, List.not_mem_nil, or_false] at hop
  rcases hop with rfl | rfl | rfl | rfl | rfl | rfl <;> rfl

/-- A builder state about to close `3.5 * 2.5`. -/
def c1ArithState : Arith.ArithState :=
  { passedParameterCount := [2],
    theStack := [.realLiteral 25, .realLiteral 35],
    scope := ⟨[], []⟩,
    fatalError := false }

theorem c1_roundtrip_witness :
    Arith.CreateOperation_Multiply c1ArithState =
      .ok ({ c1ArithState with theStack := [] },
        .arith .multiply .real (.binary false false)) ∧
    loadCodeOps 2 (initialLState (serializeArithOp .multiply .real false false 2))
        [] =
      .error (.invalidBytecode
        "Read an opcode from the binary, but it doesn't match any known opcode. Aborting program execution!") ∧
    generateOpFromByteCode 1 .multiplyIntegers16 (initialLState []) [] =
      .error (.invalidBytecode
        "Read an opcode from the binary, but it doesn't match any known opcode. Aborting program execution!") := by
  refine ⟨?_, ?_, ?_⟩
  · exact c1_real_multiply_roundtrip_bug.1 c1ArithState 35 25 [] rfl rfl
  · exact c1_real_multiply_roundtrip_bug.2.2.1 0
      (initialLState (serializeArithOp .multiply .real false false 2)) []
      false false 2 [] (by simp [initialLState])
  · exact c1_real_multiply_roundtrip_bug.2.2.2 .multiplyIntegers16
      (by simp) 0 (initialLState []) []

end Loader

namespace Builder

theorem enterBlock_task_thread (s : BuildState) (bt : BlockType)
    (rest : List BlockType)
    (hbt : bt = BlockType.task ∨ bt = BlockType.thread)
    (hexp : s.expectedBlockTypes = bt :: rest)
    (hfreshS : s.getScope s.nextScopeId = none)
    (hfreshB : s.getBlock s.nextBlockId = none) :
    ∃ s2, enterBlock s = .ok s2 ∧
      s2.getScope s.nextScopeId =
        some (ScopeData.fresh (some s.globalScopeId)) ∧
      s2.displacedScopes = s.currentScope :: s.displacedScopes ∧
      s2.currentScope = s.nextScopeId ∧
      s2.blockStack = ⟨some s.nextBlockId, bt⟩ :: s.blockStack ∧
      s2.getBlock s.nextBlockId = some ⟨some s.nextScopeId, []⟩ ∧
      s2.expectedBlockTypes = rest := by
  rcases hbt with rfl | rfl <;>
  · unfold enterBlock
    simp only [hexp, bind, Except.bind, BuildState.allocBlock,
      BuildState.allocScope, BuildState.setBlock, List.headD_cons]
    rw [if_pos (by simp)]
    simp only [bind, Except.bind]
    rw [if_neg (by decide)]
    rw [if_neg (by decide)]
    rw [if_neg (by decide)]
    refine ⟨_, rfl, ?_, rfl, rfl, rfl, ?_, rfl⟩
    · show lookupArena _ s.nextScopeId = _
      rw [lookupArena_append]
      unfold BuildState.getScope at hfreshS
      rw [hfreshS]
      rw [if_pos rfl]
    · show lookupArena _ s.nextBlockId = _
      rw [lookupArena_update]
      rw [if_pos rfl]
      rw [lookupArena_append]
      unfold BuildState.getBlock at hfreshB
      rw [hfreshB]
      rw [if_pos rfl]
      rfl

theorem exitBlock_task_restores (s : BuildState) (tbid : BlockId)
    (enc : BlockEntry) (rest : List BlockEntry) (ebid : BlockId)
    (ebd : BBlockData) (d : ScopeId) (restD : List ScopeId) (name : String)
    (restStack : List BStackEntry) (tn : String) (restN : List String)
    (hstack : s.blockStack = ⟨some tbid, .task⟩ :: enc :: rest)
    (henc : enc.theBlock = some ebid)
    (heb : s.getBlock ebid = some ebd)
    (hdisp : s.displacedScopes = d :: restD)
    (hthe : s.theStack = .stringLit name :: restStack)
    (hsaved : s.savedTaskNames = tn :: restN) :
    ∃ s2, exitBlock s = .ok s2 ∧
      s2.currentScope = d ∧
      s2.displacedScopes = restD ∧
      s2.savedTaskNames = restN ∧
      s2.theStack = restStack ∧
      s2.blockStack = enc :: rest ∧
      s2.getBlock ebid =
        some { ebd with ops := ebd.ops ++ [.forkTask (some tbid)] } ∧
      s2.taskNameTrack = s.taskNameTrack ++ [tn] := by
  unfold exitBlock BuildState.addOperationToCurrentBlock
  simp only [hstack, hdisp, hthe, hsaved, henc, bind, Except.bind,
    BuildState.effType, BuildState.setBlock]
  rw [if_neg (fun h : EpochType.stringT ≠ EpochType.stringT => h rfl)]
  refine ⟨_, rfl, rfl, rfl, rfl, rfl, rfl, ?_, rfl⟩
  show lookupArena _ ebid = _
  rw [lookupArena_update]
  rw [if_pos rfl]
  have heb2 : lookupArena s.blocks ebid = some ebd := heb
  rw [heb2]
  rfl

end Builder

namespace Loader

theorem generateOp_forkTask_reparents (fuel : Nat) (st st0 st1 st2 : LState)
    (sref : Nat) (blk : Option LBlockT) (curOps : List LOp)
    (hexp : expectInstructionL .beginBlock st = .ok st0)
    (hscope : loadScope fuel false st0 = .ok (st1, sref))
    (hblock : loadCodeBlock fuel st1 = .ok (st2, blk))
    (hpre2 : st2.isPrepass = false) :
    generateOpFromByteCode (fuel + 1) .forkTask st curOps =
      .ok (modifyScope st2 sref
          (fun d => { d with parent := some st2.globalScopeRef }),
        curOps ++ [.forkTask (bindBlock sref blk)]) := by
  have key : generateOpFromByteCode (fuel + 1) .forkTask st curOps = (do
      let stx ← expectInstructionL .beginBlock st
      let ps ← loadScope fuel false stx
      let pb ← loadCodeBlock fuel ps.1
      let sty := pb.1
      if sty.isPrepass then .ok (sty, curOps)
      else
        let sty := modifyScope sty ps.2
          (fun d => { d with parent := some sty.globalScopeRef })
        .ok (emitOp sty curOps (.forkTask (bindBlock ps.2 pb.2)))) := rfl
  rw [key]
  simp only [hexp, hscope, hblock, bind, Except.bind]
  rw [hpre2]
  simp only [Bool.false_eq_true, if_false]
  unfold emitOp
  have hpre3 : (modifyScope st2 sref
      (fun d => { d with parent := some st2.globalScopeRef })).isPrepass =
        false := hpre2
  rw [hpre3]
  simp only [Bool.false_eq_true, if_false]

theorem generateOp_forkThread_reparents (fuel : Nat) (st st0 st1 st2 : LState)
    (sref : Nat) (blk : Option LBlockT) (curOps : List LOp)
    (hexp : expectInstructionL .beginBlock st = .ok st0)
    (hscope : loadScope fuel false st0 = .ok (st1, sref))
    (hblock : loadCodeBlock fuel st1 = .ok (st2, blk))
    (hpre2 : st2.isPrepass = false) :
    generateOpFromByteCode (fuel + 1) .forkThread st curOps =
      .ok (modifyScope st2 sref
          (fun d => { d with parent := some st2.globalScopeRef }),
        curOps ++ [.forkThread (bindBlock sref blk)]) := by
  have key : generateOpFromByteCode (fuel + 1) .forkThread st curOps = (do
      let stx ← expectInstructionL .beginBlock st
      let ps ← loadScope fuel false stx
      let pb ← loadCodeBlock fuel ps.1
      let sty := pb.1
      if sty.isPrepass then .ok (sty, curOps)
      else
        let sty := modifyScope sty ps.2
          (fun d => { d with parent := some sty.globalScopeRef })
        .ok (emitOp sty curOps (.forkThread (bindBlock ps.2 pb.2)))) := rfl
  rw [key]
  simp only [hexp, hscope, hblock, bind, Except.bind]
  rw [hpre2]
  simp only [Bool.false_eq_true, if_false]
  unfold emitOp
  have hpre3 : (modifyScope st2 sref
      (fun d => { d with parent := some st2.globalScopeRef })).isPrepass =
        false := hpre2
  rw [hpre3]
  simp only [Bool.false_eq_true, if_false]

end Loader

namespace Builder

/-- C8: task/thread scope reparenting.  When the builder enters a task or
thread block it parents the fresh scope to the Program's global scope and
saves the enclosing scope on DisplacedScopes; exiting the block restores the
enclosing scope from that stack and pops it; and the loader's
ForkTask/ForkThread decoders reparent the loaded block's bound scope to the
global scope as well. -/
theorem c8_task_thread_scope_reparenting :
    (∀ (s : BuildState) (bt : BlockType) (rest : List BlockType),
      bt = BlockType.task ∨ bt = BlockType.thread →
      s.expectedBlockTypes = bt :: rest →
      s.getScope s.nextScopeId = none →
      s.getBlock s.nextBlockId = none →
      ∃ s2, enterBlock s = .ok s2 ∧
        s2.getScope s.nextScopeId =
          some (ScopeData.fresh (some s.globalScopeId)) ∧
        s2.displacedScopes = s.currentScope :: s.displacedScopes ∧
        s2.currentScope = s.nextScopeId ∧
        s2.blockStack = ⟨some s.nextBlockId, bt⟩ :: s.blockStack ∧
        s2.getBlock s.nextBlockId = some ⟨some s.nextScopeId, []⟩ ∧
        s2.expectedBlockTypes = rest) ∧
    (∀ (s : BuildState) (tbid : BlockId) (enc : BlockEntry)
        (rest : List BlockEntry) (ebid : BlockId) (ebd : BBlockData)
        (d : ScopeId) (restD : List ScopeId) (name : String)
        (restStack : List BStackEntry) (tn : String) (restN : List String),
      s.blockStack = ⟨some tbid, .task⟩ :: enc :: rest →
      enc.theBlock = some ebid →
      s.getBlock ebid = some ebd →
      s.displacedScopes = d :: restD →
      s.theStack = .stringLit name :: restStack →
      s.savedTaskNames = tn :: restN →
      ∃ s2, exitBlock s = .ok s2 ∧
        s2.currentScope = d ∧
        s2.displacedScopes = restD ∧
        s2.savedTaskNames = restN ∧
        s2.theStack = restStack ∧
        s2.blockStack = enc :: rest ∧
        s2.getBlock ebid =
          some { ebd with ops := ebd.ops ++ [.forkTask (some tbid)] } ∧
        s2.taskNameTrack = s.taskNameTrack ++ [tn]) ∧
    (∀ (fuel : Nat) (st st0 st1 st2 : Loader.LState) (sref : Nat)
        (blk : Option Loader.LBlockT) (curOps : List Loader.LOp),
      Loader.expectInstructionL .beginBlock st = .ok st0 →
      Loader.loadScope fuel false st0 = .ok (st1, sref) →
      Loader.loadCodeBlock fuel st1 = .ok (st2, blk) →
      st2.isPrepass = false →
      Loader.generateOpFromByteCode (fuel + 1) .forkTask st curOps =
        .ok (Loader.modifyScope st2 sref
            (fun d => { d with parent := some st2.globalScopeRef }),
          curOps ++ [.forkTask (Loader.bindBlock sref blk)])) ∧
    (∀ (fuel : Nat) (st st0 st1 st2 : Loader.LState) (sref : Nat)
        (blk : Option Loader.LBlockT) (curOps : List Loader.LOp),
      Loader.expectInstructionL .beginBlock st = .ok st0 →
      Loader.loadScope fuel false st0 = .ok (st1, sref) →
      Loader.loadCodeBlock fuel st1 = .ok (st2, blk) →
      st2.isPrepass = false →
      Loader.generateOpFromByteCode (fuel + 1) .forkThread st curOps =
        .ok (Loader.modifyScope st2 sref
            (fun d => { d with parent := some st2.globalScopeRef }),
          curOps ++ [.forkThread (Loader.bindBlock sref blk)])) :=
  ⟨enterBlock_task_thread, exitBlock_task_restores,
    Loader.generateOp_forkTask_reparents, Loader.generateOp_forkThread_reparents⟩

/-- A builder state about to enter a task block. -/
def c8EnterState : BuildState :=
  { scopes := [(0, ScopeData.fresh none), (1, ⟨some 0, [], [], []⟩)],
    nextScopeId := 5,
    blocks := [(10, ⟨some 1, []⟩)],
    nextBlockId := 7,
    globalScopeId := 0,
    currentScope := 1,
    blockStack := [⟨some 10, .free⟩],
    expectedBlockTypes := [.task],
    theStack := [],
    displacedScopes := [],
    savedTaskNames := [],
    passedParameterCount := [],
    extensionControlKeywords := [],
    messageDispatchScope := none,
    controlVarName := "",
    controlVarType := .integer,
    fatalError := false,
    errors := [],
    taskNameTrack := [],
    functionReturnValueTracker := [],
    functionReturnInitBlocks := [],
    knownExtensions := [] }

/-- A builder state about to close a task block 20 with its displaced scope
1 saved. -/
def c8ExitState : BuildState :=
  { c8EnterState with
    blocks := [(10, ⟨some 1, []⟩), (20, ⟨some 2, []⟩)],
    currentScope := 2,
    blockStack := [⟨some 20, .task⟩, ⟨some 10, .free⟩],
    expectedBlockTypes := [],
    theStack := [.stringLit "t"],
    displacedScopes := [1],
    savedTaskNames := ["t"] }

/-- Second-pass scope stream for bytecode scope id 5 (mapped to loaded
scope 1), with every section empty. -/
def c8ScopeToks : List Loader.Tok :=
  [.ins .scope, .num 5, .ins .parentScope, .num 0,
   .ins .variablesOp, .num 0, .ins .ghosts, .num 0, .ins .functions, .num 0,
   .ins .functionSignatureList, .num 0, .ins .tupleTypes, .num 0,
   .ins .tupleHints, .num 0, .ins .tupleTypeMap, .num 0,
   .ins .structureTypes, .num 0, .ins .structureHints, .num 0,
   .ins .structureTypeMap, .num 0, .ins .constants, .num 0,
   .ins .responseMaps, .num 0, .ins .futures, .num 0,
   .ins .arrayHints, .num 0, .ins .endScope]

/-- A second-pass loader state whose next tokens hold a task body: a block
begin, the scope above, and an empty operation stream. -/
def c8LoadState : Loader.LState :=
  { Loader.initialLState
      ([.ins .beginBlock] ++ c8ScopeToks ++ [.ins .endBlock]) with
    isPrepass := false,
    scopeIDMap := [(5, 1)],
    scopes := [(0, Loader.emptyLScope), (1, Loader.emptyLScope)],
    nextScopeRef := 2 }

theorem c8_reparenting_witness :
    (∃ s2, enterBlock c8EnterState = .ok s2 ∧
      s2.getScope 5 = some (ScopeData.fresh (some 0)) ∧
      s2.displacedScopes = [1] ∧
      s2.currentScope = 5 ∧
      s2.blockStack = [⟨some 7, .task⟩, ⟨some 10, .free⟩] ∧
      s2.getBlock 7 = some ⟨some 5, []⟩ ∧
      s2.expectedBlockTypes = []) ∧
    (∃ s2, exitBlock c8ExitState = .ok s2 ∧
      s2.currentScope = 1 ∧
      s2.displacedScopes = [] ∧
      s2.savedTaskNames = [] ∧
      s2.theStack = [] ∧
      s2.blockStack = [⟨some 10, .free⟩] ∧
      s2.getBlock 10 = some ⟨some 1, [.forkTask (some 20)]⟩ ∧
      s2.taskNameTrack = ["t"]) ∧
    (∃ stOut, Loader.generateOpFromByteCode 9 .forkTask c8LoadState [] =
        .ok (stOut, [.forkTask (some (.mk (some 1) []))]) ∧
      Loader.lookupNat stOut.scopes 1 =
        some { Loader.emptyLScope with parent := some 0 }) := by
  refine ⟨?_, ?_, ?_⟩
  · exact c8_task_thread_scope_reparenting.1 c8EnterState .task []
      (Or.inl rfl) rfl rfl rfl
  · exact c8_task_thread_scope_reparenting.2.1 c8ExitState 20
      ⟨some 10, .free⟩ [] 10 ⟨some 1, []⟩ 1 [] "t" [] "t" []
      rfl rfl rfl rfl rfl rfl
  · refine ⟨Loader.modifyScope { c8LoadState with toks := [] } 1
        (fun d => { d with parent := some 0 }), ?_, ?_⟩
    · exact c8_task_thread_scope_reparenting.2.2.1 8 c8LoadState
        { c8LoadState with toks := c8ScopeToks ++ [.ins .endBlock] }
        { c8LoadState with toks := [.ins .endBlock] }
        { c8LoadState with toks := [] } 1 (some (.mk none []))
        [] rfl rfl rfl rfl
    · rfl

end Builder
namespace InfixExpr

/-! Embedding of the infix-expression lowering of `Parser State
Machine/Infix.cpp`: the operator precedence table (lines 44-62 and
242-289), the infix-unit machinery (lines 104-235), and the
precedence-combination loop plus emission epilogue of
`ParserState::FinalizeInfixExpression` (lines 505-617).  The mutable
parser state visible to this code (operand stack, parameter-count stack,
scope, fatal-error flag) is `Arith.ArithState`, shared with the
arithmetic op builders that `CreateOperation` routes into. -/

/-- `OperatorPrecedence` enum (`Infix.cpp` 44-62): `OPREC_MIN`. -/
def OPREC_MIN : Nat := 0

/-- `OPREC_ASSIGNMENT` (`Infix.cpp` enum, value 1). -/
def OPREC_ASSIGNMENT : Nat := 1

/-- `OPREC_BITWISE` (value 2). -/
def OPREC_BITWISE : Nat := 2

/-- `OPREC_LOGICAL` (value 3). -/
def OPREC_LOGICAL : Nat := 3

/-- `OPREC_EQUALITY` (value 4). -/
def OPREC_EQUALITY : Nat := 4

/-- `OPREC_COMPARISON` (value 5). -/
def OPREC_COMPARISON : Nat := 5

/-- `OPREC_USER` (value 6). -/
def OPREC_USER : Nat := 6

/-- `OPREC_CALCASSIGN` (value 7). -/
def OPREC_CALCASSIGN : Nat := 7

/-- `OPREC_ADDITION` (value 8). -/
def OPREC_ADDITION : Nat := 8

/-- `OPREC_MULTIPLICATION` (value 9). -/
def OPREC_MULTIPLICATION : Nat := 9

/-- `OPREC_BOOLEAN` (value 10). -/
def OPREC_BOOLEAN : Nat := 10

/-- `OPREC_CONCATENATION` (value 11). -/
def OPREC_CONCATENATION : Nat := 11

/-- `OPREC_INCREMENT` (value 12). -/
def OPREC_INCREMENT : Nat := 12

/-- `OPREC_MEMBER` (value 13). -/
def OPREC_MEMBER : Nat := 13

/-- `OPREC_MAX` (value 14). -/
def OPREC_MAX : Nat := 14

/-- The built-in infix operator names registered by the `autoinit`
constructor (`Infix.cpp` 259-286); one constructor per
`DefineInfixOperator` call.  The concrete `Operators::...` token strings
live in a header outside the analysed sources, so the names are
represented as a closed enumeration rather than as strings. -/
inductive OperatorName where
  | add
  | subtract
  | multiply
  | divide
  | addAssign
  | subtractAssign
  | multiplyAssign
  | divideAssign
  | increment
  | decrement
  | greater
  | greaterEqual
  | less
  | lessEqual
  | equal
  | notEqual
  | andOp
  | orOp
  | xorOp
  | concat
  | concatAssign
  | assign
deriving DecidableEq, Repr

/-- `InfixOperatorData` (`Infix.cpp` 66-71): precedence level plus the
name of the function the operator aliases. -/
structure InfixOperatorData where
  Precedence : Nat
  FunctionName : String
deriving DecidableEq, Repr

/-- The `InfixOperators` registry as populated by `autoinit`
(`Infix.cpp` 259-286), in registration order.  The C++ `std::map` is
keyed uniquely by operator name, so an association-list lookup is
equivalent.  The `Keywords::...` target-function strings live in a
header outside the analysed sources and are modelled from the spec
(`add`/`subtract`/... builder names, spec s. 4.4). -/
def InfixOperators : List (OperatorName × InfixOperatorData) :=
  [ (.add, ⟨OPREC_ADDITION, "add"⟩),
    (.subtract, ⟨OPREC_ADDITION, "subtract"⟩),
    (.multiply, ⟨OPREC_MULTIPLICATION, "multiply"⟩),
    (.divide, ⟨OPREC_MULTIPLICATION, "divide"⟩),
    (.addAssign, ⟨OPREC_CALCASSIGN, "add"⟩),
    (.subtractAssign, ⟨OPREC_CALCASSIGN, "subtract"⟩),
    (.multiplyAssign, ⟨OPREC_CALCASSIGN, "multiply"⟩),
    (.divideAssign, ⟨OPREC_CALCASSIGN, "divide"⟩),
    (.increment, ⟨OPREC_INCREMENT, "add"⟩),
    (.decrement, ⟨OPREC_INCREMENT, "subtract"⟩),
    (.greater, ⟨OPREC_COMPARISON, "greater"⟩),
    (.greaterEqual, ⟨OPREC_COMPARISON, "greaterequal"⟩),
    (.less, ⟨OPREC_COMPARISON, "less"⟩),
    (.lessEqual, ⟨OPREC_COMPARISON, "lessequal"⟩),
    (.equal, ⟨OPREC_EQUALITY, "equal"⟩),
    (.notEqual, ⟨OPREC_EQUALITY, "notequal"⟩),
    (.andOp, ⟨OPREC_BOOLEAN, "and"⟩),
    (.orOp, ⟨OPREC_BOOLEAN, "or"⟩),
    (.xorOp, ⟨OPREC_BOOLEAN, "xor"⟩),
    (.concat, ⟨OPREC_CONCATENATION, "concat"⟩),
    (.concatAssign, ⟨OPREC_CALCASSIGN, "concat"⟩),
    (.assign, ⟨OPREC_ASSIGNMENT, "assign"⟩) ]

/-- Failure channel for the infix lowering: `ParserFailureException`
messages, or out-of-model C++ undefined behaviour (reads past the end of
an internal container), sharing `Arith.CppFault`. -/
inductive InfixErr where
  | parserFailure (msg : String)
  | fault (f : Arith.CppFault)
deriving DecidableEq, Repr

/-- `ParserState::LookupInfixAlias` (`Infix.cpp` 648-656): translate an
operator name into the target function name, throwing on an unknown
operator. -/
def LookupInfixAlias (opname : OperatorName) : Except InfixErr String :=
  match InfixOperators.find? (fun e => e.1 == opname) with
  | some e => .ok e.2.FunctionName
  | none => .error (.parserFailure "Unrecognized infix operator")

/-- `ParserState::GetInfixPrecedence` (`Infix.cpp` 664-671): look up the
precedence level of an operator, throwing on an unknown operator. -/
def GetInfixPrecedence (opname : OperatorName) : Except InfixErr Nat :=
  match InfixOperators.find? (fun e => e.1 == opname) with
  | some e => .ok e.2.Precedence
  | none => .error (.parserFailure "Unrecognized infix operator")

/-- Operations appearing in the lowered infix IR.  `rawOp` stands for an
arbitrary pre-existing operation popped off the working block into an
infix unit (the loop never inspects these); `pushOp` is a
`VM::Operations::PushOperation` wrapper; `arithOp` is an operation
produced by the arithmetic builders of `Arithmetic.cpp`; `genericOp`
stands for the product of a `CreateOperation` builder whose C++ source
is outside the analysed sources (comparison, equality, concatenation,
xor, user-defined), recording the target function name and the operands
it consumed; the four compound constructors are
`VM::Operations::BitwiseOr` / `LogicalOr` / `BitwiseAnd` / `LogicalAnd`
with the child operations they own; `assignValue` is
`VM::Operations::AssignValue`. -/
inductive IOp where
  | rawOp (tag : Nat)
  | pushOp (inner : IOp)
  | arithOp (op : Arith.AOp)
  | genericOp (fnname : String) (operands : List Arith.StackEntry)
  | bitwiseOrOp (ty : EpochType) (ops : List IOp)
  | logicalOrOp (ops : List IOp)
  | bitwiseAndOp (ty : EpochType) (ops : List IOp)
  | logicalAndOp (ops : List IOp)
  | assignValue (name : String)

/-- Strip a `PushOperation` wrapper.  `CompoundOperator::AddOperation`
takes ownership of the nested operation (cf. the `UnlinkOperation`
comment in `InfixUnitRawOperations::ClearOperations`, `Infix.cpp`
139-146); the compound-operator class itself is outside the analysed
sources and is modelled from the spec ("bitwise/logical compound ops
take ownership of the child operations", spec s. 4.4). -/
def unwrapPushOperation : IOp → IOp
  | .pushOp inner => inner
  | op => op

/-- Add a child operation to a compound bitwise/logical operation;
non-compound operations are unaffected (`InfixUnit::CopyInstructionsToOp`
is a no-op when the dynamic cast to `CompoundOperator` fails,
`Infix.cpp` 160-167). -/
def IOp.addCompoundOperation (op child : IOp) : IOp :=
  match op with
  | .bitwiseOrOp ty ops => .bitwiseOrOp ty (ops ++ [unwrapPushOperation child])
  | .logicalOrOp ops => .logicalOrOp (ops ++ [unwrapPushOperation child])
  | .bitwiseAndOp ty ops => .bitwiseAndOp ty (ops ++ [unwrapPushOperation child])
  | .logicalAndOp ops => .logicalAndOp (ops ++ [unwrapPushOperation child])
  | op => op

/-- Infix units (`Infix.cpp` 104-235): a raw unit carries a list of push
operations plus the operand stack entries it accounts for
(`InfixUnitRawOperations`); a compound unit is a list of nested units
(`InfixUnitCompound`). -/
inductive InfixUnit where
  | rawUnit (pushOperations : List IOp) (operands : List Arith.StackEntry)
  | compoundUnit (units : List InfixUnit)

mutual

/-- `InfixUnit::PushContents` (`Infix.cpp` 109-113 and 190-194): the
ordered list of operations a unit adds to the tail of a code block. -/
def InfixUnit.pushContents : InfixUnit → List IOp
  | .rawUnit ops _ => ops
  | .compoundUnit us => pushContentsList us

/-- `InfixUnitCompound::PushContents` iterates its nested units in
order. -/
def pushContentsList : List InfixUnit → List IOp
  | [] => []
  | u :: rest => u.pushContents ++ pushContentsList rest

end

mutual

/-- `InfixUnit::PushOperandsToStack` (`Infix.cpp` 118-122 and 199-203):
the ordered list of operand entries a unit pushes back onto `TheStack`. -/
def InfixUnit.operandsList : InfixUnit → List Arith.StackEntry
  | .rawUnit _ opnds => opnds
  | .compoundUnit us => operandsListL us

/-- `InfixUnitCompound::PushOperandsToStack` iterates its nested units
in order. -/
def operandsListL : List InfixUnit → List Arith.StackEntry
  | [] => []
  | u :: rest => u.operandsList ++ operandsListL rest

end

mutual

/-- `InfixUnit::ClearOperands` (`Infix.cpp` 127-130 and 208-212). -/
def InfixUnit.clearOperands : InfixUnit → InfixUnit
  | .rawUnit ops _ => .rawUnit ops []
  | .compoundUnit us => .compoundUnit (clearOperandsL us)

/-- `InfixUnitCompound::ClearOperands` recurses into the nested units. -/
def clearOperandsL : List InfixUnit → List InfixUnit
  | [] => []
  | u :: rest => u.clearOperands :: clearOperandsL rest

end

mutual

/-- `InfixUnit::ClearOperations` (`Infix.cpp` 135-152 and 217-221):
drop the operations owned by the unit (they have been taken over by a
compound operation). -/
def InfixUnit.clearOperations : InfixUnit → InfixUnit
  | .rawUnit _ opnds => .rawUnit [] opnds
  | .compoundUnit us => .compoundUnit (clearOperationsL us)

/-- `InfixUnitCompound::ClearOperations` recurses into the nested
units. -/
def clearOperationsL : List InfixUnit → List InfixUnit
  | [] => []
  | u :: rest => u.clearOperations :: clearOperationsL rest

end

/-- `ParserState::StackEntry::StringValue` as read by the assignment
branch of the combination loop: the string payload of an identifier or
string-literal entry, empty otherwise (the C++ field is
default-constructed for other entry kinds; the `ParserState` header is
outside the analysed sources). -/
def entryStringValue : Arith.StackEntry → String
  | .identifier n => n
  | .stringLiteral s => s
  | _ => ""

/-- `ParserState::CreateOperation` dispatcher.  Its C++ body is outside
the analysed sources; modelled from the spec ("this routes through the
same `add/subtract/...` builders", spec s. 4.4): the four arithmetic
function names route to the `CreateOperation_...` builders of
`Arithmetic.cpp` (verified separately), and any other target consumes
`PassedParameterCount.top()` operands from `TheStack`, producing a
symbolic operation that records the function name and the consumed
operands (most recently pushed first). -/
def CreateOperation (fnname : String) (st : Arith.ArithState) :
    Except InfixErr (IOp × Arith.ArithState) :=
  if fnname = "add" then
    match Arith.CreateOperation_Add st with
    | .ok p => .ok (.arithOp p.2, p.1)
    | .error f => .error (.fault f)
  else if fnname = "subtract" then
    match Arith.CreateOperation_Subtract st with
    | .ok p => .ok (.arithOp p.2, p.1)
    | .error f => .error (.fault f)
  else if fnname = "multiply" then
    match Arith.CreateOperation_Multiply st with
    | .ok p => .ok (.arithOp p.2, p.1)
    | .error f => .error (.fault f)
  else if fnname = "divide" then
    match Arith.CreateOperation_Divide st with
    | .ok p => .ok (.arithOp p.2, p.1)
    | .error f => .error (.fault f)
  else
    let n := st.passedParameterCount.headD 0
    if n ≤ st.theStack.length then
      .ok (.genericOp fnname (st.theStack.take n),
           { st with theStack := st.theStack.drop n })
    else
      .error (.fault .stackUnderflow)

/-- One combination of two adjacent infix units by an operator: the body
of the non-assignment branch of the precedence loop
(`FinalizeInfixExpression`, `Infix.cpp` 525-589).  `first` and `second`
are the units at and after the unit cursor; the result is the compound
unit written back at the cursor, together with the updated parser state.
Steps, in source order: save `PassedParameterCount.top()` and set it to 2
(the `std::swap` at line 532; an empty stack is C++ UB); look up the
operator's alias; for `Keywords::Or` / `Keywords::And` (modelled as
`"or"` / `"and"`) build a bitwise or logical compound operation
according to the expression type, throwing on other types and marking
the child operations for discard; otherwise push both units' operands
back onto `TheStack` and call `CreateOperation`; wrap the operation in a
`PushOperation` unit; clear `first`'s operands; assemble the compound
unit `[first, second]`, copy its instructions into the operation (a
no-op unless it is a compound operator), clear its operations when
discarding, and append the push unit; finally restore
`PassedParameterCount.top()` to one less than its saved value (lines
587-588; the decrement of the unsigned count wraps modulo 2^32). -/
def combineStep (opname : OperatorName) (first second : InfixUnit)
    (expressiontype : EpochType) (st : Arith.ArithState) :
    Except InfixErr (InfixUnit × Arith.ArithState) :=
  match st.passedParameterCount with
  | [] => .error (.fault .stackUnderflow)
  | oldTop :: restPPC => do
    let st1 := { st with passedParameterCount := 2 :: restPPC }
    let opname_alias ← LookupInfixAlias opname
    let (op, discardoperations, st2) ←
      if opname_alias = "or" then
        if expressiontype = .integer ∨ expressiontype = .integer16 then
          pure (IOp.bitwiseOrOp expressiontype [], true, st1)
        else if expressiontype = .boolean then
          pure (IOp.logicalOrOp [], true, st1)
        else
          Except.error (.parserFailure "Invalid type for boolean operator")
      else if opname_alias = "and" then
        if expressiontype = .integer ∨ expressiontype = .integer16 then
          pure (IOp.bitwiseAndOp expressiontype [], true, st1)
        else if expressiontype = .boolean then
          pure (IOp.logicalAndOp [], true, st1)
        else
          Except.error (.parserFailure "Invalid type for boolean operator")
      else do
        let stPushed := { st1 with
          theStack := (first.operandsList ++ second.operandsList).reverse
                        ++ st1.theStack }
        let co ← CreateOperation opname_alias stPushed
        pure (co.1, false, co.2)
    let first' := first.clearOperands
    let op' := (pushContentsList [first', second]).foldl
                 IOp.addCompoundOperation op
    let combined :=
      if discardoperations then clearOperationsL [first', second]
      else [first', second]
    let newunit := InfixUnit.compoundUnit
      (combined ++ [.rawUnit [.pushOp op'] []])
    let st3 := { st2 with
      passedParameterCount := ((oldTop + 4294967295) % 4294967296) :: restPPC }
    .ok (newunit, st3)

/-- Result of scanning the operator list at one precedence level: either
the early `return false` of the failed assignment type check
(`Infix.cpp` 519-522), or the remaining operator list, unit list, parser
state, pending assignment lvalue, and return flag. -/
inductive ScanResult where
  | earlyFalse (st : Arith.ArithState)
  | finished (remaining : List OperatorName) (units : List InfixUnit)
      (st : Arith.ArithState) (injectlvalue : String) (ret : Bool)

/-- The inner loop of the precedence-combination pass
(`FinalizeInfixExpression`, `Infix.cpp` 508-600): scan the operator list
left to right at one precedence level.  The unit cursor is represented
as a zipper (`beforeRev` holds the already-passed units in reverse,
`after` the units from the cursor on); `keptRev` accumulates the
operators not erased at this level.  An operator at the current level is
either the assignment operator — record the lvalue popped from
`TheStack`, set the return flag, and bail out with `return false` if the
lvalue's variable type differs from the expression type — or a binary
operator: combine the unit at the cursor with its successor via
`combineStep`, leaving the cursor on the new unit.  A non-matching
operator advances the cursor unless it is the assignment operator
(lines 595-599).  Dereferencing or advancing the cursor past the end of
the unit list is C++ UB and maps to a fault. -/
def scanOperators (precedence : Nat) (expressiontype : EpochType) :
    List OperatorName → List OperatorName → List InfixUnit →
    List InfixUnit → Arith.ArithState → String → Bool →
    Except InfixErr ScanResult
  | [], keptRev, beforeRev, after, st, lv, ret =>
      .ok (.finished keptRev.reverse (beforeRev.reverse ++ after) st lv ret)
  | opname :: iterRest, keptRev, beforeRev, after, st, lv, ret => do
      let p ← GetInfixPrecedence opname
      if p = precedence then
        if opname = .assign then
          match st.theStack with
          | [] => .error (.fault .stackUnderflow)
          | e :: restStack =>
            let lv' := entryStringValue e
            let st' := { st with theStack := restStack }
            if st'.scope.getVariableType lv' ≠ expressiontype then
              .ok (.earlyFalse { st' with fatalError := true })
            else
              scanOperators precedence expressiontype iterRest keptRev
                beforeRev after st' lv' true
        else
          match after with
          | first :: second :: afterRest => do
            let r ← combineStep opname first second expressiontype st
            scanOperators precedence expressiontype iterRest keptRev
              beforeRev (r.1 :: afterRest) r.2 lv ret
          | _ => .error (.fault .stackUnderflow)
      else
        if opname ≠ .assign then
          match after with
          | u :: afterRest =>
            scanOperators precedence expressiontype iterRest
              (opname :: keptRev) (u :: beforeRev) afterRest st lv ret
          | [] => .error (.fault .stackUnderflow)
        else
          scanOperators precedence expressiontype iterRest
            (opname :: keptRev) beforeRev after st lv ret

/-- The outer loop of the precedence-combination pass
(`FinalizeInfixExpression`, `Infix.cpp` 505-601): run the operator scan
at each precedence level from the given level down to
`OPREC_MIN + 1 = 1`, resetting the unit cursor to the front at each
level. -/
def combineLevels (expressiontype : EpochType) :
    Nat → List OperatorName → List InfixUnit → Arith.ArithState →
    String → Bool → Except InfixErr ScanResult
  | 0, ops, units, st, lv, ret => .ok (.finished ops units st lv ret)
  | lvl + 1, ops, units, st, lv, ret => do
      let r ← scanOperators (lvl + 1) expressiontype ops [] [] units st lv ret
      match r with
      | .earlyFalse st' => .ok (.earlyFalse st')
      | .finished ops' units' st' lv' ret' =>
          combineLevels expressiontype lvl ops' units' st' lv' ret'

/-- Result of the combination-and-emission phase of
`FinalizeInfixExpression`: the function's return value, the operations
appended to the working block, and the final parser state. -/
structure CombineResult where
  returnValue : Bool
  emitted : List IOp
  state : Arith.ArithState

/-- The precedence-combination loop and emission epilogue of
`ParserState::FinalizeInfixExpression` (`Infix.cpp` 505-617), starting
from the already-built unit list and the current infix operator list:
run the combination loop from level `OPREC_MAX - 1` down (with the
pending lvalue empty and the return flag false); on the early
`return false` of a failed assignment type check nothing is emitted;
otherwise flush the surviving units in order onto the working block
(lines 604-610) and, when an assignment lvalue was recorded, append an
`AssignValue` operation for it (lines 612-616).  The subsequent
operand-stack bookkeeping for the enclosing expression (recording the
block's tail operation on `TheStack`, lines 618-622) and the pops of the
per-expression trackers are outside this embedding, which covers the
emission behaviour. -/
def finalizeInfixCombine (expressiontype : EpochType)
    (ops : List OperatorName) (units : List InfixUnit)
    (st : Arith.ArithState) : Except InfixErr CombineResult := do
  let r ← combineLevels expressiontype (OPREC_MAX - 1) ops units st "" false
  match r with
  | .earlyFalse st' => .ok ⟨false, [], st'⟩
  | .finished _ units' st' lv ret =>
      if lv ≠ "" then
        .ok ⟨ret, pushContentsList units' ++ [.assignValue lv], st'⟩
      else
        .ok ⟨ret, pushContentsList units', st'⟩

end InfixExpr
namespace InfixExpr

/-- Every operator in the fixed table has a precedence between
`OPREC_ASSIGNMENT = 1` and `OPREC_MEMBER = 13`. -/
theorem prec_bounds (o : OperatorName) (p : Nat)
    (h : GetInfixPrecedence o = .ok p) : 1 ≤ p ∧ p ≤ 13 := by
  cases o <;> (injection h with h; subst h; decide)

/-- Scanning two non-assignment operators at a level matching neither of
their precedences leaves the operator list, the unit list, and the state
unchanged. -/
theorem scan_skip_pair (lvl : Nat) (ety : EpochType) (o1 o2 : OperatorName)
    (p1 p2 : Nat) (hp1 : GetInfixPrecedence o1 = .ok p1)
    (hp2 : GetInfixPrecedence o2 = .ok p2)
    (h1 : p1 ≠ lvl) (h2 : p2 ≠ lvl)
    (h1a : o1 ≠ .assign) (h2a : o2 ≠ .assign)
    (ua ub uc : InfixUnit) (st : Arith.ArithState) (lv : String) (ret : Bool) :
    scanOperators lvl ety [o1, o2] [] [] [ua, ub, uc] st lv ret =
      .ok (.finished [o1, o2] [ua, ub, uc] st lv ret) := by
  simp [scanOperators, hp1, hp2, h1, h2, h1a, h2a, bind, Except.bind]

/-- Scanning the pair at the second operator's precedence level skips
the first operator (advancing the cursor) and combines the second and
third units with the second operator. -/
theorem scan_hit_second (ety : EpochType) (o1 o2 : OperatorName)
    (p1 p2 : Nat) (hp1 : GetInfixPrecedence o1 = .ok p1)
    (hp2 : GetInfixPrecedence o2 = .ok p2) (h1 : p1 ≠ p2)
    (h1a : o1 ≠ .assign) (h2a : o2 ≠ .assign)
    (ua ub uc : InfixUnit) (st : Arith.ArithState) (lv : String) (ret : Bool) :
    scanOperators p2 ety [o1, o2] [] [] [ua, ub, uc] st lv ret =
      (combineStep o2 ub uc ety st).bind
        (fun r => .ok (.finished [o1] [ua, r.1] r.2 lv ret)) := by
  simp [scanOperators, hp1, hp2, h1, h1a, h2a, bind, Except.bind]

/-- Scanning a single non-assignment operator at a non-matching level is
a no-op. -/
theorem scan_skip_single (lvl : Nat) (ety : EpochType) (o1 : OperatorName)
    (p1 : Nat) (hp1 : GetInfixPrecedence o1 = .ok p1) (h1 : p1 ≠ lvl)
    (h1a : o1 ≠ .assign)
    (ua u2 : InfixUnit) (st : Arith.ArithState) (lv : String) (ret : Bool) :
    scanOperators lvl ety [o1] [] [] [ua, u2] st lv ret =
      .ok (.finished [o1] [ua, u2] st lv ret) := by
  simp [scanOperators, hp1, h1, h1a, bind, Except.bind]

/-- Scanning a single non-assignment operator at its own precedence
level combines the two units at the front of the unit list. -/
theorem scan_hit_single (ety : EpochType) (o1 : OperatorName)
    (p1 : Nat) (hp1 : GetInfixPrecedence o1 = .ok p1) (h1a : o1 ≠ .assign)
    (ua u2 : InfixUnit) (st : Arith.ArithState) (lv : String) (ret : Bool) :
    scanOperators p1 ety [o1] [] [] [ua, u2] st lv ret =
      (combineStep o1 ua u2 ety st).bind
        (fun r => .ok (.finished [] [r.1] r.2 lv ret)) := by
  simp [scanOperators, hp1, h1a, bind, Except.bind]

/-- Running the level loop with no operators left changes nothing. -/
theorem combineLevels_nil (ety : EpochType) (lvl : Nat)
    (units : List InfixUnit) (st : Arith.ArithState) (lv : String)
    (ret : Bool) :
    combineLevels ety lvl [] units st lv ret =
      .ok (.finished [] units st lv ret) := by
  induction lvl with
  | zero => rfl
  | succ n ih => simp [combineLevels, scanOperators, bind, Except.bind, ih]

/-- Levels above both operators' precedences are no-ops: the level loop
started at `p2 + k` reaches level `p2` with everything unchanged. -/
theorem combineLevels_skip_to_p2 (ety : EpochType) (o1 o2 : OperatorName)
    (p1 p2 : Nat) (hp1 : GetInfixPrecedence o1 = .ok p1)
    (hp2 : GetInfixPrecedence o2 = .ok p2) (hlt : p1 < p2)
    (h1a : o1 ≠ .assign) (h2a : o2 ≠ .assign)
    (ua ub uc : InfixUnit) (lv : String) (ret : Bool) :
    ∀ (k : Nat) (st : Arith.ArithState),
    combineLevels ety (p2 + k) [o1, o2] [ua, ub, uc] st lv ret =
      combineLevels ety p2 [o1, o2] [ua, ub, uc] st lv ret := by
  intro k
  induction k with
  | zero => intro st; rfl
  | succ n ih =>
    intro st
    rw [show p2 + (n + 1) = (p2 + n) + 1 from rfl]
    rw [combineLevels]
    rw [scan_skip_pair (p2 + n + 1) ety o1 o2 p1 p2 hp1 hp2
      (by omega) (by omega) h1a h2a ua ub uc st lv ret]
    simpa [bind, Except.bind] using ih st

/-- Levels strictly between the two operators' precedences are no-ops:
the level loop started at `p1 + k` over the single remaining operator
reaches level `p1` unchanged. -/
theorem combineLevels_skip_to_p1 (ety : EpochType) (o1 : OperatorName)
    (p1 : Nat) (hp1 : GetInfixPrecedence o1 = .ok p1) (h1a : o1 ≠ .assign)
    (ua u2 : InfixUnit) (lv : String) (ret : Bool) :
    ∀ (k : Nat) (st : Arith.ArithState),
    combineLevels ety (p1 + k) [o1] [ua, u2] st lv ret =
      combineLevels ety p1 [o1] [ua, u2] st lv ret := by
  intro k
  induction k with
  | zero => intro st; rfl
  | succ n ih =>
    intro st
    rw [show p1 + (n + 1) = (p1 + n) + 1 from rfl]
    rw [combineLevels]
    rw [scan_skip_single (p1 + n + 1) ety o1 p1 hp1 (by omega) h1a
      ua u2 st lv ret]
    simpa [bind, Except.bind] using ih st

/-- Core of the precedence-lowering argument: over the operator list
`[o1, o2]` with `prec o1 < prec o2` (neither the assignment operator),
the full level loop — from `OPREC_MAX - 1` down — equals combining the
second and third units with `o2` first, then combining the first unit
with the resulting compound unit using `o1`. -/
theorem combineLevels_pair (ety : EpochType) (o1 o2 : OperatorName)
    (p1 p2 : Nat) (hp1 : GetInfixPrecedence o1 = .ok p1)
    (hp2 : GetInfixPrecedence o2 = .ok p2) (hlt : p1 < p2)
    (h1a : o1 ≠ .assign) (h2a : o2 ≠ .assign)
    (ua ub uc : InfixUnit) (st : Arith.ArithState) :
    combineLevels ety (OPREC_MAX - 1) [o1, o2] [ua, ub, uc] st "" false =
      (combineStep o2 ub uc ety st).bind (fun r2 =>
        (combineStep o1 ua r2.1 ety r2.2).bind (fun r1 =>
          .ok (.finished [] [r1.1] r1.2 "" false))) := by
  have hb1 := prec_bounds o1 p1 hp1
  have hb2 := prec_bounds o2 p2 hp2
  have e13 : OPREC_MAX - 1 = p2 + (13 - p2) := by
    simp only [OPREC_MAX]; omega
  rw [e13, combineLevels_skip_to_p2 ety o1 o2 p1 p2 hp1 hp2 hlt h1a h2a
    ua ub uc "" false (13 - p2) st]
  obtain ⟨q2, rfl⟩ : ∃ q, p2 = q + 1 := ⟨p2 - 1, by omega⟩
  rw [combineLevels]
  rw [scan_hit_second ety o1 o2 p1 (q2 + 1) hp1 hp2 (by omega) h1a h2a
    ua ub uc st "" false]
  cases hc2 : combineStep o2 ub uc ety st with
  | error e => simp [bind, Except.bind]
  | ok r2 =>
    simp only [bind, Except.bind]
    have eq2 : q2 = p1 + (q2 - p1) := by omega
    rw [eq2, combineLevels_skip_to_p1 ety o1 p1 hp1 h1a ua r2.1 "" false
      (q2 - p1) r2.2]
    obtain ⟨q1, rfl⟩ : ∃ q, p1 = q + 1 := ⟨p1 - 1, by omega⟩
    rw [combineLevels]
    rw [scan_hit_single ety o1 (q1 + 1) hp1 h1a ua r2.1 r2.2 "" false]
    cases hc1 : combineStep o1 ua r2.1 ety r2.2 with
    | error e => simp [bind, Except.bind]
    | ok r1 =>
      simp only [bind, Except.bind]
      exact combineLevels_nil ety q1 [r1.1] r1.2 "" false

end InfixExpr
namespace InfixExpr

/-- The assignment operator sits at precedence level
`OPREC_ASSIGNMENT = 1`. -/
theorem prec_assign : GetInfixPrecedence .assign = .ok 1 := rfl

/-- Scanning the assignment operator followed by a non-assignment
operator at a level matching neither precedence is a no-op; note that a
skipped assignment operator does not advance the unit cursor. -/
theorem scan_skip_assign_pair (lvl : Nat) (ety : EpochType)
    (o2 : OperatorName) (p2 : Nat) (hp2 : GetInfixPrecedence o2 = .ok p2)
    (h1 : (1 : Nat) ≠ lvl) (h2 : p2 ≠ lvl) (h2a : o2 ≠ .assign)
    (ub uc : InfixUnit) (st : Arith.ArithState) (lv : String) (ret : Bool) :
    scanOperators lvl ety [.assign, o2] [] [] [ub, uc] st lv ret =
      .ok (.finished [.assign, o2] [ub, uc] st lv ret) := by
  simp [scanOperators, prec_assign, hp2, h1, h2, h2a, bind, Except.bind]

/-- Scanning `[assign, o2]` at the precedence level of `o2` leaves the
cursor at the front (the skipped assignment operator does not advance
it) and combines the first two units with `o2`. -/
theorem scan_hit_second_assign (ety : EpochType) (o2 : OperatorName)
    (p2 : Nat) (hp2 : GetInfixPrecedence o2 = .ok p2)
    (h2 : (1 : Nat) ≠ p2) (h2a : o2 ≠ .assign)
    (ub uc : InfixUnit) (st : Arith.ArithState) (lv : String) (ret : Bool) :
    scanOperators p2 ety [.assign, o2] [] [] [ub, uc] st lv ret =
      (combineStep o2 ub uc ety st).bind
        (fun r => .ok (.finished [.assign] [r.1] r.2 lv ret)) := by
  simp [scanOperators, prec_assign, hp2, h2, h2a, bind, Except.bind]

/-- Scanning the assignment operator alone at a level other than 1 is a
no-op. -/
theorem scan_skip_assign_single (lvl : Nat) (ety : EpochType)
    (h1 : (1 : Nat) ≠ lvl)
    (u2 : InfixUnit) (st : Arith.ArithState) (lv : String) (ret : Bool) :
    scanOperators lvl ety [.assign] [] [] [u2] st lv ret =
      .ok (.finished [.assign] [u2] st lv ret) := by
  simp [scanOperators, prec_assign, h1, bind, Except.bind]

/-- Scanning the assignment operator at level 1 pops the pending lvalue
off the operand stack, checks its variable type against the expression
type (bailing out with the fatal-error flag set on a mismatch), and
records it for injection. -/
theorem scan_hit_assign (ety : EpochType) (u2 : InfixUnit)
    (st : Arith.ArithState) (lv : String) (ret : Bool) :
    scanOperators 1 ety [.assign] [] [] [u2] st lv ret =
      match st.theStack with
      | [] => .error (.fault .stackUnderflow)
      | e :: rest =>
        if st.scope.getVariableType (entryStringValue e) ≠ ety then
          .ok (.earlyFalse { st with theStack := rest, fatalError := true })
        else
          .ok (.finished [] [u2] { st with theStack := rest }
                (entryStringValue e) true) := by
  cases ht : st.theStack with
  | nil => simp [scanOperators, prec_assign, ht, bind, Except.bind]
  | cons e rest =>
    by_cases hty :
        st.scope.getVariableType (entryStringValue e) ≠ ety <;>
      simp [scanOperators, prec_assign, ht, hty, bind, Except.bind]

/-- Levels above the non-assignment operator's precedence are no-ops for
the operator list `[assign, o2]`. -/
theorem combineLevels_skip_to_p2_assign (ety : EpochType)
    (o2 : OperatorName) (p2 : Nat) (hp2 : GetInfixPrecedence o2 = .ok p2)
    (hgt : 1 < p2) (h2a : o2 ≠ .assign)
    (ub uc : InfixUnit) (lv : String) (ret : Bool) :
    ∀ (k : Nat) (st : Arith.ArithState),
    combineLevels ety (p2 + k) [.assign, o2] [ub, uc] st lv ret =
      combineLevels ety p2 [.assign, o2] [ub, uc] st lv ret := by
  intro k
  induction k with
  | zero => intro st; rfl
  | succ n ih =>
    intro st
    rw [show p2 + (n + 1) = (p2 + n) + 1 from rfl]
    rw [combineLevels]
    rw [scan_skip_assign_pair (p2 + n + 1) ety o2 p2 hp2
      (by omega) (by omega) h2a ub uc st lv ret]
    simpa [bind, Except.bind] using ih st

/-- Levels strictly between 1 and the combined-away operator are no-ops
for the remaining operator list `[assign]`. -/
theorem combineLevels_skip_to_1_assign (ety : EpochType)
    (u2 : InfixUnit) (lv : String) (ret : Bool) :
    ∀ (k : Nat) (st : Arith.ArithState),
    combineLevels ety (1 + k) [.assign] [u2] st lv ret =
      combineLevels ety 1 [.assign] [u2] st lv ret := by
  intro k
  induction k with
  | zero => intro st; rfl
  | succ n ih =>
    intro st
    rw [show 1 + (n + 1) = (1 + n) + 1 from rfl]
    rw [combineLevels]
    rw [scan_skip_assign_single (1 + n + 1) ety (by omega) u2 st lv ret]
    simpa [bind, Except.bind] using ih st

/-- Core of the assignment variant: over the operator list
`[assign, o2]` with `1 < prec o2`, the full level loop equals combining
the two units with `o2` first and then performing the assignment
handling (lvalue pop and type check) on the resulting state. -/
theorem combineLevels_assign_pair (ety : EpochType) (o2 : OperatorName)
    (p2 : Nat) (hp2 : GetInfixPrecedence o2 = .ok p2) (hgt : 1 < p2)
    (h2a : o2 ≠ .assign)
    (ub uc : InfixUnit) (st : Arith.ArithState) :
    combineLevels ety (OPREC_MAX - 1) [.assign, o2] [ub, uc] st "" false =
      (combineStep o2 ub uc ety st).bind (fun r2 =>
        match r2.2.theStack with
        | [] => .error (.fault .stackUnderflow)
        | e :: rest =>
          if r2.2.scope.getVariableType (entryStringValue e) ≠ ety then
            .ok (.earlyFalse
              { r2.2 with theStack := rest, fatalError := true })
          else
            .ok (.finished [] [r2.1] { r2.2 with theStack := rest }
                  (entryStringValue e) true)) := by
  have hb2 := prec_bounds o2 p2 hp2
  have e13 : OPREC_MAX - 1 = p2 + (13 - p2) := by
    simp only [OPREC_MAX]; omega
  rw [e13, combineLevels_skip_to_p2_assign ety o2 p2 hp2 hgt h2a
    ub uc "" false (13 - p2) st]
  obtain ⟨q2, rfl⟩ : ∃ q, p2 = q + 1 := ⟨p2 - 1, by omega⟩
  rw [combineLevels]
  rw [scan_hit_second_assign ety o2 (q2 + 1) hp2 (by omega) h2a
    ub uc st "" false]
  cases hc2 : combineStep o2 ub uc ety st with
  | error e => simp [bind, Except.bind]
  | ok r2 =>
    simp only [bind, Except.bind]
    have eq2 : q2 = 1 + (q2 - 1) := by omega
    rw [eq2, combineLevels_skip_to_1_assign ety r2.1 "" false
      (q2 - 1) r2.2]
    rw [show (1 : Nat) = 0 + 1 from rfl, combineLevels]
    rw [scan_hit_assign ety r2.1 r2.2 "" false]
    cases ht : r2.2.theStack with
    | nil => simp [bind, Except.bind]
    | cons e rest =>
      by_cases hty :
          r2.2.scope.getVariableType (entryStringValue e) ≠ ety <;>
        simp [hty, bind, Except.bind, combineLevels]

end InfixExpr
namespace InfixExpr

/-- Scope used by the concrete C3 instance: one integer variable. -/
def c3Scope : Arith.BScope := ⟨[("x", EpochType.integer)], []⟩

/-- Parser state for the concrete C3 instance. -/
def c3State : Arith.ArithState := ⟨[5], [], c3Scope, false⟩

/-- Unit for operand `a` of the concrete phrase `a + b * c`. -/
def c3UnitA : InfixUnit := .rawUnit [.rawOp 0] [.intLiteral 1]

/-- Unit for operand `b` of the concrete phrase `a + b * c`. -/
def c3UnitB : InfixUnit := .rawUnit [.rawOp 1] [.intLiteral 2]

/-- Unit for operand `c` of the concrete phrase `a + b * c`. -/
def c3UnitC : InfixUnit := .rawUnit [.rawOp 2] [.intLiteral 3]

/-- C3: operator precedence lowering.  For every pair of infix operators
`o1`, `o2` of the fixed table with `precedence o1 < precedence o2`, the
combination loop of `FinalizeInfixExpression` — which processes
precedence levels from `OPREC_MAX - 1` down to `OPREC_MIN + 1` — lowers
the three operand units of the phrase `a o1 b o2 c` by first applying
`o2` to the units for `b` and `c` (the higher level is reached first)
and then applying `o1` to the unit for `a` and the compound unit
produced for `o2`.  First conjunct: for a non-assignment `o1` the whole
pass literally equals `combineStep o2` on the `b`/`c` units followed by
`combineStep o1` on the `a` unit and the resulting compound, flushed in
that nesting order.  Second conjunct: when `o1` is the assignment
operator (the one operator handled outside the unit combination), the
pass equals `combineStep o2` on the `b`/`c` units followed by the
assignment handling — the pending lvalue is popped and type checked, and
an `AssignValue` operation for it is emitted after the `o2` compound.
Third conjunct: for the concrete integer phrase `a + b * c` the emitted
IR is the three operand pushes followed by the multiply operation and
then the add operation. -/
theorem c3_precedence_lowering :
    (∀ (ety : EpochType) (o1 o2 : OperatorName) (p1 p2 : Nat),
      GetInfixPrecedence o1 = .ok p1 → GetInfixPrecedence o2 = .ok p2 →
      p1 < p2 → o1 ≠ .assign →
      ∀ (ua ub uc : InfixUnit) (st : Arith.ArithState),
      finalizeInfixCombine ety [o1, o2] [ua, ub, uc] st =
        (combineStep o2 ub uc ety st).bind (fun r2 =>
          (combineStep o1 ua r2.1 ety r2.2).bind (fun r1 =>
            .ok ⟨false, pushContentsList [r1.1], r1.2⟩)))
    ∧ (∀ (ety : EpochType) (o2 : OperatorName) (p2 : Nat),
      GetInfixPrecedence o2 = .ok p2 → 1 < p2 →
      ∀ (ub uc : InfixUnit) (st : Arith.ArithState),
      finalizeInfixCombine ety [.assign, o2] [ub, uc] st =
        (combineStep o2 ub uc ety st).bind (fun r2 =>
          match r2.2.theStack with
          | [] => .error (.fault .stackUnderflow)
          | e :: rest =>
            if r2.2.scope.getVariableType (entryStringValue e) ≠ ety then
              .ok ⟨false, [],
                { r2.2 with theStack := rest, fatalError := true }⟩
            else if entryStringValue e ≠ "" then
              .ok ⟨true,
                pushContentsList [r2.1]
                  ++ [.assignValue (entryStringValue e)],
                { r2.2 with theStack := rest }⟩
            else
              .ok ⟨true, pushContentsList [r2.1],
                { r2.2 with theStack := rest }⟩))
    ∧ finalizeInfixCombine .integer [.add, .multiply]
        [c3UnitA, c3UnitB, c3UnitC] c3State =
        .ok ⟨false,
          [.rawOp 0, .rawOp 1, .rawOp 2,
           .pushOp (.arithOp (.arith .multiply .integer
             (.binary false false))),
           .pushOp (.arithOp (.arith .add .integer
             (.binary false false)))],
          ⟨[3], [], c3Scope, false⟩⟩ := by
  refine ⟨?_, ?_, ?_⟩
  · intro ety o1 o2 p1 p2 hp1 hp2 hlt h1a ua ub uc st
    have h2a : o2 ≠ .assign := by
      rintro rfl
      rw [prec_assign] at hp2
      injection hp2 with h
      have := (prec_bounds o1 p1 hp1).1
      omega
    rw [finalizeInfixCombine,
      combineLevels_pair ety o1 o2 p1 p2 hp1 hp2 hlt h1a h2a ua ub uc st]
    cases hc2 : combineStep o2 ub uc ety st with
    | error e => simp [bind, Except.bind]
    | ok r2 =>
      simp only [bind, Except.bind]
      cases hc1 : combineStep o1 ua r2.1 ety r2.2 with
      | error e => simp [bind, Except.bind]
      | ok r1 => simp [bind, Except.bind]
  · intro ety o2 p2 hp2 hgt ub uc st
    have h2a : o2 ≠ .assign := by
      rintro rfl
      rw [prec_assign] at hp2
      injection hp2 with h
      omega
    rw [finalizeInfixCombine,
      combineLevels_assign_pair ety o2 p2 hp2 hgt h2a ub uc st]
    cases hc2 : combineStep o2 ub uc ety st with
    | error e => simp [bind, Except.bind]
    | ok r2 =>
      simp only [bind, Except.bind]
      cases ht : r2.2.theStack with
      | nil => simp [bind, Except.bind]
      | cons e rest =>
        by_cases hty :
            r2.2.scope.getVariableType (entryStringValue e) ≠ ety
        · simp [hty, bind, Except.bind]
        · by_cases hlv : entryStringValue e ≠ "" <;>
            simp [hty, hlv, bind, Except.bind]
  · rfl

/-- Scope for the C3 witness instances. -/
def c3wScope : Arith.BScope := ⟨[("total", EpochType.integer)], []⟩

/-- Parser state for the C3 witness instance of the first conjunct. -/
def c3wState : Arith.ArithState := ⟨[2], [], c3wScope, false⟩

/-- Witness unit for operand `a`. -/
def c3wUnitA : InfixUnit := .rawUnit [.rawOp 10] [.identifier "total"]

/-- Witness unit for operand `b`. -/
def c3wUnitB : InfixUnit := .rawUnit [.rawOp 11] [.intLiteral 6]

/-- Witness unit for operand `c`. -/
def c3wUnitC : InfixUnit := .rawUnit [.rawOp 12] [.intLiteral 7]

/-- Parser state for the C3 witness instance of the assignment conjunct:
the lvalue identifier is pending on the operand stack. -/
def c3wState2 : Arith.ArithState :=
  ⟨[1], [.identifier "total"], c3wScope, false⟩

/-- Witness for C3: the general lowering theorem instantiated at the
integer phrases `total - 6 / 7` (subtraction at precedence 8, division
at precedence 9) and `total = 6 * 7` (assignment at precedence 1,
multiplication at precedence 9), with the resulting IR evaluated. -/
theorem c3_lowering_witness :
    finalizeInfixCombine .integer [.subtract, .divide]
        [c3wUnitA, c3wUnitB, c3wUnitC] c3wState =
      .ok ⟨false,
        [.rawOp 10, .rawOp 11, .rawOp 12,
         .pushOp (.arithOp (.arith .divide .integer (.binary false false))),
         .pushOp (.arithOp (.arith .subtract .integer
           (.binary false false)))],
        ⟨[0], [], c3wScope, false⟩⟩
    ∧ finalizeInfixCombine .integer [.assign, .multiply]
        [c3wUnitB, c3wUnitC] c3wState2 =
      .ok ⟨true,
        [.rawOp 11, .rawOp 12,
         .pushOp (.arithOp (.arith .multiply .integer
           (.binary false false))),
         .assignValue "total"],
        ⟨[0], [], c3wScope, false⟩⟩ :=
  ⟨(c3_precedence_lowering.1 .integer .subtract .divide 8 9 rfl rfl
      (by decide) (by decide) c3wUnitA c3wUnitB c3wUnitC c3wState).trans
    (by rfl),
   (c3_precedence_lowering.2.1 .integer .multiply 9 rfl (by decide)
      c3wUnitB c3wUnitC c3wState2).trans (by rfl)⟩

end InfixExpr
